import Mathlib

/-!
# Sweet Shop inventory API: handlers, validation chains and middleware

A shallow embedding of `backend/src/controllers/sweet.controller.js`,
`backend/src/models/Sweet.js`, `backend/src/routes/sweet.routes.js`,
`backend/src/routes/auth.routes.js`, `backend/src/middleware/auth.middleware.js` and the
error handler of `backend/src/app.js`, and of the route guard of the client,
`frontend/src/App.jsx` and `frontend/src/context/AuthContext.jsx`.

Conventions of the embedding

* A JavaScript Number is a `JSNum`: `NaN`, the two infinities, or a finite value held as a
  rational.  The sum and the difference of two finite values are rounded to the nearest IEEE
  double (`roundToDouble`), so they are exact on the integers up to `2 ^ 53` and not beyond;
  the two zeroes are not told apart.
* A value found in a parsed JSON request body is a `JSVal`.  Arrays and objects are represented
  by what the code observes of them: the outcome of their conversion to a primitive, which is
  all the handlers observe, and the strings that the validators read.
* The behaviour of the language runtime and of the storage driver that is not part of the
  repository (string/number conversion, ObjectId casting) is a parameter, `Runtime`.
  The general theorems hold for every runtime; `stdRuntime` is a concrete one on which the
  handlers are evaluated at particular requests.  In the same way the token package is a
  `Jwt`, the account collection a `UserModel`, and the regular expressions and the sort of
  the database a `Storage`, with `sampleJwt`, `sampleUsers` and `stdStorage` as concrete
  ones.
* The validators of the route chains work on the string of a value, and on the strings of
  the elements of an array one by one, as express-validator does; `isLength` counts code
  points other than the variation selectors where the `maxlength` of the schema counts UTF-16
  code units.
* A handler is a function from the store and the request to what it did with the response
  (`Outcome`) and the store afterwards.  `purchaseSweet` is split at its `await sweet.save()`
  into `purchaseRead` and `purchaseWrite`, the two storage steps that a second request can
  come between.
* The handlers of `controllers/auth.controller.js` and the account model are not among the
  sources: Register and Login are modelled from the specification, on the errors that the
  validation chains of `routes/auth.routes.js` record and on a username and a password that
  are strings.
* `save()` validates the document against the schema of `models/Sweet.js`; the statements
  about accepted requests assume that the stored product satisfies that schema, as every
  document written through the model does.
-/

namespace SweetShop

/-! ## JavaScript numbers and values -/

/-- A JavaScript Number: `NaN`, an infinity, or a finite value, held as the rational that it
is. -/
inductive JSNum where
  | nan
  | fin (q : ℚ)
  | posInf
  | negInf
deriving DecidableEq

/-- The integer nearest to a rational, the even one of two that are equally near. -/
def roundHalfEven (x : ℚ) : ℤ :=
  if x - ⌊x⌋ < 1 / 2 then ⌊x⌋
  else if 1 / 2 < x - ⌊x⌋ then ⌊x⌋ + 1
  else if ⌊x⌋ % 2 = 0 then ⌊x⌋ else ⌊x⌋ + 1

/-- The number of binary digits of a natural number, found by halving; the first argument
bounds the number of halvings. -/
def bitLength : ℕ → ℕ → ℕ
  | 0, _ => 0
  | fuel + 1, n => if n = 0 then 0 else bitLength fuel (n / 2) + 1

/-- The exponent of the binade of a positive rational `a`: the `e` with
`2 ^ e <= a < 2 ^ (e + 1)`. -/
def binade (a : ℚ) : ℤ :=
  let d : ℤ := (bitLength a.num.natAbs a.num.natAbs : ℤ) - (bitLength a.den a.den : ℤ)
  if (2 : ℚ) ^ d ≤ a then d else d - 1

/-- The IEEE 754 double nearest to a rational, ties going to the even significand: what the
result of an arithmetic operation on Numbers is rounded to.  Below the smallest normal binade
the spacing is that of the subnormal numbers, a magnitude that rounds to `2 ^ 1024` or more
overflows to an infinity, and the zero that a negative magnitude rounds to is not told apart
from `0`. -/
def roundToDouble (q : ℚ) : JSNum :=
  if q = 0 then .fin 0
  else
    let e := max (binade |q|) (-1022)
    let ulp : ℚ := 2 ^ (e - 52)
    let r : ℚ := roundHalfEven (|q| / ulp) * ulp
    if 2 ^ 1024 ≤ r then (if q < 0 then .negInf else .posInf)
    else .fin (if q < 0 then -r else r)

namespace JSNum

/-- The operator `a < b` on two Numbers; any comparison with `NaN` is false. -/
def lt : JSNum → JSNum → Bool
  | nan, _ => false
  | _, nan => false
  | fin a, fin b => decide (a < b)
  | fin _, posInf => true
  | fin _, negInf => false
  | posInf, _ => false
  | negInf, negInf => false
  | negInf, _ => true

/-- The operator `a >= b` on two Numbers; any comparison with `NaN` is false. -/
def ge : JSNum → JSNum → Bool
  | nan, _ => false
  | _, nan => false
  | fin a, fin b => decide (b ≤ a)
  | posInf, _ => true
  | _, negInf => true
  | fin _, posInf => false
  | negInf, _ => false

/-- Unary minus. -/
def neg : JSNum → JSNum
  | nan => nan
  | fin a => fin (-a)
  | posInf => negInf
  | negInf => posInf

/-- The operator `a + b` on two Numbers: the sum of two finite values is rounded to the
nearest double. -/
def add : JSNum → JSNum → JSNum
  | nan, _ => nan
  | _, nan => nan
  | fin a, fin b => roundToDouble (a + b)
  | fin _, posInf => posInf
  | fin _, negInf => negInf
  | posInf, negInf => nan
  | posInf, _ => posInf
  | negInf, posInf => nan
  | negInf, _ => negInf

/-- The operator `a - b` on two Numbers: the difference of two finite values is rounded to the
nearest double. -/
def sub (a b : JSNum) : JSNum := add a (neg b)

/-- The operator `!n` on a Number: true for `0` and `NaN`. -/
def isFalsy : JSNum → Bool
  | nan => true
  | fin a => decide (a = 0)
  | _ => false

/-- A Number that is a mathematical integer (what `Number.isInteger` tests). -/
def isInteger : JSNum → Bool
  | fin a => decide (a.den = 1)
  | _ => false

end JSNum

/-- What the code observes of an array or object of a parsed JSON body.  `primitive` is the
string that its conversion to a primitive yields (the elements joined by commas for an array,
`[object Object]` for a plain object), or `none` when that conversion throws a `TypeError`,
as it does for an object with an own property `toString`, which JSON cannot make a function.
`names` is the list of the own property names of such an object, joined by commas, which the
validators read in place of its string.  `elements` is `none` for an object and, for an
array, the strings that the validators read its elements as.  `documentId` is the own
property `_id` of an object when it is a non-empty string, which the String schema type takes
for the value of the object, as it does for a document that is passed in. -/
structure ObjectView where
  primitive : Option String
  names : String := ""
  elements : Option (List String) := none
  documentId : Option String := none
deriving DecidableEq

/-- A value of a field of a parsed JSON body.  `undefined` is an absent field.  An array or
object is `obj p`, where `p` is what the code observes of it. -/
inductive JSVal where
  | undefined
  | null
  | bool (b : Bool)
  | num (n : JSNum)
  | str (s : String)
  | obj (p : ObjectView)
deriving DecidableEq

/-- An identifier of a stored document (a MongoDB ObjectId). -/
abbrev ObjectId := Nat

/-- The behaviour of the platform underneath the repository's code. -/
structure Runtime where
  /-- The conversion `Number(s)` of a string. -/
  stringToNumber : String → JSNum
  /-- The conversion `String(n)` of a Number. -/
  numberToString : JSNum → String
  /-- The cast of a route parameter to an ObjectId; `none` is a `CastError`. -/
  castObjectId : String → Option ObjectId

/-- The errors that the handlers can meet, with the `name` the `catch` blocks inspect. -/
inductive JSError where
  | castError
  | validationError
  | typeError
  | jsonWebTokenError
  | tokenExpiredError
  | notBeforeError
  | mongoServerError
deriving DecidableEq

/-- The `name` property of an error. -/
def JSError.name : JSError → String
  | castError => "CastError"
  | validationError => "ValidationError"
  | typeError => "TypeError"
  | jsonWebTokenError => "JsonWebTokenError"
  | tokenExpiredError => "TokenExpiredError"
  | notBeforeError => "NotBeforeError"
  | mongoServerError => "MongoServerError"

/-- The conversion of a value to a primitive; `none` when it throws a `TypeError`. -/
def toPrimitive : JSVal → Option JSVal
  | .obj p => p.primitive.map JSVal.str
  | v => some v

/-- The conversion of a value to a Number; `none` when it throws a `TypeError`. -/
def toNumber (rt : Runtime) : JSVal → Option JSNum
  | .undefined => some .nan
  | .null => some (.fin 0)
  | .bool true => some (.fin 1)
  | .bool false => some (.fin 0)
  | .num n => some n
  | .str s => some (rt.stringToNumber s)
  | .obj p => p.primitive.map rt.stringToNumber

/-- The operator `!v`. -/
def isFalsy : JSVal → Bool
  | .undefined => true
  | .null => true
  | .bool b => !b
  | .num n => n.isFalsy
  | .str s => decide (s = "")
  | .obj _ => false

/-- The operator `v < n` where the right operand is a Number. -/
def valLtNum (rt : Runtime) (v : JSVal) (n : JSNum) : Option Bool :=
  (toNumber rt v).map (fun x => x.lt n)

/-- The operator `n < v` where the left operand is a Number. -/
def numLtVal (rt : Runtime) (n : JSNum) (v : JSVal) : Option Bool :=
  (toNumber rt v).map (fun x => n.lt x)

/-- The operator `n - v` where the left operand is a Number. -/
def numSubVal (rt : Runtime) (n : JSNum) (v : JSVal) : Option JSNum :=
  (toNumber rt v).map (fun x => n.sub x)

/-- The operator `n + v` where the left operand is a Number: concatenation when the right
operand converts to a string primitive, numeric addition otherwise. -/
def numAddVal (rt : Runtime) (n : JSNum) (v : JSVal) : Option JSVal :=
  match toPrimitive v with
  | none => none
  | some (.str s) => some (.str (rt.numberToString n ++ s))
  | some p => (toNumber rt p).map (fun x => .num (n.add x))

/-! ## The product model (`models/Sweet.js`) and the store -/

/-- A product document.  The paths `description` and `imageUrl` are not required by the
schema: they are `none` when they hold `null`. -/
structure Sweet where
  _id : ObjectId
  name : String
  category : String
  price : JSNum
  quantity : JSNum
  description : Option String
  imageUrl : Option String
deriving DecidableEq

/-- The `enum` of the `category` path. -/
def categories : List String :=
  ["chocolate", "candy", "cake", "cookie", "ice-cream", "pastry", "traditional", "other"]

/-- The `length` of a JavaScript string: the number of UTF-16 code units. -/
def jsLength (s : String) : Nat :=
  (s.toList.map (fun c => if c.toNat < 65536 then 1 else 2)).sum

/-- The virtual `inStock`. -/
def Sweet.inStock (s : Sweet) : Bool := JSNum.lt (.fin 0) s.quantity

/-- The validators of the schema: `required` on name, category, price and quantity,
`maxlength` on name and description, `enum` on category, `min` 0 on price and quantity. -/
def schemaValid (s : Sweet) : Bool :=
  decide (s.name ≠ "") && decide (jsLength s.name ≤ 100)
    && decide (s.category ≠ "") && decide (s.category ∈ categories)
    && s.price.ge (.fin 0)
    && s.quantity.ge (.fin 0)
    && (match s.description with
      | none => true
      | some d => decide (jsLength d ≤ 500))

/-- The outcome of casting a value assigned to a path of type Number. -/
inductive Cast where
  | value (n : JSNum)
  | empty
  | failed
deriving DecidableEq

/-- The cast of the Number schema type: `null`, `undefined` and the empty string give an empty
path, a string or boolean is converted with `Number`, and `NaN`, arrays and objects fail. -/
def castNumber (rt : Runtime) : JSVal → Cast
  | .undefined => .empty
  | .null => .empty
  | .str s =>
    if s = "" then .empty
    else match rt.stringToNumber s with
      | .nan => .failed
      | n => .value n
  | .bool true => .value (.fin 1)
  | .bool false => .value (.fin 0)
  | .num .nan => .failed
  | .num n => .value n
  | .obj _ => .failed

/-- The assignment `sweet.quantity = v` on a loaded document.  The result is `none` when the
path is left with a cast error or empty, both of which make `save()` reject. -/
def setQuantity (rt : Runtime) (sweet : Sweet) (v : JSVal) : Option Sweet :=
  match castNumber rt v with
  | .value n => some { sweet with quantity := n }
  | _ => none

/-- The product collection. -/
abbrev Db := List Sweet

/-- The query `Sweet.findById(id)`: throws a `CastError` for a malformed id, resolves to
`null` when no document has the id. -/
def findById (rt : Runtime) (db : Db) (id : String) : Except JSError (Option Sweet) :=
  match rt.castObjectId id with
  | none => .error .castError
  | some oid => .ok (db.find? (fun s => s._id == oid))

/-- The update `updateOne({_id: oid}, {$set: {quantity: n}})` that `save()` issues for a
document whose only modified path is `quantity`. -/
def updateQuantity : Db → ObjectId → JSNum → Db
  | [], _, _ => []
  | s :: rest, oid, n =>
    if s._id == oid then { s with quantity := n } :: rest
    else s :: updateQuantity rest oid n

/-- The call `sweet.save()` after an assignment to `quantity`: validation against the schema,
then the write.  Rejects with a `ValidationError`. -/
def save (db : Db) (doc : Option Sweet) : Except JSError Db :=
  match doc with
  | none => .error .validationError
  | some s =>
    if schemaValid s then .ok (updateQuantity db s._id s.quantity)
    else .error .validationError

/-! ## Requests and responses -/

/-- Modelled from the spec: the Account record (`models/User.js` is not among the sources);
the middleware reads only `role`. -/
structure User where
  _id : ObjectId
  username : String
  role : String
deriving DecidableEq

/-- The fields of `req.body` that the handlers read. -/
structure Body where
  name : JSVal := .undefined
  category : JSVal := .undefined
  price : JSVal := .undefined
  quantity : JSVal := .undefined
  description : JSVal := .undefined
  imageUrl : JSVal := .undefined
deriving DecidableEq

/-- The route parameters. -/
structure Params where
  id : String := ""
deriving DecidableEq

/-- The parameters of the query string that `getAllSweets` reads, each given once and in
plain form, so that its value is a string. -/
structure Query where
  category : Option String := none
  search : Option String := none
  inStock : Option String := none
  sortBy : Option String := none
  order : Option String := none
deriving DecidableEq

/-- An entry of `validationResult(req).array()`: the field and the message. -/
structure FieldError where
  path : String
  msg : String
deriving DecidableEq

/-- The request as the handlers see it.  `validationErrors` is what the validation chains
that ran before the handler recorded on the request. -/
structure Request where
  params : Params := {}
  query : Query := {}
  body : Body := {}
  authorization : Option String := none
  user : Option User := none
  validationErrors : List FieldError := []
deriving DecidableEq

/-- A JSON response: the status and the fields of the body that are present. -/
structure Response where
  status : Nat := 200
  error : Option String := none
  message : Option String := none
  available : Option JSNum := none
  sweet : Option Sweet := none
  purchased : Option JSVal := none
  added : Option JSVal := none
  errors : Option (List FieldError) := none
  count : Option Nat := none
  sweets : Option (List Sweet) := none
deriving DecidableEq

/-- What a handler or middleware does: sends a response, calls `next()`, or calls
`next(error)`. -/
inductive Outcome where
  | respond (r : Response)
  | next
  | nextError (e : JSError)
deriving DecidableEq

/-- The `catch` block shared by the handlers that take an id. -/
def catchBlock (e : JSError) : Outcome :=
  if e.name = "CastError" then .respond { status := 404, error := some "Sweet not found" }
  else .nextError e

/-! ## `purchaseSweet` -/

/-- A handler suspended at `await sweet.save()`, or finished before reaching it. -/
inductive Pending where
  | done (o : Outcome)
  | saving (doc : Option Sweet) (quantity : JSVal)
deriving DecidableEq

/-- The part of `purchaseSweet` up to the call of `save()`: the default, the guard, the read
and the stock check, then the assignment `sweet.quantity -= quantity`. -/
def purchaseRead (rt : Runtime) (db : Db) (req : Request) : Pending :=
  let quantity := match req.body.quantity with
    | .undefined => JSVal.num (.fin 1)
    | v => v
  match valLtNum rt quantity (.fin 1) with
  | none => .done (catchBlock .typeError)
  | some true => .done (.respond { status := 400, error := some "Quantity must be at least 1" })
  | some false =>
    match findById rt db req.params.id with
    | .error e => .done (catchBlock e)
    | .ok none => .done (.respond { status := 404, error := some "Sweet not found" })
    | .ok (some sweet) =>
      match numLtVal rt sweet.quantity quantity with
      | none => .done (catchBlock .typeError)
      | some true =>
        .done (.respond
          { status := 400, error := some "Insufficient stock", available := some sweet.quantity })
      | some false =>
        match numSubVal rt sweet.quantity quantity with
        | none => .done (catchBlock .typeError)
        | some d => .saving (setQuantity rt sweet (.num d)) quantity

/-- The part of `purchaseSweet` from `save()` on. -/
def purchaseWrite (db : Db) (doc : Option Sweet) (quantity : JSVal) : Outcome × Db :=
  match save db doc with
  | .error e => (catchBlock e, db)
  | .ok db' =>
    (.respond { message := some "Purchase successful", sweet := doc, purchased := some quantity },
      db')

/-- The handler `purchaseSweet`, run without interruption. -/
def purchaseSweet (rt : Runtime) (db : Db) (req : Request) : Outcome × Db :=
  match purchaseRead rt db req with
  | .done o => (o, db)
  | .saving doc quantity => purchaseWrite db doc quantity

/-! ## `restockSweet` -/

/-- The handler `restockSweet`. -/
def restockSweet (rt : Runtime) (db : Db) (req : Request) : Outcome × Db :=
  let quantity := req.body.quantity
  let bad : Option Bool :=
    if isFalsy quantity then some true else valLtNum rt quantity (.fin 1)
  match bad with
  | none => (catchBlock .typeError, db)
  | some true => (.respond { status := 400, error := some "Quantity must be at least 1" }, db)
  | some false =>
    match findById rt db req.params.id with
    | .error e => (catchBlock e, db)
    | .ok none => (.respond { status := 404, error := some "Sweet not found" }, db)
    | .ok (some sweet) =>
      match numAddVal rt sweet.quantity quantity with
      | none => (catchBlock .typeError, db)
      | some v =>
        let doc := setQuantity rt sweet v
        match save db doc with
        | .error e => (catchBlock e, db)
        | .ok db' =>
          (.respond { message := some "Restock successful", sweet := doc, added := some quantity },
            db')

/-! ## `isAdmin` -/

/-- The middleware `isAdmin`. -/
def isAdmin (req : Request) : Outcome :=
  match req.user with
  | none => .respond { status := 401, error := some "Authentication required." }
  | some user =>
    if user.role ≠ "admin" then
      .respond { status := 403, error := some "Access denied. Admin privileges required." }
    else .next

/-! ## Request sequences and interleaved purchases -/

/-- A request to one of the two stock-changing routes. -/
inductive StockRequest where
  | purchase (req : Request)
  | restock (req : Request)
deriving DecidableEq

/-- The store after one stock request has been handled. -/
def applyRequest (rt : Runtime) (db : Db) : StockRequest → Db
  | .purchase req => (purchaseSweet rt db req).2
  | .restock req => (restockSweet rt db req).2

/-- The store after a sequence of stock requests, handled one after another. -/
def applyRequests (rt : Runtime) (db : Db) (reqs : List StockRequest) : Db :=
  reqs.foldl (applyRequest rt) db

/-- A purchase request in flight: not yet started, suspended at `save()`, or answered. -/
inductive Task where
  | waiting (req : Request)
  | saving (doc : Option Sweet) (quantity : JSVal)
  | finished (o : Outcome)
deriving DecidableEq

/-- One storage step of a purchase in flight: the read (`findById`, with the synchronous code
that follows it) or the write (`save`).  A finished request does nothing. -/
def Task.step (rt : Runtime) (db : Db) : Task → Task × Db
  | .waiting req =>
    match purchaseRead rt db req with
    | .done o => (.finished o, db)
    | .saving doc quantity => (.saving doc quantity, db)
  | .saving doc quantity =>
    let r := purchaseWrite db doc quantity
    (.finished r.1, r.2)
  | .finished o => (.finished o, db)

/-- Two purchases in flight over one store. -/
structure Race where
  db : Db
  first : Task
  second : Task
deriving DecidableEq

/-- The next storage step of the race, taken by the first request (`true`) or the second. -/
def Race.step (rt : Runtime) (r : Race) (who : Bool) : Race :=
  if who then
    let t := r.first.step rt r.db
    { r with db := t.2, first := t.1 }
  else
    let t := r.second.step rt r.db
    { r with db := t.2, second := t.1 }

/-- The race after a schedule of steps. -/
def Race.run (rt : Runtime) (r : Race) (schedule : List Bool) : Race :=
  schedule.foldl (Race.step rt) r

/-- Every schedule of a number of steps. -/
def schedules : Nat → List (List Bool)
  | 0 => [[]]
  | k + 1 => (schedules k).map (fun l => true :: l) ++ (schedules k).map (fun l => false :: l)

/-- The interleavings of the read and write steps of two requests: the schedules of four
steps in which each request takes two. -/
def interleavings : List (List Bool) :=
  (schedules 4).filter (fun l => l.count true == 2)

/-- The response of a task, if it has been sent. -/
def Task.response : Task → Option Response
  | .finished (.respond r) => some r
  | _ => none

/-- The status of the response of a task, if it has been sent. -/
def Task.status (t : Task) : Option Nat := t.response.map (fun r => r.status)

/-- The quantity stored under an id, if a product has it. -/
def storedQuantity (db : Db) (oid : ObjectId) : Option JSNum :=
  (db.find? (fun s => s._id == oid)).map (fun s => s.quantity)

/-! ## A concrete runtime -/

/-- The white space that `Number` strips from both ends of a string. -/
def isJsWhitespace (c : Char) : Bool :=
  decide (c.toNat ∈ [9, 10, 11, 12, 13, 32, 160, 5760, 8232, 8233, 8239, 8287, 12288, 65279])
    || (decide (8192 ≤ c.toNat) && decide (c.toNat ≤ 8202))

/-- The value of a list of digits in a base. -/
def digitsValue (base : Nat) (ds : List Char) : Nat :=
  ds.foldl (fun a c =>
    base * a + (if c.isDigit then c.toNat - 48
      else if decide (97 ≤ c.toNat) then c.toNat - 87 else c.toNat - 55)) 0

/-- A digit of a base up to sixteen. -/
def isDigitOf (base : Nat) (c : Char) : Bool :=
  (c.isDigit && decide (c.toNat - 48 < base))
    || (decide (base = 16) && ((decide (97 ≤ c.toNat) && decide (c.toNat ≤ 102))
      || (decide (65 ≤ c.toNat) && decide (c.toNat ≤ 70))))

/-- The exponent part of a decimal literal, empty or `e`, a sign and digits. -/
def parseExponent : List Char → Option Int
  | [] => some 0
  | c :: rest =>
    if c = 'e' ∨ c = 'E' then
      let signed : Bool × List Char := match rest with
        | '+' :: r => (false, r)
        | '-' :: r => (true, r)
        | r => (false, r)
      let ds := signed.2
      if ds ≠ [] ∧ ds.all Char.isDigit then
        some (if signed.1 then -(digitsValue 10 ds : Int) else (digitsValue 10 ds : Int))
      else none
    else none

/-- An unsigned decimal literal: `Infinity`, or digits with an optional fraction and
exponent. -/
def parseUnsigned (cs : List Char) : Option JSNum :=
  if cs = "Infinity".toList then some .posInf
  else
    let ip := cs.takeWhile Char.isDigit
    let r1 := cs.dropWhile Char.isDigit
    let fp := match r1 with
      | '.' :: r => r.takeWhile Char.isDigit
      | _ => []
    let r2 := match r1 with
      | '.' :: r => r.dropWhile Char.isDigit
      | r => r
    if ip = [] ∧ fp = [] then none
    else match parseExponent r2 with
      | none => none
      | some e => some (.fin ((digitsValue 10 (ip ++ fp) : ℚ) * 10 ^ (e - (fp.length : Int))))

/-- A literal with a radix mark: `0x`, `0o` or `0b` and digits. -/
def parseRadix : List Char → Option JSNum
  | '0' :: x :: ds =>
    let base : Nat :=
      if x = 'x' ∨ x = 'X' then 16 else if x = 'o' ∨ x = 'O' then 8
      else if x = 'b' ∨ x = 'B' then 2 else 0
    if base ≠ 0 ∧ ds ≠ [] ∧ ds.all (isDigitOf base) then some (.fin (digitsValue base ds : ℚ))
    else none
  | _ => none

/-- The conversion `Number(s)`: white space is stripped, the empty string is `0`, what is not
a numeric literal is `NaN`, and the value of a literal is rounded to the nearest double. -/
def stdStringToNumber (s : String) : JSNum :=
  let cs := ((s.toList.dropWhile isJsWhitespace).reverse.dropWhile isJsWhitespace).reverse
  if cs = [] then .fin 0
  else
    let r : Option JSNum := match parseRadix cs with
      | some n => some n
      | none =>
        match cs with
        | '+' :: rest => parseUnsigned rest
        | '-' :: rest => (parseUnsigned rest).map JSNum.neg
        | _ => parseUnsigned cs
    match r with
    | some (.fin q) => roundToDouble q
    | some n => n
    | none => .nan

/-- The number of times a positive rational below 1 is multiplied by 10 to reach 1; the first
argument bounds the count. -/
def decimalShift : ℕ → ℚ → ℕ
  | 0, _ => 0
  | fuel + 1, x => if 1 ≤ x then 0 else decimalShift fuel (x * 10) + 1

/-- The decimal exponent `n` of a positive rational: `10 ^ (n - 1) <= x < 10 ^ n`. -/
def decimalExponent (x : ℚ) : ℤ :=
  if 1 ≤ x then ((Nat.toDigits 10 ⌊x⌋.toNat).length : ℤ)
  else 1 - (decimalShift 400 x : ℤ)

/-- The search of `Number::toString` for the shortest digits: the least number `k` of digits,
from the given one on, for which an integer `s` exists such that `s * 10 ^ (n - k)` rounds to
the same double as `x`, with that `s`, the nearer to `x` of the two that can be.  The first
argument bounds the number of further steps. -/
def shortestDigits (x : ℚ) (n : ℤ) : ℕ → ℕ → ℕ × ℕ
  | 0, k => ((roundHalfEven (x / 10 ^ (n - (k : ℤ)))).toNat, k)
  | fuel + 1, k =>
    let unit : ℚ := 10 ^ (n - (k : ℤ))
    let lo := ⌊x / unit⌋.toNat
    let okLo := decide (roundToDouble (lo * unit) = roundToDouble x)
    let okHi := decide (roundToDouble ((lo + 1 : ℕ) * unit) = roundToDouble x)
    if okLo && okHi then
      (if x - lo * unit < (lo + 1 : ℕ) * unit - x then (lo, k)
        else if (lo + 1 : ℕ) * unit - x < x - lo * unit then (lo + 1, k)
        else if lo % 2 = 0 then (lo, k) else (lo + 1, k))
    else if okLo then (lo, k)
    else if okHi then (lo + 1, k)
    else shortestDigits x n fuel (k + 1)

/-- A list of digits without its trailing zeroes. -/
def stripZeros (ds : List Char) : List Char :=
  (ds.reverse.dropWhile (fun c => c = '0')).reverse

/-- The numeral of the digits `ds` with the decimal point after the first `n` of them: the
four forms of `Number::toString`. -/
def formatDecimal (ds : List Char) (n : ℤ) : String :=
  let k : ℤ := ds.length
  if k ≤ n ∧ n ≤ 21 then String.mk (ds ++ List.replicate (n - k).toNat '0')
  else if 0 < n ∧ n ≤ 21 then String.mk (ds.take n.toNat ++ '.' :: ds.drop n.toNat)
  else if -6 < n ∧ n ≤ 0 then String.mk ('0' :: '.' :: (List.replicate (-n).toNat '0' ++ ds))
  else
    let e := n - 1
    let exponent := (if e < 0 then "-" else "+") ++ toString e.natAbs
    match ds with
    | [] => ""
    | [d] => String.mk [d] ++ "e" ++ exponent
    | d :: rest => String.mk (d :: '.' :: rest) ++ "e" ++ exponent

/-- The numeral of a positive finite Number. -/
def positiveToString (x : ℚ) : String :=
  let n := decimalExponent x
  let sk := shortestDigits x n 16 1
  let ds := Nat.toDigits 10 sk.1
  formatDecimal (stripZeros ds) (n + ((ds.length : ℤ) - (sk.2 : ℤ)))

/-- The conversion `String(n)` (`Number::toString`): the shortest digits that read back as
the Number, in fixed notation for a decimal exponent from -6 to 21 and in exponent notation
outside. -/
def stdNumberToString : JSNum → String
  | .nan => "NaN"
  | .posInf => "Infinity"
  | .negInf => "-Infinity"
  | .fin q =>
    if q = 0 then "0"
    else if q < 0 then "-" ++ positiveToString (-q)
    else positiveToString q

/-- The cast of a string to an ObjectId: twenty-four hexadecimal digits. -/
def stdCastObjectId (s : String) : Option ObjectId :=
  if s.length = 24 ∧ s.toList.all (isDigitOf 16) then some (digitsValue 16 s.toList) else none

/-- A concrete runtime. -/
def stdRuntime : Runtime :=
  { stringToNumber := stdStringToNumber
    numberToString := stdNumberToString
    castObjectId := stdCastObjectId }

/-! ## `authenticate` and `generateToken` (`middleware/auth.middleware.js`) -/

/-- A JSON object: its keys and values. -/
abbrev JSObject := List (String × JSVal)

/-- The property access `o[k]`; an absent property is `undefined`. -/
def getProp (o : JSObject) (k : String) : JSVal := (o.lookup k).getD .undefined

/-- The token collaborator, the `jsonwebtoken` package: `sign(payload, secret, options)` and
`verify(token, secret)`, which returns the payload or throws. -/
structure Jwt where
  sign : JSObject → String → JSObject → String
  verify : String → String → Except JSError JSObject

/-- The account collection behind `User.findById`, which resolves to an account or `null`, or
throws (`models/User.js` is not among the sources). -/
structure UserModel where
  findById : JSVal → Except JSError (Option User)

/-- The environment variables that the middleware reads. -/
structure ProcessEnv where
  JWT_SECRET : Option String := none

/-- The expression `process.env.JWT_SECRET || 'test-secret'`. -/
def jwtSecret (env : ProcessEnv) : String :=
  match env.JWT_SECRET with
  | none => "test-secret"
  | some s => if s = "" then "test-secret" else s

/-- The pieces of a list of characters between occurrences of a separator. -/
def splitChars (sep : Char) : List Char → List (List Char)
  | [] => [[]]
  | c :: cs =>
    if c = sep then [] :: splitChars sep cs
    else match splitChars sep cs with
      | [] => [[c]]
      | w :: ws => (c :: w) :: ws

/-- The method `s.split(sep)` for a separator of one character. -/
def jsSplit (sep : Char) (s : String) : List String :=
  (splitChars sep s.toList).map String.mk

/-- The method `s.startsWith(p)`. -/
def jsStartsWith (s p : String) : Bool := p.toList.isPrefixOf s.toList

/-- The expression `authHeader.split(' ')[1]`; an `undefined` element is passed on as the
empty string, which `verify` rejects like `undefined`. -/
def bearerToken (authHeader : String) : String :=
  match jsSplit ' ' authHeader with
  | _ :: token :: _ => token
  | _ => ""

/-- The `catch` block of `authenticate`. -/
def authCatch (e : JSError) : Outcome :=
  if e.name = "JsonWebTokenError" then
    .respond { status := 401, error := some "Invalid token." }
  else if e.name = "TokenExpiredError" then
    .respond { status := 401, error := some "Token expired." }
  else .nextError e

/-- The middleware `authenticate`: its outcome and the request as it leaves it. -/
def authenticate (jwt : Jwt) (users : UserModel) (env : ProcessEnv) (req : Request) :
    Outcome × Request :=
  match req.authorization with
  | none => (.respond { status := 401, error := some "Access denied. No token provided." }, req)
  | some authHeader =>
    if authHeader = "" ∨ jsStartsWith authHeader "Bearer " = false then
      (.respond { status := 401, error := some "Access denied. No token provided." }, req)
    else
      match jwt.verify (bearerToken authHeader) (jwtSecret env) with
      | .error e => (authCatch e, req)
      | .ok decoded =>
        match users.findById (getProp decoded "userId") with
        | .error e => (authCatch e, req)
        | .ok none =>
          (.respond { status := 401, error := some "Invalid token. User not found." }, req)
        | .ok (some user) => (.next, { req with user := some user })

/-- The function `generateToken`. -/
def generateToken (jwt : Jwt) (env : ProcessEnv) (userId : JSVal) : String :=
  jwt.sign [("userId", userId)] (jwtSecret env) [("expiresIn", .str "7d")]

/-! ## `getAllSweets` and `getSweetById` -/

/-- The condition that the list handler puts on `quantity`: `{ $gt: 0 }` or `0`. -/
inductive QuantityFilter where
  | gtZero
  | zero
deriving DecidableEq

/-- The filter object that the list handler builds: the `category` and `quantity` conditions
and the `$or` of one regular expression, with its options, on `name` and `description`. -/
structure Filter where
  category : Option String := none
  quantity : Option QuantityFilter := none
  orRegex : Option (String × String) := none
deriving DecidableEq

/-- The storage collaborator behind `Sweet.find(query).sort(sortOptions)`: the matcher of a
regular expression with options, or the error for a pattern that is not one, and the order in
which a sort specification returns documents, which rearranges them. -/
structure Storage where
  regex : String → String → Except JSError (String → Bool)
  sort : List (String × Int) → List Sweet → List Sweet
  sort_perm : ∀ spec docs, (sort spec docs).Perm docs

/-- The equality and comparison conditions of a filter on one document. -/
def Filter.matchesFields (f : Filter) (s : Sweet) : Bool :=
  (match f.category with
    | none => true
    | some c => decide (s.category = c))
  && (match f.quantity with
    | none => true
    | some .gtZero => JSNum.lt (.fin 0) s.quantity
    | some .zero => decide (s.quantity = .fin 0))

/-- The test of a regular expression on a path that may hold `null`. -/
def testPath (test : String → Bool) : Option String → Bool
  | none => false
  | some s => test s

/-- The query `Sweet.find(filter)`: the stored documents that satisfy every condition of the
filter, or the error of the regular expression. -/
def find (st : Storage) (db : Db) (f : Filter) : Except JSError (List Sweet) :=
  match f.orRegex with
  | none => .ok (db.filter f.matchesFields)
  | some (pattern, options) =>
    match st.regex pattern options with
    | .error e => .error e
    | .ok test =>
      .ok (db.filter (fun s =>
        f.matchesFields s && (test s.name || testPath test s.description)))

/-- A query parameter that is present and not the empty string, which `if (p)` lets through. -/
def truthy : Option String → Option String
  | some s => if s = "" then none else some s
  | none => none

/-- The filter built from the query string (`getAllSweets`, "Build query"). -/
def buildFilter (q : Query) : Filter :=
  { category := truthy q.category
    quantity :=
      if q.inStock = some "true" then some .gtZero
      else if q.inStock = some "false" then some .zero
      else none
    orRegex := (truthy q.search).map (fun search => (search, "i")) }

/-- The sort specification built from the query string (`getAllSweets`, "Build sort
options"): the keys with their directions, `1` ascending and `-1` descending. -/
def sortOptions (q : Query) : List (String × Int) :=
  match truthy q.sortBy with
  | some sortBy => [(sortBy, if q.order = some "desc" then -1 else 1)]
  | none => [("createdAt", -1)]

/-- The handler `getAllSweets`. -/
def getAllSweets (st : Storage) (db : Db) (req : Request) : Outcome :=
  match find st db (buildFilter req.query) with
  | .error e => .nextError e
  | .ok found =>
    let sweets := st.sort (sortOptions req.query) found
    .respond { count := some sweets.length, sweets := some sweets }

/-- The handler `getSweetById`. -/
def getSweetById (rt : Runtime) (db : Db) (req : Request) : Outcome :=
  match findById rt db req.params.id with
  | .error e => catchBlock e
  | .ok none => .respond { status := 404, error := some "Sweet not found" }
  | .ok (some sweet) => .respond { sweet := some sweet }

/-! ## The validation chains of `routes/sweet.routes.js` -/

/-- The string that the validators see for a value that is not an array (`toString` of
express-validator): the empty string for `undefined`, `null` and `NaN`, `String(v)` for
another primitive, the string of an object, and its own property names for an object that
shadows `toString`.  An array is read element by element (`fieldStrings`); as a whole it is
read as its first element. -/
def validatorString (rt : Runtime) : JSVal → String
  | .undefined => ""
  | .null => ""
  | .bool true => "true"
  | .bool false => "false"
  | .num .nan => ""
  | .num n => rt.numberToString n
  | .str s => s
  | .obj p =>
    match p.elements with
    | some items => items.headD ""
    | none => p.primitive.getD p.names

/-- The strings that a chain validates and sanitizes: those of the elements of an array, one
by one, and otherwise the string of the value itself. -/
def fieldStrings (rt : Runtime) (v : JSVal) : List String :=
  match v with
  | .obj p =>
    match p.elements with
    | some items => items
    | none => [validatorString rt v]
  | _ => [validatorString rt v]

/-- The value that a sanitizer writes back to the body: the sanitized string, and for an array
the array of its sanitized elements. -/
def sanitizedValue (v : JSVal) (values : List String) : JSVal :=
  match v with
  | .obj p =>
    match p.elements with
    | some _ => .obj { primitive := some (",".intercalate values), elements := some values }
    | none => .str (values.headD "")
  | _ => .str (values.headD "")

/-- The errors that one validator of a chain records: one for each of the strings that fails
it. -/
def failures (path msg : String) (ok : String → Bool) (values : List String) :
    List FieldError :=
  (values.filter (fun s => !ok s)).map (fun _ => ⟨path, msg⟩)

/-- The sanitizer `trim()`, and the `trim` setter of the schema: white space is removed from
both ends. -/
def jsTrim (s : String) : String :=
  String.mk ((s.toList.dropWhile isJsWhitespace).reverse.dropWhile isJsWhitespace).reverse

/-- The length that the validator `isLength` compares: the number of UTF-16 code units less
the surrogate pairs and the variation selectors U+FE0E and U+FE0F, which is the number of code
points other than the two selectors. -/
def validatorLength (s : String) : Nat :=
  (s.toList.filter (fun c => decide (c.toNat ≠ 65038) && decide (c.toNat ≠ 65039))).length

/-- The characters of a numeral after its sign. -/
def unsignedPart : List Char → List Char
  | '+' :: r => r
  | '-' :: r => r
  | r => r

/-- The validator `isFloat({ min: 0 })` on a string: an optional sign, digits with an optional
fraction and exponent, and a value, as `parseFloat` reads it, that is `>= 0`; the value of a
negative numeral is `>= 0` when it rounds to zero. -/
def isFloatMin0 (s : String) : Bool :=
  match parseUnsigned (unsignedPart s.toList) with
  | some (.fin q) =>
    if s.toList.head? = some '-' then decide (roundToDouble q = .fin 0) else true
  | _ => false

/-- The validator `isInt({ min: 0 })` on a string: an optional sign and digits, leading zeroes
allowed as they are by default, and a value that is `>= 0`. -/
def isIntMin0 (s : String) : Bool :=
  let ds := unsignedPart s.toList
  decide (ds ≠ []) && ds.all Char.isDigit
    && (decide (s.toList.head? ≠ some '-') || ds.all (fun c => decide (c = '0')))

/-- The value that a chain starting with `optional()` works on: nothing for an absent field. -/
def optionalField : JSVal → Option JSVal
  | .undefined => none
  | v => some v

/-- The middleware list `sweetValidation`: the request with the sanitized fields written back
to the body and the errors of the failed validators recorded, each validator of a chain on
each of the strings of its field. -/
def sweetValidation (rt : Runtime) (req : Request) : Request :=
  let name := (fieldStrings rt req.body.name).map jsTrim
  let category := (fieldStrings rt req.body.category).map jsTrim
  let description := (optionalField req.body.description).map
    (fun v => (fieldStrings rt v).map jsTrim)
  let errors : List FieldError :=
    failures "name" "Name is required" (fun s => decide (s ≠ "")) name
    ++ failures "name" "Name cannot exceed 100 characters"
        (fun s => decide (validatorLength s ≤ 100)) name
    ++ failures "category" "Category is required" (fun s => decide (s ≠ "")) category
    ++ failures "category" "Invalid category" (fun s => decide (s ∈ categories)) category
    ++ failures "price" "Price must be a positive number" isFloatMin0
        (fieldStrings rt req.body.price)
    ++ (match optionalField req.body.quantity with
        | none => []
        | some v =>
          failures "quantity" "Quantity must be a non-negative integer" isIntMin0
            (fieldStrings rt v))
    ++ (match description with
        | none => []
        | some d =>
          failures "description" "Description cannot exceed 500 characters"
            (fun s => decide (validatorLength s ≤ 500)) d)
  { req with
    body := { req.body with
      name := sanitizedValue req.body.name name
      category := sanitizedValue req.body.category category
      description := match description with
        | none => .undefined
        | some d => sanitizedValue req.body.description d }
    validationErrors := req.validationErrors ++ errors }

/-- The middleware list `updateSweetValidation`: every chain starts with `optional()`. -/
def updateSweetValidation (rt : Runtime) (req : Request) : Request :=
  let name := (optionalField req.body.name).map (fun v => (fieldStrings rt v).map jsTrim)
  let category := (optionalField req.body.category).map
    (fun v => (fieldStrings rt v).map jsTrim)
  let description := (optionalField req.body.description).map
    (fun v => (fieldStrings rt v).map jsTrim)
  let errors : List FieldError :=
    (match name with
      | none => []
      | some n =>
        failures "name" "Name cannot exceed 100 characters"
          (fun s => decide (validatorLength s ≤ 100)) n)
    ++ (match category with
        | none => []
        | some c =>
          failures "category" "Invalid category" (fun s => decide (s ∈ categories)) c)
    ++ (match optionalField req.body.price with
        | none => []
        | some v =>
          failures "price" "Price must be a positive number" isFloatMin0 (fieldStrings rt v))
    ++ (match optionalField req.body.quantity with
        | none => []
        | some v =>
          failures "quantity" "Quantity must be a non-negative integer" isIntMin0
            (fieldStrings rt v))
    ++ (match description with
        | none => []
        | some d =>
          failures "description" "Description cannot exceed 500 characters"
            (fun s => decide (validatorLength s ≤ 500)) d)
  { req with
    body := { req.body with
      name := match name with
        | none => .undefined
        | some n => sanitizedValue req.body.name n
      category := match category with
        | none => .undefined
        | some c => sanitizedValue req.body.category c
      description := match description with
        | none => .undefined
        | some d => sanitizedValue req.body.description d }
    validationErrors := req.validationErrors ++ errors }

/-! ## `createSweet`, `updateSweet` and `deleteSweet` -/

/-- The outcome of casting a value assigned to a path of type String. -/
inductive CastString where
  | value (s : String)
  | empty
  | failed
deriving DecidableEq

/-- The cast of the String schema type followed by the `trim` setter: `null` and `undefined`
give an empty path, a number or boolean is converted with `String`, an object with an `_id`
that is a non-empty string is taken for that id, and arrays and the other objects fail. -/
def castString (rt : Runtime) : JSVal → CastString
  | .undefined => .empty
  | .null => .empty
  | .str s => .value (jsTrim s)
  | .num n => .value (jsTrim (rt.numberToString n))
  | .bool true => .value "true"
  | .bool false => .value "false"
  | .obj p =>
    match p.documentId with
    | some id => if id = "" then .failed else .value (jsTrim id)
    | none => .failed

/-- The value of a required String path, when the assignment left one. -/
def requiredString : CastString → Option String
  | .value s => some s
  | _ => none

/-- The value of a String path that is not required, when the assignment did not fail. -/
def optionalString : CastString → Option (Option String)
  | .value s => some (some s)
  | .empty => some none
  | .failed => none

/-- The value of a required Number path, when the assignment left one. -/
def requiredNumber : Cast → Option JSNum
  | .value n => some n
  | _ => none

/-- The operator `a || b`. -/
def jsOr (a b : JSVal) : JSVal := if isFalsy a then b else a

/-- The document `new Sweet({ name, category, price, quantity, description, imageUrl })` with
a fresh id.  The result is `none` when a path is left with a cast error, or a required path is
left empty, both of which make `save()` reject. -/
def newSweet (rt : Runtime) (newId : ObjectId)
    (name category price quantity description imageUrl : JSVal) : Option Sweet := do
  let name ← requiredString (castString rt name)
  let category ← requiredString (castString rt category)
  let price ← requiredNumber (castNumber rt price)
  let quantity ← requiredNumber (castNumber rt quantity)
  let description ← optionalString (castString rt description)
  let imageUrl ← optionalString (castString rt imageUrl)
  pure { _id := newId, name := name, category := category, price := price,
         quantity := quantity, description := description, imageUrl := imageUrl }

/-- The call `sweet.save()` on a new document: validation against the schema, then the
insertion.  Rejects with a `ValidationError`. -/
def saveNew (db : Db) (doc : Option Sweet) : Except JSError Db :=
  match doc with
  | none => .error .validationError
  | some s => if schemaValid s then .ok (db ++ [s]) else .error .validationError

/-- The handler `createSweet`; `newId` is the id that the driver gives the new document. -/
def createSweet (rt : Runtime) (newId : ObjectId) (db : Db) (req : Request) : Outcome × Db :=
  if req.validationErrors ≠ [] then
    (.respond { status := 400, errors := some req.validationErrors }, db)
  else
    let doc := newSweet rt newId req.body.name req.body.category req.body.price
      (jsOr req.body.quantity (.num (.fin 0)))
      (jsOr req.body.description (.str ""))
      (jsOr req.body.imageUrl (.str ""))
    match saveNew db doc with
    | .error e => (.nextError e, db)
    | .ok db' =>
      (.respond { status := 201, message := some "Sweet created successfully", sweet := doc },
        db')

/-- The statement `if (v !== undefined) sweet.path = v` on a loaded document. -/
def assignField (v : JSVal) (set : Sweet → Option Sweet) (doc : Option Sweet) : Option Sweet :=
  match v with
  | .undefined => doc
  | _ => doc.bind set

/-- The assignments of `updateSweet` ("Update fields").  The result is `none` when a path is
left with a cast error, or a required path is left empty. -/
def updateFields (rt : Runtime) (body : Body) (sweet : Sweet) : Option Sweet :=
  (some sweet)
  |> assignField body.name (fun s =>
      (requiredString (castString rt body.name)).map (fun x => { s with name := x }))
  |> assignField body.category (fun s =>
      (requiredString (castString rt body.category)).map (fun x => { s with category := x }))
  |> assignField body.price (fun s =>
      (requiredNumber (castNumber rt body.price)).map (fun x => { s with price := x }))
  |> assignField body.quantity (fun s =>
      (requiredNumber (castNumber rt body.quantity)).map (fun x => { s with quantity := x }))
  |> assignField body.description (fun s =>
      (optionalString (castString rt body.description)).map
        (fun x => { s with description := x }))
  |> assignField body.imageUrl (fun s =>
      (optionalString (castString rt body.imageUrl)).map (fun x => { s with imageUrl := x }))

/-- The update that `save()` issues for a loaded document: the stored document with the id
takes the values of the local one. -/
def replaceDoc : Db → Sweet → Db
  | [], _ => []
  | s :: rest, doc => if s._id == doc._id then doc :: rest else s :: replaceDoc rest doc

/-- The call `sweet.save()` on a loaded document after assignments to several paths. -/
def saveDoc (db : Db) (doc : Option Sweet) : Except JSError Db :=
  match doc with
  | none => .error .validationError
  | some s => if schemaValid s then .ok (replaceDoc db s) else .error .validationError

/-- The handler `updateSweet`. -/
def updateSweet (rt : Runtime) (db : Db) (req : Request) : Outcome × Db :=
  if req.validationErrors ≠ [] then
    (.respond { status := 400, errors := some req.validationErrors }, db)
  else
    match findById rt db req.params.id with
    | .error e => (catchBlock e, db)
    | .ok none => (.respond { status := 404, error := some "Sweet not found" }, db)
    | .ok (some sweet) =>
      let doc := updateFields rt req.body sweet
      match saveDoc db doc with
      | .error e => (catchBlock e, db)
      | .ok db' => (.respond { message := some "Sweet updated successfully", sweet := doc }, db')

/-- The query `Sweet.findByIdAndDelete(id)`: the removed document, or `null`, and the store
without it. -/
def findByIdAndDelete (rt : Runtime) (db : Db) (id : String) :
    Except JSError (Option Sweet × Db) :=
  match rt.castObjectId id with
  | none => .error .castError
  | some oid =>
    .ok (db.find? (fun s => s._id == oid), db.eraseP (fun s => s._id == oid))

/-- The handler `deleteSweet`. -/
def deleteSweet (rt : Runtime) (db : Db) (req : Request) : Outcome × Db :=
  match findByIdAndDelete rt db req.params.id with
  | .error e => (catchBlock e, db)
  | .ok (none, _) => (.respond { status := 404, error := some "Sweet not found" }, db)
  | .ok (some sweet, db') =>
    (.respond { message := some "Sweet deleted successfully", sweet := some sweet }, db')

/-! ## The routes of `routes/sweet.routes.js` -/

/-- The collaborators of the application. -/
structure Services where
  rt : Runtime
  jwt : Jwt
  users : UserModel
  env : ProcessEnv
  storage : Storage
  newId : ObjectId

/-- The routes of the sweets router. -/
inductive SweetRoute where
  | getAll
  | getById
  | purchase
  | create
  | update
  | delete
  | restock
deriving DecidableEq

/-- The rest of a route after a middleware: it runs when the middleware called `next()`, on
the request as the middleware left it. -/
def andThen (m : Outcome × Request) (db : Db) (rest : Request → Outcome × Db) : Outcome × Db :=
  match m.1 with
  | .next => rest m.2
  | o => (o, db)

/-- The router: each route is its list of middleware followed by its handler. -/
def sweetRouter (sv : Services) (route : SweetRoute) (db : Db) (req : Request) : Outcome × Db :=
  match route with
  | .getAll => (getAllSweets sv.storage db req, db)
  | .getById => (getSweetById sv.rt db req, db)
  | .purchase =>
    andThen (authenticate sv.jwt sv.users sv.env req) db fun req =>
      purchaseSweet sv.rt db req
  | .create =>
    andThen (authenticate sv.jwt sv.users sv.env req) db fun req =>
      andThen (isAdmin req, req) db fun req =>
        createSweet sv.rt sv.newId db (sweetValidation sv.rt req)
  | .update =>
    andThen (authenticate sv.jwt sv.users sv.env req) db fun req =>
      andThen (isAdmin req, req) db fun req =>
        updateSweet sv.rt db (updateSweetValidation sv.rt req)
  | .delete =>
    andThen (authenticate sv.jwt sv.users sv.env req) db fun req =>
      andThen (isAdmin req, req) db fun req =>
        deleteSweet sv.rt db req
  | .restock =>
    andThen (authenticate sv.jwt sv.users sv.env req) db fun req =>
      andThen (isAdmin req, req) db fun req =>
        restockSweet sv.rt db req

/-! ## A concrete storage, and the filters as the specification words them -/

/-- The characters of a string with the letter case of the option `i` removed. -/
def foldCase (s : String) : List Char := s.toList.map Char.toLower

/-- The subject contains the string as a literal substring, letter case ignored. -/
def containsIgnoreCase (s subject : String) : Prop := foldCase s <:+: foldCase subject

instance (s subject : String) : Decidable (containsIgnoreCase s subject) :=
  inferInstanceAs (Decidable (foldCase s <:+: foldCase subject))

/-- The substring test on a path that may hold `null`. -/
def containsIgnoreCasePath (s : String) : Option String → Bool
  | none => false
  | some subject => decide (containsIgnoreCase s subject)

/-- The characters with a meaning of their own in a regular expression: the backslash, the
anchors, the dot, the bar, the quantifiers and the three kinds of brackets. -/
def isMetachar (c : Char) : Bool :=
  decide (c.toNat ∈ [92, 94, 36, 46, 124, 63, 42, 43, 40, 41, 91, 93, 123, 125])

/-- A string with a character that has a meaning of its own in a regular expression. -/
def hasMetachar (s : String) : Bool := s.toList.any isMetachar

/-- The products that the specification lists for a query without a search term: the
category equal to the given one, when one is given, and the stock condition of `inStock`. -/
def listedBySpec (q : Query) (s : Sweet) : Bool :=
  (match q.category with
    | none => true
    | some c => decide (c = "") || decide (s.category = c))
  && (if q.inStock = some "true" then JSNum.lt (.fin 0) s.quantity
      else if q.inStock = some "false" then decide (s.quantity = .fin 0)
      else true)

/-- A storage whose regular expressions over a search string without metacharacters are the
literal substring test, letter case ignored. -/
def LiteralSearch (st : Storage) : Prop :=
  ∀ s : String, hasMetachar s = false →
    ∃ test, st.regex s "i" = .ok test
      ∧ ∀ subject, test subject = decide (containsIgnoreCase s subject)

/-- An element of a regular expression of the fragment that `stdRegex` reads: a literal
character or the dot. -/
inductive RegexAtom where
  | lit (c : Char)
  | any
deriving DecidableEq

/-- The elements of a pattern made of literal characters and dots; `none` for a pattern with
another metacharacter. -/
def parseRegex : List Char → Option (List RegexAtom)
  | [] => some []
  | c :: cs =>
    if c = '.' then (parseRegex cs).map (fun r => .any :: r)
    else if isMetachar c then none
    else (parseRegex cs).map (fun r => .lit c :: r)

/-- An element matches a character of the subject; the dot matches all but the line feed. -/
def atomMatches (fold : Char → Char) : RegexAtom → Char → Bool
  | .lit c, d => decide (fold c = d)
  | .any, d => decide (d ≠ Char.ofNat 10)

/-- The elements match the subject at its start. -/
def matchHere (fold : Char → Char) : List RegexAtom → List Char → Bool
  | [], _ => true
  | _ :: _, [] => false
  | a :: rest, c :: cs => atomMatches fold a c && matchHere fold rest cs

/-- The regular expressions of the concrete storage: a pattern of literal characters and dots
is searched for at every position of the subject, with letter case ignored under the option
`i`.  A pattern with another metacharacter is reported as an error, which is what the
database does with the unbalanced ones such as `(`; the other constructs are not read. -/
def stdRegex (pattern options : String) : Except JSError (String → Bool) :=
  let fold : Char → Char := fun c => if 'i' ∈ options.toList then c.toLower else c
  match parseRegex pattern.toList with
  | none => .error .mongoServerError
  | some atoms => .ok (fun subject => (subject.toList.map fold).tails.any (matchHere fold atoms))

/-- The order of two documents under a sort key: numeric on `price` and `quantity`, by code
point on `name` and `category`, and by id, which grows with the time of creation, on every
other key. -/
def sortKeyLe (key : String) (a b : Sweet) : Bool :=
  if key = "price" then !(JSNum.lt b.price a.price)
  else if key = "quantity" then !(JSNum.lt b.quantity a.quantity)
  else if key = "name" then !(decide (b.name < a.name))
  else if key = "category" then !(decide (b.category < a.category))
  else decide (a._id ≤ b._id)

/-- The sort of the concrete storage, on the first key of the specification. -/
def stdSort (spec : List (String × Int)) (docs : List Sweet) : List Sweet :=
  match spec with
  | [] => docs
  | (key, dir) :: _ =>
    if dir < 0 then docs.insertionSort (fun a b => sortKeyLe key b a = true)
    else docs.insertionSort (fun a b => sortKeyLe key a b = true)

/-- A concrete storage. -/
def stdStorage : Storage :=
  { regex := stdRegex
    sort := stdSort
    sort_perm := by
      intro spec docs
      unfold stdSort
      split
      · exact List.Perm.refl _
      · split <;> exact List.perm_insertionSort _ _ }

/-- A token collaborator with three tokens: `good-token` carries the id of `sampleUser`,
`expired-token` is expired, and every other string is not a token. -/
def sampleJwt : Jwt :=
  { sign := fun _ _ _ => "good-token"
    verify := fun token _ =>
      if token = "good-token" then .ok [("userId", .str "000000000000000000000007")]
      else if token = "expired-token" then .error .tokenExpiredError
      else .error .jsonWebTokenError }

/-- A token collaborator whose payloads carry a `role` of `admin` beside the id of
`sampleUser`. -/
def roleClaimJwt : Jwt :=
  { sign := fun _ _ _ => "good-token"
    verify := fun token _ =>
      if token = "good-token" then
        .ok [("userId", .str "000000000000000000000007"), ("role", .str "admin")]
      else if token = "expired-token" then .error .tokenExpiredError
      else .error .jsonWebTokenError }

/-- An account collection with the accounts of a list, found by the id that a string casts
to. -/
def sampleUsers (accounts : List User) : UserModel :=
  { findById := fun v =>
      match v with
      | .str s =>
        match stdCastObjectId s with
        | none => .error .castError
        | some oid => .ok (accounts.find? (fun u => u._id == oid))
      | _ => .ok none }

/-- The collaborators of the statements at particular requests. -/
def sampleServices (accounts : List User) : Services :=
  { rt := stdRuntime, jwt := sampleJwt, users := sampleUsers accounts, env := {},
    storage := stdStorage, newId := 2 }

/-! ## The acceptance rules of Create as the specification words them -/

/-- A Create body whose validated fields have the types of the product model: strings for
`name`, `category` and `description`, numbers for `price` and `quantity`; a field that is
`none` is absent.  The field `imageUrl`, which no rule validates, is any value. -/
structure CreateInput where
  name : Option String := none
  category : Option String := none
  price : Option JSNum := none
  quantity : Option JSNum := none
  description : Option String := none
  imageUrl : JSVal := .undefined
deriving DecidableEq

/-- A string field of a body, present or absent. -/
def optionalStr : Option String → JSVal
  | none => .undefined
  | some s => .str s

/-- A number field of a body, present or absent. -/
def optionalNum : Option JSNum → JSVal
  | none => .undefined
  | some n => .num n

/-- The request body of a typed Create input. -/
def CreateInput.toBody (i : CreateInput) : Body :=
  { name := optionalStr i.name
    category := optionalStr i.category
    price := optionalNum i.price
    quantity := optionalNum i.quantity
    description := optionalStr i.description
    imageUrl := i.imageUrl }

/-- The rule on `name`: the trimmed name is non-empty and at most 100 characters, counted as
`isLength` counts them. -/
def nameRule : Option String → Bool
  | none => false
  | some n => decide (jsTrim n ≠ "") && decide (validatorLength (jsTrim n) ≤ 100)

/-- The rule on `category`: the trimmed category is one of the enumerated values. -/
def categoryRule : Option String → Bool
  | none => false
  | some c => decide (jsTrim c ∈ categories)

/-- The rule on `price`: a finite number that is `>= 0`. -/
def priceRule : Option JSNum → Bool
  | some (.fin p) => decide (0 ≤ p)
  | _ => false

/-- The rule on `quantity`: absent, or an integer that is `>= 0` and below `10 ^ 21`, from
where on the numeral of a Number is in exponent notation. -/
def quantityRule : Option JSNum → Bool
  | none => true
  | some (.fin q) => decide (q.den = 1) && decide (0 ≤ q) && decide (q < 10 ^ 21)
  | some _ => false

/-- The rule on `description`: absent, or at most 500 characters after trimming, counted as
`isLength` counts them. -/
def descriptionRule : Option String → Bool
  | none => true
  | some d => decide (validatorLength (jsTrim d) ≤ 500)

/-- The acceptance rules of Create on a typed input. -/
def meetsCreateRules (i : CreateInput) : Bool :=
  nameRule i.name && categoryRule i.category && priceRule i.price
    && quantityRule i.quantity && descriptionRule i.description

/-- The numeral `String(n)` of a number is read by the validators as the number it denotes:
`isFloat({ min: 0 })` accepts it exactly when `n` is finite and `>= 0`, and
`isInt({ min: 0 })` exactly when `n` is moreover an integer below `10 ^ 21`.  It holds of
every number under `NumeralLaws` (`plainNumeral_of_laws`). -/
def PlainNumeral (rt : Runtime) (n : JSNum) : Prop :=
  isFloatMin0 (validatorString rt (.num n)) = priceRule (some n)
  ∧ isIntMin0 (validatorString rt (.num n)) = quantityRule (some n)

/-- What the language lays down for the numeral `String(n)` of a Number (`Number::toString`):
the numeral of a finite `n` is a minus sign, when `n < 0`, and an unsigned decimal literal,
digits with an optional fraction and exponent; the literal reads back as the magnitude of
`n`; and it consists of digits only exactly when `n` is an integer of magnitude below
`10 ^ 21`, a point or an exponent standing in it otherwise.  The numerals of the infinities
are `Infinity` and `-Infinity`. -/
def NumeralLaws (rt : Runtime) : JSNum → Prop
  | .nan => True
  | .posInf => rt.numberToString .posInf = "Infinity"
  | .negInf => rt.numberToString .negInf = "-Infinity"
  | .fin x =>
    ∃ cs v, rt.numberToString (.fin x) = String.mk (if x < 0 then '-' :: cs else cs)
      ∧ parseUnsigned cs = some (.fin v)
      ∧ roundToDouble v = .fin |x|
      ∧ (cs.all Char.isDigit = true ↔ x.den = 1 ∧ |x| < 10 ^ 21)

/-- The rule of `sweetValidation` on `name` is broken: one of the strings that the chain works
on is empty after trimming, or longer than 100 characters. -/
def nameViolated (rt : Runtime) (body : Body) : Bool :=
  ((fieldStrings rt body.name).map jsTrim).any
    (fun s => decide (s = "") || decide (100 < validatorLength s))

/-- The rule of `sweetValidation` on `category` is broken: one of the strings that the chain
works on is, after trimming, none of the enumerated values. -/
def categoryViolated (rt : Runtime) (body : Body) : Bool :=
  ((fieldStrings rt body.category).map jsTrim).any (fun s => decide (s ∉ categories))

/-- The rule of `sweetValidation` on `price` is broken: one of the strings that the chain works
on fails `isFloat({ min: 0 })`. -/
def priceViolated (rt : Runtime) (body : Body) : Bool :=
  (fieldStrings rt body.price).any (fun s => !isFloatMin0 s)

/-- The rule of `sweetValidation` on `quantity` is broken: the field is there and one of the
strings that the chain works on fails `isInt({ min: 0 })`. -/
def quantityViolated (rt : Runtime) (body : Body) : Bool :=
  match optionalField body.quantity with
  | none => false
  | some v => (fieldStrings rt v).any (fun s => !isIntMin0 s)

/-- The rule of `sweetValidation` on `description` is broken: the field is there and one of
the strings that the chain works on is longer than 500 characters after trimming. -/
def descriptionViolated (rt : Runtime) (body : Body) : Bool :=
  match optionalField body.description with
  | none => false
  | some v => ((fieldStrings rt v).map jsTrim).any (fun s => decide (500 < validatorLength s))

/-- The `imageUrl` that Create stores for a value that casts to a string: the trimmed string of
the value, or of the empty string that replaces a falsy value. -/
def storedImageUrl (rt : Runtime) (v : JSVal) : Option String :=
  match castString rt (jsOr v (.str "")) with
  | .value u => some u
  | _ => none

/-- The document that Create stores for a typed input that meets the rules: the trimmed name,
category and description, the price, and the quantity or 0. -/
def createdDoc (rt : Runtime) (newId : ObjectId) (i : CreateInput) : Sweet :=
  { _id := newId
    name := jsTrim (i.name.getD "")
    category := jsTrim (i.category.getD "")
    price := i.price.getD (.fin 0)
    quantity := i.quantity.getD (.fin 0)
    description := some (jsTrim (i.description.getD ""))
    imageUrl := storedImageUrl rt i.imageUrl }

/-! ## The global error handler of `app.js` -/

/-- An error that reaches the global error handler, with the properties of a JavaScript error
object.  `status` is `undefined` on the errors that the storage driver and the token package
throw, and a number on those that the body parser raises for a malformed request. -/
structure ErrorObject where
  name : String := "Error"
  message : JSVal := .undefined
  status : JSVal := .undefined
  stack : String := ""
deriving DecidableEq

/-- What the global error handler sends: the argument of `res.status` and the `error` of the
JSON body. -/
structure ErrorReply where
  status : JSVal
  error : JSVal
deriving DecidableEq

/-- The global error handler of `app.js`. -/
def errorHandler (err : ErrorObject) : ErrorReply :=
  { status := jsOr err.status (.num (.fin 500))
    error := jsOr err.message (.str "Internal Server Error") }

/-! ## The validation chains of `routes/auth.routes.js`, and Register and Login -/

/-- The fields of `req.body` on the routes of `routes/auth.routes.js`. -/
structure Credentials where
  username : JSVal := .undefined
  password : JSVal := .undefined
  role : JSVal := .undefined
deriving DecidableEq

/-- A request to the routes of `routes/auth.routes.js`, with the errors that the validation
chain recorded on it. -/
structure AuthRequest where
  body : Credentials := {}
  validationErrors : List FieldError := []
deriving DecidableEq

/-- The middleware list `registerValidation`. -/
def registerValidation (rt : Runtime) (req : AuthRequest) : AuthRequest :=
  let username := (fieldStrings rt req.body.username).map jsTrim
  let errors : List FieldError :=
    failures "username" "Username must be 3-30 characters"
        (fun s => decide (3 ≤ validatorLength s ∧ validatorLength s ≤ 30)) username
    ++ failures "password" "Password must be at least 6 characters"
        (fun s => decide (6 ≤ validatorLength s)) (fieldStrings rt req.body.password)
  { req with
    body := { req.body with username := sanitizedValue req.body.username username }
    validationErrors := req.validationErrors ++ errors }

/-- The middleware list `loginValidation`. -/
def loginValidation (rt : Runtime) (req : AuthRequest) : AuthRequest :=
  let username := (fieldStrings rt req.body.username).map jsTrim
  let errors : List FieldError :=
    failures "username" "Username is required" (fun s => decide (s ≠ "")) username
    ++ failures "password" "Password is required" (fun s => decide (s ≠ ""))
        (fieldStrings rt req.body.password)
  { req with
    body := { req.body with username := sanitizedValue req.body.username username }
    validationErrors := req.validationErrors ++ errors }

/-- Modelled from the spec: a stored Account (`models/User.js` is not among the sources): the
account as it is returned to clients, and the digest of its password. -/
structure Account where
  user : User
  digest : String
deriving DecidableEq

/-- Modelled from the spec: the collaborators of Identity and Access: the password hashing
(`hash(plaintext)`, `compare(plaintext, digest)`) and the issuance of a session token for an
account id. -/
structure Identity where
  hash : String → String
  compare : String → String → Bool
  issueToken : ObjectId → String

/-- A JSON response of the routes of `routes/auth.routes.js`: the status and the fields of the
body that are present. -/
structure AuthResponse where
  status : Nat := 200
  error : Option String := none
  message : Option String := none
  errors : Option (List FieldError) := none
  user : Option User := none
  token : Option String := none
deriving DecidableEq

/-- Modelled from the spec: the operation Register (`controllers/auth.controller.js` is not
among the sources).  `errors` is what the validation chain recorded: when there are any the
answer is 400 with the list, before storage is touched.  A username that exists is a conflict,
answered 400; otherwise the account is stored with the digest of the password and the role,
`user` when none is given, and returned with a fresh token. -/
def register (ids : Identity) (newId : ObjectId) (accounts : List Account)
    (errors : List FieldError) (username password : String) (role : Option String) :
    AuthResponse × List Account :=
  if errors ≠ [] then ({ status := 400, errors := some errors }, accounts)
  else if accounts.any (fun a => a.user.username == username) then
    ({ status := 400, error := some "Username already exists" }, accounts)
  else
    let user : User := { _id := newId, username := username, role := role.getD "user" }
    ({ status := 201, message := some "User registered successfully", user := some user,
       token := some (ids.issueToken newId) },
      accounts ++ [{ user := user, digest := ids.hash password }])

/-- Modelled from the spec: the operation Login (`controllers/auth.controller.js` is not among
the sources): the account is looked up by the exact username; the one answer 401
`Invalid credentials` is given both when there is no such account and when the password does
not compare to the stored digest; on success the account and a new token are returned. -/
def login (ids : Identity) (accounts : List Account) (username password : String) :
    AuthResponse :=
  match accounts.find? (fun a => a.user.username == username) with
  | none => { status := 401, error := some "Invalid credentials" }
  | some a =>
    if ids.compare password a.digest then
      { message := some "Login successful", user := some a.user,
        token := some (ids.issueToken a.user._id) }
    else { status := 401, error := some "Invalid credentials" }

/-! ## The client: `AuthProvider` (`context/AuthContext.jsx`) and `ProtectedRoute` (`App.jsx`) -/

/-- The account object that the client holds; `role` is what the JSON of the server carried. -/
structure ClientUser where
  role : JSVal := .undefined
deriving DecidableEq

/-- The state of `AuthProvider`: `user` is `none` when it holds `null`. -/
structure AuthState where
  user : Option ClientUser := none
  loading : Bool := true
deriving DecidableEq

/-- The value `isAdmin` of the context: `user?.role === 'admin'`. -/
def AuthState.isAdmin (auth : AuthState) : Bool :=
  match auth.user with
  | none => false
  | some user => decide (user.role = .str "admin")

/-- The value `isAuthenticated` of the context: `!!user`. -/
def AuthState.isAuthenticated (auth : AuthState) : Bool := auth.user.isSome

/-- What a route element renders. -/
inductive View where
  | loading
  | navigate (target : String)
  | children
deriving DecidableEq

/-- The component `ProtectedRoute`. -/
def ProtectedRoute (adminOnly : Bool) (auth : AuthState) : View :=
  if auth.loading then .loading
  else if !auth.isAuthenticated then .navigate "/login"
  else if adminOnly && !auth.isAdmin then .navigate "/"
  else .children

/-! ## The outcome of Update as the specification words it -/

/-- The value stored on a String path that is not required for a value that casts to a
string: the trimmed string, and nothing for `null`. -/
def storedString (rt : Runtime) (v : JSVal) : Option String :=
  match castString rt v with
  | .value u => some u
  | _ => none

/-- The `imageUrl` after an Update: the stored one when the body has none, and otherwise what
is stored for the value of the body. -/
def updatedImageUrl (rt : Runtime) (v : JSVal) (stored : Option String) : Option String :=
  match v with
  | .undefined => stored
  | v => storedString rt v

/-- The rules of Update on a typed input: each of the validated fields is absent or meets the
rule of Create for it. -/
def meetsUpdateRules (i : CreateInput) : Bool :=
  (i.name.isNone || nameRule i.name) && (i.category.isNone || categoryRule i.category)
    && (i.price.isNone || priceRule i.price) && quantityRule i.quantity
    && descriptionRule i.description

/-- The product after an Update with a typed input: a field of the input that is present
replaces the stored one, trimmed when it is a string, and a field that is absent leaves the
stored one. -/
def updatedDoc (rt : Runtime) (i : CreateInput) (sweet : Sweet) : Sweet :=
  { _id := sweet._id
    name := match i.name with
      | none => sweet.name
      | some n => jsTrim n
    category := match i.category with
      | none => sweet.category
      | some c => jsTrim c
    price := i.price.getD sweet.price
    quantity := i.quantity.getD sweet.quantity
    description := match i.description with
      | none => sweet.description
      | some d => some (jsTrim d)
    imageUrl := updatedImageUrl rt i.imageUrl sweet.imageUrl }

/-! ## Predicates and sample data used by the statements below -/

/-- The store after a handler is the store before it, or the store before it with the
quantity of one document set to the quantity of a document that passed validation. -/
def ValidWrite (db db' : Db) : Prop :=
  db' = db ∨ ∃ s, schemaValid s = true ∧ db' = updateQuantity db s._id s.quantity

/-- The product with the id is stored and its quantity is not negative. -/
def StockNonneg (oid : ObjectId) (db : Db) : Prop :=
  ∃ q, storedQuantity db oid = some q ∧ q.ge (.fin 0) = true

/-- A product of the test suite with a given stock. -/
def gummyBears (q : ℚ) : Sweet :=
  { _id := 1, name := "Gummy Bears", category := "candy", price := .fin 5, quantity := .fin q,
    description := some "", imageUrl := some "" }

/-- A second product of the test suite, out of stock. -/
def chocolateBar : Sweet :=
  { _id := 2, name := "Chocolate Bar", category := "chocolate", price := .fin 3,
    quantity := .fin 0, description := some "Dark chocolate", imageUrl := some "" }

/-- The route parameter that casts to the id of `gummyBears`. -/
def sampleId : String := "000000000000000000000001"

/-- A purchase or restock request for `gummyBears` with a given `quantity` field. -/
def stockRequest (v : JSVal) : Request :=
  { params := { id := sampleId }, body := { quantity := v } }

/-- A regular account and an administrator. -/
def sampleUser (role : String) : User := { _id := 7, username := "sam", role := role }

/-- A password hashing that marks the plain text, and one token for every account. -/
def sampleIdentity : Identity :=
  { hash := fun plaintext => "digest:" ++ plaintext
    compare := fun plaintext digest => digest == "digest:" ++ plaintext
    issueToken := fun _ => "good-token" }

/-- The account `logintest` of the test suite, registered with the password `password123`. -/
def loginTestAccount : Account :=
  { user := { _id := 7, username := "logintest", role := "user" }
    digest := "digest:password123" }

/-! ## Lemmas -/

/-! ### Rounding -/

/-- An integer is its own rounding. -/
theorem roundHalfEven_intCast (z : ℤ) : roundHalfEven (z : ℚ) = z := by
  simp [roundHalfEven]

/-- The rounding of a rational that is `>= 0` is `>= 0`. -/
theorem roundHalfEven_nonneg {x : ℚ} (h : 0 ≤ x) : 0 ≤ roundHalfEven x := by
  have hf : 0 ≤ ⌊x⌋ := Int.floor_nonneg.mpr h
  unfold roundHalfEven
  split_ifs <;> omega

/-- The number of binary digits `b` of a positive `n` satisfies `2 ^ (b - 1) <= n < 2 ^ b`. -/
theorem bitLength_spec (fuel n : ℕ) (hn : 1 ≤ n) (hf : n ≤ fuel) :
    2 ^ (bitLength fuel n - 1) ≤ n ∧ n < 2 ^ bitLength fuel n ∧ 1 ≤ bitLength fuel n := by
  induction fuel generalizing n with
  | zero => omega
  | succ fuel ih =>
    have hn0 : n ≠ 0 := by omega
    simp only [bitLength, hn0, if_false]
    by_cases h1 : n = 1
    · subst h1
      cases fuel <;> simp [bitLength]
    · have h2 : 1 ≤ n / 2 := by omega
      have h3 : n / 2 ≤ fuel := by omega
      obtain ⟨a, b, c⟩ := ih (n / 2) h2 h3
      refine ⟨?_, ?_, by omega⟩
      · have e : bitLength fuel (n / 2) + 1 - 1 = (bitLength fuel (n / 2) - 1) + 1 := by omega
        rw [e, pow_succ]
        omega
      · rw [pow_succ]
        omega

/-- The power of two of the binade of a positive rational is at most the rational. -/
theorem binade_le {a : ℚ} (ha : 0 < a) : (2 : ℚ) ^ binade a ≤ a := by
  unfold binade
  simp only []
  split_ifs with h
  · exact h
  · have hnum : 0 < a.num := Rat.num_pos.mpr ha
    have hn1 : 1 ≤ a.num.natAbs := by omega
    obtain ⟨n1, -, n3⟩ := bitLength_spec a.num.natAbs a.num.natAbs hn1 le_rfl
    obtain ⟨-, d2, d3⟩ := bitLength_spec a.den a.den a.den_pos le_rfl
    set bn := bitLength a.num.natAbs a.num.natAbs
    set bd := bitLength a.den a.den
    have e1 : ((bn : ℤ) - bd - 1) = ((bn - 1 : ℕ) : ℤ) - (bd : ℕ) := by omega
    rw [e1, zpow_sub₀ (by norm_num), zpow_natCast, zpow_natCast]
    have hA : ((2 : ℚ) ^ (bn - 1)) ≤ (a.num.natAbs : ℚ) := by exact_mod_cast n1
    have hB : (a.den : ℚ) ≤ 2 ^ bd := by exact_mod_cast d2.le
    have ha' : a = (a.num.natAbs : ℚ) / a.den := by
      have h2 : ((a.num.natAbs : ℕ) : ℚ) = ((a.num : ℤ) : ℚ) := by
        rw [Nat.cast_natAbs, abs_of_pos hnum]
      rw [h2]
      exact (Rat.num_div_den a).symm
    rw [ha']
    have hden : (0 : ℚ) < a.den := by exact_mod_cast a.den_pos
    have hpow : (0 : ℚ) < 2 ^ bd := by positivity
    rw [div_le_div_iff₀ hpow hden]
    calc (2 : ℚ) ^ (bn - 1) * a.den ≤ a.num.natAbs * 2 ^ bd := by
          apply mul_le_mul hA hB (by positivity) (by positivity)

/-- A rational that is an integer multiple of the unit in the last place and below the
overflow threshold is its own rounding. -/
theorem roundToDouble_of_multiple {q : ℚ} (hq : 0 < q) (m : ℤ)
    (hm : q / 2 ^ (max (binade q) (-1022) - 52) = m) (hlt : q < 2 ^ 1024) :
    roundToDouble q = .fin q := by
  have habs : |q| = q := abs_of_pos hq
  have hne : q ≠ 0 := ne_of_gt hq
  have hpos : (0 : ℚ) < 2 ^ (max (binade q) (-1022) - 52) := by positivity
  have hr : (m : ℚ) * 2 ^ (max (binade q) (-1022) - 52) = q := by
    rw [← hm]
    field_simp
  simp only [roundToDouble, hne, if_false, habs, hm, roundHalfEven_intCast, hr, not_lt.mpr hq.le,
    not_le.mpr hlt]

/-- A positive integer up to `2 ^ 53` is a double. -/
theorem roundToDouble_natCast_pos (n : ℕ) (hn : 1 ≤ n) (hle : n ≤ 2 ^ 53) :
    roundToDouble (n : ℚ) = .fin n := by
  have hq : (0 : ℚ) < n := by exact_mod_cast hn
  have hb := binade_le hq
  have hn53 : (n : ℚ) ≤ 2 ^ (53 : ℤ) := by exact_mod_cast hle
  have he : binade (n : ℚ) ≤ 53 := by
    by_contra hcon
    push_neg at hcon
    have : (2 : ℚ) ^ (54 : ℤ) ≤ 2 ^ binade (n : ℚ) := zpow_le_zpow_right₀ (by norm_num) (by omega)
    have h54 : (2 : ℚ) ^ (53 : ℤ) < 2 ^ (54 : ℤ) := by norm_num
    linarith
  have hlt : (n : ℚ) < 2 ^ 1024 := by
    have : (2 : ℚ) ^ (53 : ℤ) < 2 ^ 1024 := by norm_num
    linarith
  set e := max (binade (n : ℚ)) (-1022) with he_def
  have he1 : e ≤ 53 := max_le he (by norm_num)
  have he0 : -1022 ≤ e := le_max_right _ _
  rcases lt_or_eq_of_le he1 with hlt53 | heq
  · -- e ≤ 52
    have hk : 0 ≤ 52 - e := by omega
    obtain ⟨k, hk'⟩ := Int.eq_ofNat_of_zero_le hk
    refine roundToDouble_of_multiple hq ((n : ℤ) * 2 ^ k) ?_ hlt
    rw [← he_def]
    have : e - 52 = -(k : ℤ) := by omega
    rw [this, zpow_neg, zpow_natCast]
    push_cast
    field_simp
  · -- e = 53, so n = 2 ^ 53
    have hbin : binade (n : ℚ) = 53 := by
      rcases max_cases (binade (n : ℚ)) (-1022) with ⟨h1, _⟩ | ⟨h1, _⟩
      · rw [← h1, ← he_def]; exact heq
      · rw [← he_def, heq] at h1; norm_num at h1
    rw [hbin] at hb
    have hn_eq : (n : ℚ) = 2 ^ 53 := le_antisymm (by exact_mod_cast hle) (by exact_mod_cast hb)
    refine roundToDouble_of_multiple hq (2 ^ 52) ?_ hlt
    rw [← he_def, heq, hn_eq]
    norm_num

/-- Rounding commutes with the change of sign. -/
theorem roundToDouble_neg (q : ℚ) (r : ℚ) (h : roundToDouble q = .fin r) :
    roundToDouble (-q) = .fin (-r) := by
  rcases lt_trichotomy q 0 with hq | hq | hq
  · have hq0 : q ≠ 0 := ne_of_lt hq
    have hnq : -q ≠ 0 := by simpa using hq0
    have hnn : ¬ (-q < 0) := by simp; exact hq.le
    simp only [roundToDouble, hq0, hnq, if_false, abs_neg, hq, if_true, hnn] at h ⊢
    split_ifs at h ⊢ with h1
    injection h with h
    rw [← h, neg_neg]
  · subst hq
    have : r = 0 := by
      simp only [roundToDouble, if_true] at h
      injection h with h
      exact h.symm
    subst this
    simp [roundToDouble]
  · have hq0 : q ≠ 0 := ne_of_gt hq
    have hnq : -q ≠ 0 := by simpa using hq0
    have hn : -q < 0 := by simpa using hq
    have hnn : ¬ (q < 0) := not_lt.mpr hq.le
    simp only [roundToDouble, hq0, hnq, if_false, abs_neg, hn, if_true, hnn] at h ⊢
    split_ifs at h ⊢ with h1
    injection h with h
    rw [← h]

/-- An integer of magnitude up to `2 ^ 53` is a double. -/
theorem roundToDouble_intCast (z : ℤ) (hz : |z| ≤ 2 ^ 53) : roundToDouble (z : ℚ) = .fin z := by
  rcases lt_trichotomy z 0 with h | h | h
  · have hn : 1 ≤ (-z).toNat := by omega
    have hle : (-z).toNat ≤ 2 ^ 53 := by
      have : |z| = -z := abs_of_neg h
      omega
    have := roundToDouble_natCast_pos (-z).toNat hn hle
    have e : (((-z).toNat : ℕ) : ℚ) = -(z : ℚ) := by
      have : (((-z).toNat : ℕ) : ℤ) = -z := Int.toNat_of_nonneg (by omega)
      exact_mod_cast this
    rw [e] at this
    have := roundToDouble_neg _ _ this
    simpa using this
  · subst h
    simp [roundToDouble]
  · have hn : 1 ≤ z.toNat := by omega
    have hle : z.toNat ≤ 2 ^ 53 := by
      have : |z| = z := abs_of_pos h
      omega
    have := roundToDouble_natCast_pos z.toNat hn hle
    have e : ((z.toNat : ℕ) : ℚ) = (z : ℚ) := by
      have : ((z.toNat : ℕ) : ℤ) = z := Int.toNat_of_nonneg (by omega)
      exact_mod_cast this
    rw [e] at this
    exact this

/-- Rounding never gives `NaN`. -/
theorem roundToDouble_ne_nan (q : ℚ) : roundToDouble q ≠ .nan := by
  simp only [roundToDouble]
  split_ifs <;> simp

/-- A rational that is `>= 0` rounds to a finite value that is `>= 0` or to `Infinity`. -/
theorem roundToDouble_nonneg {q : ℚ} (hq : 0 ≤ q) :
    roundToDouble q = .posInf ∨ ∃ r, 0 ≤ r ∧ roundToDouble q = .fin r := by
  by_cases h0 : q = 0
  · right; exact ⟨0, le_rfl, by simp [roundToDouble, h0]⟩
  · have hnlt : ¬ q < 0 := not_lt.mpr hq
    simp only [roundToDouble, h0, if_false, hnlt]
    split_ifs with h
    · left; rfl
    · right
      refine ⟨_, ?_, rfl⟩
      have := roundHalfEven_nonneg (x := |q| / 2 ^ (max (binade |q|) (-1022) - 52))
        (by positivity)
      have h2 : (0 : ℚ) ≤ (roundHalfEven (|q| / 2 ^ (max (binade |q|) (-1022) - 52)) : ℤ) := by
        exact_mod_cast this
      positivity

/-! ### The store and the stock handlers -/

/-- A Number that is `>=` another is not `<` it. -/
theorem JSNum.lt_eq_false_of_ge {a b : JSNum} (h : a.ge b = true) : a.lt b = false := by
  cases a <;> cases b <;> simp_all [JSNum.ge, JSNum.lt]

/-- A document found under an id has that id. -/
theorem find_id_eq {db : Db} {oid : ObjectId} {sweet : Sweet}
    (h : db.find? (fun s => s._id == oid) = some sweet) : sweet._id = oid := by
  have := List.find?_some h
  simpa using this

/-- A successful `findById` cast the parameter and found the document under the id. -/
theorem findById_ok {rt : Runtime} {db : Db} {id : String} {sweet : Sweet}
    (h : findById rt db id = .ok (some sweet)) :
    ∃ oid, rt.castObjectId id = some oid ∧ db.find? (fun s => s._id == oid) = some sweet := by
  unfold findById at h
  cases hc : rt.castObjectId id with
  | none => simp [hc] at h
  | some oid =>
    simp only [hc] at h
    exact ⟨oid, rfl, by injection h⟩

/-- After the update the document under the id is the old one with the new quantity. -/
theorem find_updateQuantity_same (db : Db) (oid : ObjectId) (n : JSNum) (sweet : Sweet)
    (h : db.find? (fun s => s._id == oid) = some sweet) :
    (updateQuantity db oid n).find? (fun s => s._id == oid) = some { sweet with quantity := n } := by
  induction db with
  | nil => simp at h
  | cons a rest ih =>
    cases hb : (a._id == oid) with
    | true =>
      rw [List.find?_cons_of_pos _ (by simpa using hb)] at h
      injection h with h
      subst h
      simp only [updateQuantity, hb, if_true]
      rw [List.find?_cons_of_pos _ (by simpa using hb)]
    | false =>
      rw [List.find?_cons_of_neg _ (by simp [hb])] at h
      simp only [updateQuantity, hb]
      rw [if_neg (by simp), List.find?_cons_of_neg _ (by simp [hb])]
      exact ih h

/-- An update under one id does not change what is found under another. -/
theorem find_updateQuantity_other (db : Db) (oid other : ObjectId) (n : JSNum)
    (h : other ≠ oid) :
    (updateQuantity db other n).find? (fun s => s._id == oid)
      = db.find? (fun s => s._id == oid) := by
  induction db with
  | nil => simp [updateQuantity]
  | cons a rest ih =>
    cases hb : (a._id == other) with
    | true =>
      have ha : a._id = other := by simpa using hb
      have hne : ¬ ((a._id == oid) = true) := by simp [ha, h]
      simp only [updateQuantity, hb, if_true]
      have e1 : List.find? (fun s => s._id == oid) ({ a with quantity := n } :: rest)
          = List.find? (fun s => s._id == oid) rest := List.find?_cons_of_neg _ hne
      have e2 : List.find? (fun s => s._id == oid) (a :: rest)
          = List.find? (fun s => s._id == oid) rest := List.find?_cons_of_neg _ hne
      rw [e1, e2]
    | false =>
      simp only [updateQuantity, hb]
      rw [if_neg (by simp)]
      cases hc : (a._id == oid) with
      | true =>
        rw [List.find?_cons_of_pos _ (by simpa using hc), List.find?_cons_of_pos _ (by simpa using hc)]
      | false =>
        rw [List.find?_cons_of_neg _ (by simp [hc]), List.find?_cons_of_neg _ (by simp [hc])]
        exact ih

/-- Reading back a document after its quantity was updated. -/
theorem findById_updateQuantity {rt : Runtime} {db : Db} {id : String} {sweet : Sweet}
    (h : findById rt db id = .ok (some sweet)) (q : JSNum) :
    findById rt (updateQuantity db sweet._id q) id = .ok (some { sweet with quantity := q }) := by
  obtain ⟨oid, hc, hf⟩ := findById_ok h
  have hid := find_id_eq hf
  subst hid
  simp only [findById, hc]
  rw [find_updateQuantity_same db _ _ sweet hf]

/-- A valid document has a quantity that is `>= 0`. -/
theorem schemaValid_quantity {sweet : Sweet} (h : schemaValid sweet = true) :
    sweet.quantity.ge (.fin 0) = true := by
  simp only [schemaValid, Bool.and_eq_true] at h
  exact h.1.2

/-- Setting a quantity that is `>= 0` keeps a document valid. -/
theorem schemaValid_with_quantity {sweet : Sweet} {q : JSNum} (h : schemaValid sweet = true)
    (hq : q.ge (.fin 0) = true) : schemaValid { sweet with quantity := q } = true := by
  simp only [schemaValid, Bool.and_eq_true] at h ⊢
  exact ⟨⟨h.1.1, hq⟩, h.2⟩

/-- A `save()` that resolves wrote the quantity of a document that passed validation. -/
theorem save_ok {db db' : Db} {doc : Option Sweet} (h : save db doc = .ok db') :
    ∃ s, doc = some s ∧ schemaValid s = true ∧ db' = updateQuantity db s._id s.quantity := by
  cases doc with
  | none => simp [save] at h
  | some s =>
    by_cases hv : schemaValid s = true
    · simp only [save, hv, if_true] at h
      injection h with h
      exact ⟨s, rfl, hv, h.symm⟩
    · simp [save, hv] at h

/-- The only write of `purchaseSweet` is of a validated quantity. -/
theorem purchaseSweet_validWrite (rt : Runtime) (db : Db) (req : Request) :
    ValidWrite db (purchaseSweet rt db req).2 := by
  unfold purchaseSweet
  cases h : purchaseRead rt db req with
  | done o => exact Or.inl rfl
  | saving doc quantity =>
    simp only [purchaseWrite]
    cases hs : save db doc with
    | error e => exact Or.inl rfl
    | ok db' =>
      obtain ⟨s, _, hv, hd⟩ := save_ok hs
      exact Or.inr ⟨s, hv, hd⟩

/-- The only write of `restockSweet` is of a validated quantity. -/
theorem restockSweet_validWrite (rt : Runtime) (db : Db) (req : Request) :
    ValidWrite db (restockSweet rt db req).2 := by
  unfold restockSweet
  simp only []
  split
  · exact Or.inl rfl
  · exact Or.inl rfl
  · split
    · exact Or.inl rfl
    · exact Or.inl rfl
    · split
      · exact Or.inl rfl
      · split
        · exact Or.inl rfl
        · rename_i db' hs
          obtain ⟨s, _, hv, hd⟩ := save_ok hs
          exact Or.inr ⟨s, hv, hd⟩

/-- A validated write keeps the stock of every stored product non-negative. -/
theorem stockNonneg_validWrite {oid : ObjectId} {db db' : Db} (h : StockNonneg oid db)
    (hw : ValidWrite db db') : StockNonneg oid db' := by
  rcases hw with rfl | ⟨s, hv, rfl⟩
  · exact h
  · obtain ⟨q, hq, hge⟩ := h
    by_cases hid : s._id = oid
    · unfold storedQuantity at hq
      cases hf : db.find? (fun s => s._id == oid) with
      | none => simp [hf] at hq
      | some sweet =>
        refine ⟨s.quantity, ?_, schemaValid_quantity hv⟩
        unfold storedQuantity
        rw [hid, find_updateQuantity_same db oid _ sweet hf]
        rfl
    · refine ⟨q, ?_, hge⟩
      unfold storedQuantity
      rw [find_updateQuantity_other db oid s._id _ hid]
      exact hq

/-- A sequence of stock requests keeps the stock of a stored product non-negative. -/
theorem stockNonneg_applyRequests (rt : Runtime) (oid : ObjectId) (reqs : List StockRequest) :
    ∀ db, StockNonneg oid db → StockNonneg oid (applyRequests rt db reqs) := by
  induction reqs with
  | nil => intro db h; exact h
  | cons r rest ih =>
    intro db h
    have : applyRequests rt db (r :: rest) = applyRequests rt (applyRequest rt db r) rest := rfl
    rw [this]
    apply ih
    apply stockNonneg_validWrite h
    cases r with
    | purchase req => exact purchaseSweet_validWrite rt db req
    | restock req => exact restockSweet_validWrite rt db req

/-- The cast of a Number that is not `NaN` is the Number. -/
theorem castNumber_num {rt : Runtime} {d : JSNum} (h : d ≠ .nan) :
    castNumber rt (.num d) = .value d := by
  cases d <;> simp_all [castNumber]

/-- The difference of a stock and a quantity that it covers is a Number `>= 0`. -/
theorem sub_valid {s n : ℚ} (hns : n ≤ s) :
    (JSNum.fin s).sub (.fin n) ≠ .nan ∧ ((JSNum.fin s).sub (.fin n)).ge (.fin 0) = true := by
  have hd : 0 ≤ s + -n := by linarith
  have e : (JSNum.fin s).sub (.fin n) = roundToDouble (s + -n) := rfl
  rw [e]
  refine ⟨roundToDouble_ne_nan _, ?_⟩
  rcases roundToDouble_nonneg hd with h | ⟨r, hr, h⟩
  · rw [h]; simp [JSNum.ge]
  · rw [h]; simp [JSNum.ge, hr]

/-- The difference of two integers is exact when its magnitude is at most `2 ^ 53`. -/
theorem sub_intCast (s n : ℤ) (h : |s - n| ≤ 2 ^ 53) :
    (JSNum.fin s).sub (.fin n) = .fin ((s - n : ℤ) : ℚ) := by
  have e : (JSNum.fin s).sub (.fin n) = roundToDouble ((s : ℚ) + -(n : ℚ)) := rfl
  rw [e, ← roundToDouble_intCast (s - n) h]
  push_cast
  ring_nf

/-- The sum of two integers is exact when its magnitude is at most `2 ^ 53`. -/
theorem add_intCast (s n : ℤ) (h : |s + n| ≤ 2 ^ 53) :
    (JSNum.fin s).add (.fin n) = .fin ((s + n : ℤ) : ℚ) := by
  have e : (JSNum.fin s).add (.fin n) = roundToDouble ((s : ℚ) + (n : ℚ)) := rfl
  rw [e, ← roundToDouble_intCast (s + n) h]
  push_cast
  rfl

/-- With enough stock the handler reaches `save()` with the decremented document. -/
theorem purchaseRead_enough (rt : Runtime) (db : Db) (req : Request) (sweet : Sweet) (s n : ℚ)
    (hq : req.body.quantity = .num (.fin n)) (hn : 1 ≤ n) (hns : n ≤ s)
    (hfound : findById rt db req.params.id = .ok (some sweet))
    (hs : sweet.quantity = .fin s) :
    purchaseRead rt db req
      = .saving (some { sweet with quantity := (JSNum.fin s).sub (.fin n) })
          (.num (.fin n)) := by
  have h1 : JSNum.lt (.fin n) (.fin 1) = false := by simpa [JSNum.lt] using hn
  have h2 : JSNum.lt (.fin s) (.fin n) = false := by simpa [JSNum.lt] using hns
  have h3 := @castNumber_num rt _ (sub_valid hns).1
  simp only [purchaseRead, hq, valLtNum, numLtVal, numSubVal, toNumber, h1,
    hfound, hs, h2, Option.map_some', setQuantity, h3]

/-- With too little stock the handler answers before reaching `save()`. -/
theorem purchaseRead_short (rt : Runtime) (db : Db) (req : Request) (sweet : Sweet) (n : JSNum)
    (hq : req.body.quantity = .num n) (hn : n.ge (.fin 1) = true)
    (hfound : findById rt db req.params.id = .ok (some sweet))
    (hs : sweet.quantity.lt n = true) :
    purchaseRead rt db req
      = .done (.respond { status := 400, error := some "Insufficient stock",
                          available := some sweet.quantity }) := by
  have h1 := JSNum.lt_eq_false_of_ge hn
  simp [purchaseRead, hq, valLtNum, numLtVal, toNumber, h1, hfound, hs]

/-- Saving a valid document answers 200 and writes its quantity. -/
theorem purchaseWrite_valid (db : Db) (doc : Sweet) (quantity : JSVal)
    (hv : schemaValid doc = true) :
    purchaseWrite db (some doc) quantity
      = (.respond { status := 200, message := some "Purchase successful", sweet := some doc,
                    purchased := some quantity },
         updateQuantity db doc._id doc.quantity) := by
  simp only [purchaseWrite, save, hv, if_true]

/-- A purchase of a finite quantity between 1 and the stock, integer or not, is accepted, and
the quantity written is the difference as the runtime computes it. -/
theorem purchase_accepts (rt : Runtime) (db : Db) (req : Request) (sweet : Sweet) (s n : ℚ)
    (hq : req.body.quantity = .num (.fin n)) (hn : 1 ≤ n) (hns : n ≤ s)
    (hfound : findById rt db req.params.id = .ok (some sweet))
    (hs : sweet.quantity = .fin s) (hv : schemaValid sweet = true) :
    purchaseSweet rt db req
      = (.respond { status := 200, message := some "Purchase successful",
                    sweet := some { sweet with quantity := (JSNum.fin s).sub (.fin n) },
                    purchased := some (.num (.fin n)) },
         updateQuantity db sweet._id ((JSNum.fin s).sub (.fin n))) := by
  have hv2 : schemaValid { sweet with quantity := (JSNum.fin s).sub (.fin n) } = true :=
    schemaValid_with_quantity hv (sub_valid hns).2
  simp only [purchaseSweet, purchaseRead_enough rt db req sweet s n hq hn hns hfound hs,
    purchaseWrite_valid db _ _ hv2]

/-- The sum of a stock and a quantity that passes the restock guard is a Number `>= 0`. -/
theorem restock_sum_valid {q n : JSNum} (hq : q.ge (.fin 0) = true)
    (h1 : n.isFalsy = false) (h2 : n.lt (.fin 1) = false) :
    q.add n ≠ .nan ∧ (q.add n).ge (.fin 0) = true := by
  cases q with
  | nan => simp [JSNum.ge] at hq
  | negInf => simp [JSNum.ge] at hq
  | posInf => cases n <;> simp_all [JSNum.ge, JSNum.lt, JSNum.add, JSNum.isFalsy]
  | fin a =>
    cases n with
    | nan => simp [JSNum.isFalsy] at h1
    | negInf => simp [JSNum.lt] at h2
    | posInf => simp [JSNum.ge, JSNum.add]
    | fin b =>
      have ha : 0 ≤ a := by simpa [JSNum.ge] using hq
      have hb : 1 ≤ b := by simpa [JSNum.lt] using h2
      have hab : 0 ≤ a + b := by linarith
      have e : (JSNum.fin a).add (.fin b) = roundToDouble (a + b) := rfl
      rw [e]
      refine ⟨roundToDouble_ne_nan _, ?_⟩
      rcases roundToDouble_nonneg hab with h | ⟨r, hr, h⟩
      · rw [h]; simp [JSNum.ge]
      · rw [h]; simp [JSNum.ge, hr]

/-- The outcomes of two purchases of 6 against a stock of 10 under each interleaving. -/
theorem race_outcomes (rt : Runtime) (db : Db) (reqA reqB : Request) (sweet : Sweet)
    (hA : reqA.body.quantity = .num (.fin 6)) (hB : reqB.body.quantity = .num (.fin 6))
    (hfA : findById rt db reqA.params.id = .ok (some sweet))
    (hfB : findById rt db reqB.params.id = .ok (some sweet))
    (hs : sweet.quantity = .fin 10) (hv : schemaValid sweet = true)
    (schedule : List Bool) (hmem : schedule ∈ interleavings) :
    findById rt (Race.run rt ⟨db, .waiting reqA, .waiting reqB⟩ schedule).db reqA.params.id
        = .ok (some { sweet with quantity := .fin 4 })
    ∧ (schedule = [true, true, false, false] →
        (Race.run rt ⟨db, .waiting reqA, .waiting reqB⟩ schedule).first.status = some 200
        ∧ (Race.run rt ⟨db, .waiting reqA, .waiting reqB⟩ schedule).second.response
          = some { status := 400, error := some "Insufficient stock",
                   available := some (.fin 4) })
    ∧ (schedule = [false, false, true, true] →
        (Race.run rt ⟨db, .waiting reqA, .waiting reqB⟩ schedule).second.status = some 200
        ∧ (Race.run rt ⟨db, .waiting reqA, .waiting reqB⟩ schedule).first.response
          = some { status := 400, error := some "Insufficient stock",
                   available := some (.fin 4) })
    ∧ (schedule ≠ [true, true, false, false] → schedule ≠ [false, false, true, true] →
        (Race.run rt ⟨db, .waiting reqA, .waiting reqB⟩ schedule).first.status = some 200
        ∧ (Race.run rt ⟨db, .waiting reqA, .waiting reqB⟩ schedule).second.status = some 200) := by
  have e4 : (JSNum.fin 10).sub (.fin 6) = .fin 4 := by decide!
  have hv4 : schemaValid { sweet with quantity := .fin 4 } = true :=
    schemaValid_with_quantity hv (by simp [JSNum.ge])
  have rA := purchaseRead_enough rt db reqA sweet 10 6 hA (by norm_num) (by norm_num) hfA hs
  have rB := purchaseRead_enough rt db reqB sweet 10 6 hB (by norm_num) (by norm_num) hfB hs
  rw [e4] at rA rB
  have fA1 := findById_updateQuantity hfA (.fin 4)
  have fB1 := findById_updateQuantity hfB (.fin 4)
  have fA2 := findById_updateQuantity fA1 (.fin 4)
  have sA := purchaseRead_short rt _ reqA _ (.fin 6) hA (by simp [JSNum.ge]) fA1
    (by simp [JSNum.lt]; norm_num)
  have sB := purchaseRead_short rt _ reqB _ (.fin 6) hB (by simp [JSNum.ge]) fB1
    (by simp [JSNum.lt]; norm_num)
  have w := fun (d : Db) (q : JSVal) => purchaseWrite_valid d _ q hv4
  have hi : interleavings =
      [[true, true, false, false], [true, false, true, false], [true, false, false, true],
       [false, true, true, false], [false, true, false, true], [false, false, true, true]] := by
    decide
  rw [hi] at hmem
  simp only [List.mem_cons, List.mem_singleton, List.not_mem_nil, or_false] at hmem
  rcases hmem with h | h | h | h | h | h <;> subst h <;>
    simp [Race.run, Race.step, Task.step, rA, rB, sA, sB, w, fA1, fA2, Task.status, Task.response]

/-- A restock of a quantity that passes the guard is accepted and adds the quantity. -/
theorem restock_accepts (rt : Runtime) (db : Db) (req : Request) (sweet : Sweet) (n : JSNum)
    (hq : req.body.quantity = .num n)
    (hpresent : n.isFalsy = false) (hguard : n.lt (.fin 1) = false)
    (hfound : findById rt db req.params.id = .ok (some sweet))
    (hv : schemaValid sweet = true) :
    restockSweet rt db req =
      (.respond { status := 200, message := some "Restock successful",
                  sweet := some { sweet with quantity := sweet.quantity.add n },
                  added := some (.num n) },
       updateQuantity db sweet._id (sweet.quantity.add n)) := by
  obtain ⟨hne, hge⟩ := restock_sum_valid (schemaValid_quantity hv) hpresent hguard
  have h4 := schemaValid_with_quantity hv hge
  have hcast : castNumber rt (.num (sweet.quantity.add n)) = .value (sweet.quantity.add n) := by
    cases hx : sweet.quantity.add n <;> simp_all [castNumber]
  simp only [restockSweet, hq, isFalsy, hpresent, valLtNum, toNumber, hguard, hfound,
    numAddVal, toPrimitive, Option.map_some', setQuantity, hcast, save, h4, if_true]
  simp

/-! ## Lemmas on the middleware, the list handler and the validation chains -/

/-- A header that starts with `Bearer ` is not empty. -/
theorem ne_empty_of_bearer {header : String} (h : jsStartsWith header "Bearer " = true) :
    header ≠ "" := by
  rintro rfl
  revert h
  decide

/-- The outcome of `authenticate` on a request without a bearer token. -/
theorem authenticate_unauthorized (jwt : Jwt) (users : UserModel) (env : ProcessEnv)
    (req : Request)
    (h : req.authorization = none
      ∨ ∃ header, req.authorization = some header ∧ jsStartsWith header "Bearer " = false) :
    authenticate jwt users env req =
      (.respond { status := 401, error := some "Access denied. No token provided." }, req) := by
  rcases h with h | ⟨header, h, hb⟩
  · simp [authenticate, h]
  · simp [authenticate, h, hb]

/-- The outcome of `authenticate` when verification throws. -/
theorem authenticate_verify_error (jwt : Jwt) (users : UserModel) (env : ProcessEnv)
    (req : Request) (header : String) (e : JSError)
    (hh : req.authorization = some header) (hb : jsStartsWith header "Bearer " = true)
    (hv : jwt.verify (bearerToken header) (jwtSecret env) = .error e) :
    authenticate jwt users env req = (authCatch e, req) := by
  have hne := ne_empty_of_bearer hb
  simp [authenticate, hh, hb, hne, hv]

/-- The outcome of `authenticate` when the account of the token is not stored. -/
theorem authenticate_user_missing (jwt : Jwt) (users : UserModel) (env : ProcessEnv)
    (req : Request) (header : String) (decoded : JSObject)
    (hh : req.authorization = some header) (hb : jsStartsWith header "Bearer " = true)
    (hv : jwt.verify (bearerToken header) (jwtSecret env) = .ok decoded)
    (hu : users.findById (getProp decoded "userId") = .ok none) :
    authenticate jwt users env req =
      (.respond { status := 401, error := some "Invalid token. User not found." }, req) := by
  have hne := ne_empty_of_bearer hb
  simp [authenticate, hh, hb, hne, hv, hu]

/-- The outcome of `authenticate` on a valid token of a stored account. -/
theorem authenticate_ok (jwt : Jwt) (users : UserModel) (env : ProcessEnv)
    (req : Request) (header : String) (decoded : JSObject) (user : User)
    (hh : req.authorization = some header) (hb : jsStartsWith header "Bearer " = true)
    (hv : jwt.verify (bearerToken header) (jwtSecret env) = .ok decoded)
    (hu : users.findById (getProp decoded "userId") = .ok (some user)) :
    authenticate jwt users env req = (.next, { req with user := some user }) := by
  have hne := ne_empty_of_bearer hb
  simp [authenticate, hh, hb, hne, hv, hu]

/-- The conditions of the filter that the handler builds are those of the specification. -/
theorem matchesFields_buildFilter (q : Query) (s : Sweet) :
    (buildFilter q).matchesFields s = listedBySpec q s := by
  unfold Filter.matchesFields listedBySpec buildFilter
  congr 1
  · cases hc : q.category with
    | none => simp [truthy]
    | some c =>
      by_cases h0 : c = ""
      · simp [truthy, h0]
      · simp [truthy, h0]
  · by_cases h1 : q.inStock = some "true"
    · simp [h1]
    · by_cases h2 : q.inStock = some "false"
      · simp [h2]
      · simp [h1, h2]

/-- An id that `findById` cannot resolve does not cast, or casts to an id that is not stored. -/
theorem findById_unresolved {rt : Runtime} {db : Db} {id : String}
    (h : findById rt db id = .error .castError ∨ findById rt db id = .ok none) :
    rt.castObjectId id = none
      ∨ ∃ oid, rt.castObjectId id = some oid ∧ db.find? (fun s => s._id == oid) = none := by
  unfold findById at h
  cases hc : rt.castObjectId id with
  | none => exact Or.inl rfl
  | some oid =>
    right
    refine ⟨oid, rfl, ?_⟩
    simp only [hc] at h
    rcases h with h | h
    · cases h
    · injection h

/-- A Number that is `>= 1` is truthy. -/
theorem JSNum.isFalsy_eq_false_of_ge {n : JSNum} (h : n.ge (.fin 1) = true) :
    n.isFalsy = false := by
  cases n <;> simp_all [JSNum.ge, JSNum.isFalsy]
  intro h0
  rw [h0] at h
  norm_num at h

/-- A pattern without metacharacters is read as its characters. -/
theorem parseRegex_literal (cs : List Char) (h : cs.any isMetachar = false) :
    parseRegex cs = some (cs.map RegexAtom.lit) := by
  induction cs with
  | nil => rfl
  | cons c rest ih =>
    simp only [List.any_cons, Bool.or_eq_false_iff] at h
    have hdot : c ≠ '.' := by
      rintro rfl
      have hm : isMetachar '.' = true := by decide
      rw [hm] at h
      exact absurd h.1 (by simp)
    simp only [parseRegex, hdot, if_false, h.1, ih h.2, Option.map_some', List.map_cons]
    simp

/-- Literal elements match at the start of a subject that starts with them. -/
theorem matchHere_literal (fold : Char → Char) (ps cs : List Char) :
    matchHere fold (ps.map RegexAtom.lit) cs = (ps.map fold).isPrefixOf cs := by
  induction ps generalizing cs with
  | nil => simp [matchHere]
  | cons p rest ih =>
    cases cs with
    | nil => simp [matchHere]
    | cons c cs =>
      simp only [List.map_cons, matchHere, atomMatches, ih, List.isPrefixOf]
      by_cases h : fold p = c <;> simp [h]

/-- The regular expressions of the concrete storage are literal on strings without
metacharacters. -/
theorem stdStorage_literalSearch : LiteralSearch stdStorage := by
  intro s hs
  have hp := parseRegex_literal s.toList hs
  have hi : ('i' ∈ "i".toList) := by decide
  refine ⟨fun subject => (subject.toList.map Char.toLower).tails.any
    (matchHere Char.toLower (s.toList.map RegexAtom.lit)), ?_, fun subject => ?_⟩
  · simp only [stdStorage, stdRegex, hp, hi, if_true]
  rw [Bool.eq_iff_iff]
  simp only [List.any_eq_true, decide_eq_true_eq, List.mem_tails, containsIgnoreCase, foldCase]
  rw [List.infix_iff_prefix_suffix]
  constructor
  · rintro ⟨t, ht, hp⟩
    rw [matchHere_literal, List.isPrefixOf_iff_prefix] at hp
    exact ⟨t, hp, ht⟩
  · rintro ⟨t, hp, ht⟩
    refine ⟨t, ht, ?_⟩
    rw [matchHere_literal, List.isPrefixOf_iff_prefix]
    exact hp

/-- The list handler with a search term whose regular expression is some test. -/
theorem getAllSweets_search (st : Storage) (db : Db) (req : Request) (s : String)
    (test : String → Bool)
    (hs : req.query.search = some s) (hne : s ≠ "")
    (ht : st.regex s "i" = .ok test) :
    ∃ sweets, getAllSweets st db req =
        .respond { status := 200, count := some sweets.length, sweets := some sweets }
      ∧ sweets.Perm (db.filter (fun p =>
          listedBySpec req.query p && (test p.name || testPath test p.description))) := by
  have hsearch : (buildFilter req.query).orRegex = some (s, "i") := by
    simp [buildFilter, truthy, hs, hne]
  have hf : find st db (buildFilter req.query)
      = .ok (db.filter (fun p =>
          listedBySpec req.query p && (test p.name || testPath test p.description))) := by
    simp only [find, hsearch, ht]
    congr 1
    exact List.filter_congr (fun p _ => by rw [matchesFields_buildFilter])
  exact ⟨st.sort (sortOptions req.query) (db.filter (fun p =>
      listedBySpec req.query p && (test p.name || testPath test p.description))),
    by simp [getAllSweets, hf], st.sort_perm _ _⟩

/-- Trimming a trimmed string changes nothing. -/
theorem jsTrim_idem (s : String) : jsTrim (jsTrim s) = jsTrim s := by
  have key : ∀ a : List Char, a.dropWhile isJsWhitespace = a →
      (a.rdropWhile isJsWhitespace).dropWhile isJsWhitespace
        = a.rdropWhile isJsWhitespace := by
    intro a ha
    cases a with
    | nil => simp [List.rdropWhile]
    | cons c cs =>
      have hc : isJsWhitespace c = false := by
        rw [List.dropWhile_eq_self_iff] at ha
        simpa using ha (by simp)
      have hpre : (c :: cs).rdropWhile isJsWhitespace <+: c :: cs :=
        List.rdropWhile_prefix _ _
      rcases List.prefix_cons_iff.1 hpre with h | ⟨t, h, _⟩
      · rw [h]; rfl
      · rw [h]; simp [List.dropWhile, hc]
  unfold jsTrim
  have e : ∀ cs : List Char,
      ((cs.dropWhile isJsWhitespace).reverse.dropWhile isJsWhitespace).reverse
        = (cs.dropWhile isJsWhitespace).rdropWhile isJsWhitespace := fun cs => rfl
  simp only [e]
  congr 1
  show List.rdropWhile isJsWhitespace (List.dropWhile isJsWhitespace
      (List.rdropWhile isJsWhitespace (List.dropWhile isJsWhitespace s.toList)))
    = List.rdropWhile isJsWhitespace (List.dropWhile isJsWhitespace s.toList)
  rw [key _ (List.dropWhile_idempotent _ _), List.rdropWhile_idempotent]

/-- The strings that the validators see of a string field: a present string as it is and an
absent one as the empty string. -/
theorem fieldStrings_optionalStr (rt : Runtime) (o : Option String) :
    fieldStrings rt (optionalStr o) = [o.getD ""] := by
  cases o <;> rfl

/-- The one string that the validators see of a number field. -/
theorem fieldStrings_optionalNum (rt : Runtime) (o : Option JSNum) :
    fieldStrings rt (optionalNum o) = [validatorString rt (optionalNum o)] := by
  cases o <;> rfl

/-- The errors of a validator on a single string. -/
theorem failures_singleton (path msg : String) (ok : String → Bool) (s : String) :
    failures path msg ok [s] = if ok s then [] else [⟨path, msg⟩] := by
  cases h : ok s <;> simp [failures, h]

/-- A validator that every string passes records nothing. -/
theorem failures_eq_nil (path msg : String) (ok : String → Bool) (values : List String) :
    failures path msg ok values = [] ↔ ∀ s ∈ values, ok s = true := by
  simp [failures, List.filter_eq_nil_iff]

/-- The sanitized value of a string field. -/
theorem sanitizedValue_optionalStr (o : Option String) (values : List String) :
    sanitizedValue (optionalStr o) values = .str (values.headD "") := by
  cases o <;> rfl

/-- The two validators of `name` pass exactly under the rule on `name`. -/
theorem nameErrors_nil (name : Option String) :
    failures "name" "Name is required" (fun s => decide (s ≠ "")) [jsTrim (name.getD "")]
      ++ failures "name" "Name cannot exceed 100 characters"
          (fun s => decide (validatorLength s ≤ 100)) [jsTrim (name.getD "")] = []
      ↔ nameRule name = true := by
  simp only [failures_singleton]
  cases name with
  | none =>
    have : jsTrim "" = "" := by decide
    simp [nameRule, this]
  | some n =>
    by_cases h1 : jsTrim n = "" <;> by_cases h2 : validatorLength (jsTrim n) ≤ 100 <;>
      simp [nameRule, h1, h2]

/-- The two validators of `category` pass exactly under the rule on `category`. -/
theorem categoryErrors_nil (category : Option String) :
    failures "category" "Category is required" (fun s => decide (s ≠ ""))
        [jsTrim (category.getD "")]
      ++ failures "category" "Invalid category" (fun s => decide (s ∈ categories))
          [jsTrim (category.getD "")] = []
      ↔ categoryRule category = true := by
  have hne : "" ∉ categories := by decide
  have h0 : jsTrim "" = "" := by decide
  simp only [failures_singleton, List.append_eq_nil]
  cases category with
  | none =>
    simp only [Option.getD_none, h0, categoryRule]
    simp [hne]
  | some c =>
    simp only [Option.getD_some, categoryRule, decide_eq_true_eq]
    by_cases h2 : jsTrim c ∈ categories
    · have h1 : jsTrim c ≠ "" := fun h => hne (h ▸ h2)
      simp [h1, h2]
    · simp [h2]

/-- The validator of `price` passes exactly under the rule on `price`. -/
theorem priceErrors_nil (rt : Runtime) (price : Option JSNum)
    (hprice : ∀ n, price = some n → PlainNumeral rt n) :
    failures "price" "Price must be a positive number" isFloatMin0
        (fieldStrings rt (optionalNum price)) = []
      ↔ priceRule price = true := by
  rw [fieldStrings_optionalNum, failures_singleton]
  cases price with
  | none =>
    have : isFloatMin0 "" = false := by decide
    simp [priceRule, optionalNum, validatorString, this]
  | some n =>
    have := (hprice n rfl).1
    simp only [optionalNum, this]
    cases priceRule (some n) <;> simp

/-- The validator of `quantity` passes exactly under the rule on `quantity`. -/
theorem quantityErrors_nil (rt : Runtime) (quantity : Option JSNum)
    (hquantity : ∀ n, quantity = some n → PlainNumeral rt n) :
    (match optionalField (optionalNum quantity) with
        | none => []
        | some v =>
          failures "quantity" "Quantity must be a non-negative integer" isIntMin0
            (fieldStrings rt v)) = []
      ↔ quantityRule quantity = true := by
  cases quantity with
  | none => simp [quantityRule, optionalNum, optionalField]
  | some n =>
    have := (hquantity n rfl).2
    have hf : fieldStrings rt (.num n) = [validatorString rt (.num n)] := rfl
    simp only [optionalNum, optionalField, hf, failures_singleton, this]
    cases quantityRule (some n) <;> simp

/-- The validator of `description` passes exactly under the rule on `description`. -/
theorem descriptionErrors_nil (rt : Runtime) (description : Option String) :
    (match (optionalField (optionalStr description)).map
          (fun v => (fieldStrings rt v).map jsTrim) with
        | none => []
        | some d =>
          failures "description" "Description cannot exceed 500 characters"
            (fun s => decide (validatorLength s ≤ 500)) d)
        = []
      ↔ descriptionRule description = true := by
  cases description with
  | none => simp [descriptionRule, optionalStr, optionalField]
  | some d =>
    have hf : fieldStrings rt (.str d) = [d] := rfl
    by_cases h : validatorLength (jsTrim d) ≤ 500 <;>
      simp [descriptionRule, optionalStr, optionalField, hf, failures_singleton, h]

/-- The validation of a typed input records no error exactly when the input meets the
rules. -/
theorem sweetValidation_errors (rt : Runtime) (req : Request) (i : CreateInput)
    (hbody : req.body = i.toBody) (hfresh : req.validationErrors = [])
    (hprice : ∀ n, i.price = some n → PlainNumeral rt n)
    (hquantity : ∀ n, i.quantity = some n → PlainNumeral rt n) :
    ((sweetValidation rt req).validationErrors = [] ↔ meetsCreateRules i = true) := by
  have e1 := nameErrors_nil i.name
  have e2 := categoryErrors_nil i.category
  have e3 := priceErrors_nil rt i.price hprice
  have e4 := quantityErrors_nil rt i.quantity hquantity
  have e5 := descriptionErrors_nil rt i.description
  have hn : req.body.name = optionalStr i.name := by rw [hbody]; rfl
  have hc : req.body.category = optionalStr i.category := by rw [hbody]; rfl
  have hp : req.body.price = optionalNum i.price := by rw [hbody]; rfl
  have hq : req.body.quantity = optionalNum i.quantity := by rw [hbody]; rfl
  have hd : req.body.description = optionalStr i.description := by rw [hbody]; rfl
  unfold sweetValidation
  simp only [hn, hc, hp, hq, hd, hfresh, List.nil_append, fieldStrings_optionalStr,
    List.map_cons, List.map_nil]
  simp only [meetsCreateRules, Bool.and_eq_true, ← e1, ← e2, ← e3, ← e4, ← e5]
  simp only [List.append_eq_nil, and_assoc]

/-- The body that `sweetValidation` leaves for a typed input. -/
theorem sweetValidation_body (rt : Runtime) (req : Request) (i : CreateInput)
    (hbody : req.body = i.toBody) :
    (sweetValidation rt req).body =
      { name := .str (jsTrim (i.name.getD ""))
        category := .str (jsTrim (i.category.getD ""))
        price := optionalNum i.price
        quantity := optionalNum i.quantity
        description := optionalStr (i.description.map jsTrim)
        imageUrl := i.imageUrl } := by
  have hn : req.body.name = optionalStr i.name := by rw [hbody]; rfl
  have hc : req.body.category = optionalStr i.category := by rw [hbody]; rfl
  have hp : req.body.price = optionalNum i.price := by rw [hbody]; rfl
  have hq : req.body.quantity = optionalNum i.quantity := by rw [hbody]; rfl
  have hd : req.body.description = optionalStr i.description := by rw [hbody]; rfl
  have hi : req.body.imageUrl = i.imageUrl := by rw [hbody]; rfl
  unfold sweetValidation
  simp only [hn, hc, hp, hq, hd, hi, fieldStrings_optionalStr, sanitizedValue_optionalStr,
    List.map_cons, List.map_nil, List.headD_cons]
  cases i.description <;> rfl

/-- The document built from the sanitized body of a typed input that meets the rules. -/
theorem newSweet_createdDoc (rt : Runtime) (newId : ObjectId) (i : CreateInput)
    (hrules : meetsCreateRules i = true) (himage : ∀ p, i.imageUrl ≠ .obj p) :
    newSweet rt newId (.str (jsTrim (i.name.getD ""))) (.str (jsTrim (i.category.getD "")))
        (optionalNum i.price) (jsOr (optionalNum i.quantity) (.num (.fin 0)))
        (jsOr (optionalStr (i.description.map jsTrim)) (.str ""))
        (jsOr i.imageUrl (.str ""))
      = some (createdDoc rt newId i) := by
  simp only [meetsCreateRules, Bool.and_eq_true] at hrules
  obtain ⟨⟨⟨⟨_, _⟩, hp⟩, hq⟩, _⟩ := hrules
  have h0 : jsTrim "" = "" := by decide
  have e1 : ∀ s : String, requiredString (castString rt (.str (jsTrim s))) = some (jsTrim s) :=
    fun s => by simp [castString, requiredString, jsTrim_idem]
  have e3 : requiredNumber (castNumber rt (optionalNum i.price)) = some (i.price.getD (.fin 0)) := by
    cases hpr : i.price with
    | none => rw [hpr] at hp; simp [priceRule] at hp
    | some n =>
      rw [hpr] at hp
      cases n <;> simp_all [priceRule, optionalNum, castNumber, requiredNumber]
  have e4 : requiredNumber (castNumber rt (jsOr (optionalNum i.quantity) (.num (.fin 0))))
      = some (i.quantity.getD (.fin 0)) := by
    cases hqu : i.quantity with
    | none => simp [optionalNum, jsOr, isFalsy, castNumber, requiredNumber]
    | some n =>
      rw [hqu] at hq
      cases n with
      | fin q =>
        by_cases hz : q = 0
        · simp [optionalNum, jsOr, isFalsy, JSNum.isFalsy, castNumber, requiredNumber, hz]
        · simp [optionalNum, jsOr, isFalsy, JSNum.isFalsy, castNumber, requiredNumber, hz]
      | nan => simp [quantityRule] at hq
      | posInf => simp [quantityRule] at hq
      | negInf => simp [quantityRule] at hq
  have e5 : optionalString (castString rt (jsOr (optionalStr (i.description.map jsTrim)) (.str "")))
      = some (some (jsTrim (i.description.getD ""))) := by
    cases i.description with
    | none => simp [optionalStr, jsOr, isFalsy, castString, optionalString, h0]
    | some d =>
      by_cases hz : jsTrim d = ""
      · simp [optionalStr, jsOr, isFalsy, castString, optionalString, hz, h0]
      · simp [optionalStr, jsOr, isFalsy, castString, optionalString, hz, jsTrim_idem]
  have e6 : optionalString (castString rt (jsOr i.imageUrl (.str "")))
      = some (storedImageUrl rt i.imageUrl) := by
    unfold storedImageUrl
    cases hv : i.imageUrl with
    | obj p => exact absurd hv (himage p)
    | undefined => simp [jsOr, isFalsy, castString, optionalString]
    | null => simp [jsOr, isFalsy, castString, optionalString]
    | str s =>
      by_cases hz : s = "" <;> simp [jsOr, isFalsy, castString, optionalString, hz]
    | num n =>
      cases hf : n.isFalsy <;> simp [jsOr, isFalsy, castString, optionalString, hf]
    | bool b => cases b <;> simp [jsOr, isFalsy, castString, optionalString]
  simp only [newSweet, e1, e3, e4, e5, e6, Option.bind_eq_bind, Option.some_bind, createdDoc]
  rfl

/-- The document stored for a typed input that meets the rules passes the schema, when its
name and description fit their limits in UTF-16 code units as well. -/
theorem schemaValid_createdDoc (rt : Runtime) (newId : ObjectId) (i : CreateInput)
    (hrules : meetsCreateRules i = true)
    (hname16 : validatorLength (jsTrim (i.name.getD "")) ≤ 100 →
      jsLength (jsTrim (i.name.getD "")) ≤ 100)
    (hdesc16 : validatorLength (jsTrim (i.description.getD "")) ≤ 500 →
      jsLength (jsTrim (i.description.getD "")) ≤ 500) :
    schemaValid (createdDoc rt newId i) = true := by
  simp only [meetsCreateRules, Bool.and_eq_true] at hrules
  obtain ⟨⟨⟨⟨hn, hc⟩, hp⟩, hq⟩, hd⟩ := hrules
  have hne : "" ∉ categories := by decide
  have h0 : jsTrim "" = "" := by decide
  have c1 : jsTrim (i.name.getD "") ≠ "" ∧ validatorLength (jsTrim (i.name.getD "")) ≤ 100 := by
    cases hnm : i.name with
    | none => rw [hnm] at hn; simp [nameRule] at hn
    | some n => rw [hnm] at hn; simpa [nameRule] using hn
  have c2 : jsTrim (i.category.getD "") ∈ categories := by
    cases hcat : i.category with
    | none => rw [hcat] at hc; simp [categoryRule] at hc
    | some c => rw [hcat] at hc; simpa [categoryRule] using hc
  have c3 : (i.price.getD (.fin 0)).ge (.fin 0) = true := by
    cases hpr : i.price with
    | none => rw [hpr] at hp; simp [priceRule] at hp
    | some n => rw [hpr] at hp; cases n <;> simp_all [priceRule, JSNum.ge]
  have c4 : (i.quantity.getD (.fin 0)).ge (.fin 0) = true := by
    cases hqu : i.quantity with
    | none => simp [JSNum.ge]
    | some n => rw [hqu] at hq; cases n <;> simp_all [quantityRule, JSNum.ge]
  have c5 : validatorLength (jsTrim (i.description.getD "")) ≤ 500 := by
    cases hde : i.description with
    | none => simp [h0, validatorLength]
    | some d => rw [hde] at hd; simpa [descriptionRule] using hd
  have c2' : jsTrim (i.category.getD "") ≠ "" := fun h => hne (h ▸ c2)
  simp only [schemaValid, createdDoc, Bool.and_eq_true, decide_eq_true_eq]
  exact ⟨⟨⟨⟨⟨⟨c1.1, hname16 c1.2⟩, c2'⟩, c2⟩, c3⟩, c4⟩, hdesc16 c5⟩

/-- The handler on a validated typed input that meets the rules. -/
theorem createSweet_accepts (rt : Runtime) (newId : ObjectId) (db : Db) (req : Request)
    (i : CreateInput)
    (hbody : req.body = i.toBody) (hfresh : req.validationErrors = [])
    (hprice : ∀ n, i.price = some n → PlainNumeral rt n)
    (hquantity : ∀ n, i.quantity = some n → PlainNumeral rt n)
    (himage : ∀ p, i.imageUrl ≠ .obj p)
    (hname16 : validatorLength (jsTrim (i.name.getD "")) ≤ 100 →
      jsLength (jsTrim (i.name.getD "")) ≤ 100)
    (hdesc16 : validatorLength (jsTrim (i.description.getD "")) ≤ 500 →
      jsLength (jsTrim (i.description.getD "")) ≤ 500)
    (hrules : meetsCreateRules i = true) :
    createSweet rt newId db (sweetValidation rt req) =
      (.respond { status := 201, message := some "Sweet created successfully",
                  sweet := some (createdDoc rt newId i) },
       db ++ [createdDoc rt newId i]) := by
  have herr := (sweetValidation_errors rt req i hbody hfresh hprice hquantity).2 hrules
  have hb := sweetValidation_body rt req i hbody
  have hdoc := newSweet_createdDoc rt newId i hrules himage
  have hv := schemaValid_createdDoc rt newId i hrules hname16 hdesc16
  simp only [createSweet, herr, hb, hdoc, saveNew, hv, if_true]
  simp

/-- The handler on a validated typed input that breaks a rule. -/
theorem createSweet_rejects (rt : Runtime) (newId : ObjectId) (db : Db) (req : Request)
    (i : CreateInput)
    (hbody : req.body = i.toBody) (hfresh : req.validationErrors = [])
    (hprice : ∀ n, i.price = some n → PlainNumeral rt n)
    (hquantity : ∀ n, i.quantity = some n → PlainNumeral rt n)
    (hrules : meetsCreateRules i = false) :
    ∃ errors, errors ≠ [] ∧ createSweet rt newId db (sweetValidation rt req) =
      (.respond { status := 400, errors := some errors }, db) := by
  have herr : (sweetValidation rt req).validationErrors ≠ [] := by
    intro h
    have := (sweetValidation_errors rt req i hbody hfresh hprice hquantity).1 h
    rw [hrules] at this
    exact Bool.false_ne_true this
  exact ⟨_, herr, by simp [createSweet, herr]⟩

/-- No document is built from an `imageUrl` that is an array or an object without an `_id`. -/
theorem newSweet_imageUrl_obj (rt : Runtime) (newId : ObjectId)
    (name category price quantity description : JSVal) (p : ObjectView)
    (hid : p.documentId = none) :
    newSweet rt newId name category price quantity description (.obj p) = none := by
  have h : optionalString (castString rt (.obj p)) = none := by
    simp [castString, hid, optionalString]
  simp only [newSweet, h, Option.bind_eq_bind]
  cases requiredString (castString rt name) <;>
  cases requiredString (castString rt category) <;>
  cases requiredNumber (castNumber rt price) <;>
  cases requiredNumber (castNumber rt quantity) <;>
  cases optionalString (castString rt description) <;> rfl

/-- No unsigned literal starts with a sign. -/
theorem parseUnsigned_sign (c : Char) (r : List Char) (hc : c = '+' ∨ c = '-') :
    parseUnsigned (c :: r) = none := by
  have hI : "Infinity".toList = ['I', 'n', 'f', 'i', 'n', 'i', 't', 'y'] := by decide
  rcases hc with rfl | rfl <;> simp [parseUnsigned, hI, List.takeWhile, List.dropWhile]

/-- The empty string is no literal. -/
theorem parseUnsigned_nil : parseUnsigned [] = none := by decide

/-- A literal is its own unsigned part. -/
theorem unsignedPart_of_parse {cs : List Char} {n : JSNum} (h : parseUnsigned cs = some n) :
    unsignedPart cs = cs ∧ cs.head? ≠ some '-' ∧ cs ≠ [] := by
  cases cs with
  | nil => rw [parseUnsigned_nil] at h; cases h
  | cons c r =>
    by_cases hc : c = '+' ∨ c = '-'
    · rw [parseUnsigned_sign c r hc] at h; cases h
    · push_neg at hc
      refine ⟨?_, ?_, by simp⟩
      · unfold unsignedPart
        split
        · exact absurd (by simp_all) hc.1
        · exact absurd (by simp_all) hc.2
        · rfl
      · simpa using hc.2

/-- The value of a list of zeroes. -/
theorem digitsValue_zeros (cs : List Char) (h : cs.all (fun c => decide (c = '0')) = true) :
    digitsValue 10 cs = 0 := by
  unfold digitsValue
  induction cs with
  | nil => rfl
  | cons c r ih =>
    simp only [List.all_cons, Bool.and_eq_true, decide_eq_true_eq] at h
    obtain ⟨rfl, hr⟩ := h
    simp only [List.foldl_cons]
    have : (10 * 0 + if '0'.isDigit = true then '0'.toNat - 48
        else if decide (97 ≤ '0'.toNat) = true then '0'.toNat - 87 else '0'.toNat - 55) = 0 := by
      decide
    rw [this]
    exact ih hr

/-- A non-empty list of zeroes is a literal of zero. -/
theorem parseUnsigned_zeros (cs : List Char) (hne : cs ≠ [])
    (h : cs.all (fun c => decide (c = '0')) = true) : parseUnsigned cs = some (.fin 0) := by
  have hI : "Infinity".toList = ['I', 'n', 'f', 'i', 'n', 'i', 't', 'y'] := by decide
  have hd : ∀ c ∈ cs, c.isDigit = true := by
    intro c hc
    have := List.all_eq_true.1 h c hc
    simp only [decide_eq_true_eq] at this
    rw [this]; decide
  have ht : cs.takeWhile Char.isDigit = cs := List.takeWhile_eq_self_iff.2 hd
  have hdr : cs.dropWhile Char.isDigit = [] := List.dropWhile_eq_nil_iff.2 hd
  have hinf : cs ≠ "Infinity".toList := by
    intro e
    rw [e, hI] at h
    exact absurd h (by decide)
  unfold parseUnsigned
  simp only [if_neg hinf, ht, hdr, List.append_nil, digitsValue_zeros cs h]
  simp [hne, parseExponent]

/-- The numeral of a Number, as the language lays it down, is read by the validators as the
number it denotes. -/
theorem plainNumeral_of_laws (rt : Runtime) (n : JSNum) (h : NumeralLaws rt n) :
    PlainNumeral rt n := by
  cases n with
  | nan =>
    show isFloatMin0 "" = priceRule (some .nan) ∧ isIntMin0 "" = quantityRule (some .nan)
    exact ⟨by decide, by decide⟩
  | posInf =>
    have hs : validatorString rt (.num .posInf) = "Infinity" := h
    unfold PlainNumeral
    rw [hs]
    exact ⟨by decide, by decide⟩
  | negInf =>
    have hs : validatorString rt (.num .negInf) = "-Infinity" := h
    unfold PlainNumeral
    rw [hs]
    exact ⟨by decide, by decide⟩
  | fin x =>
    obtain ⟨cs, v, hstr, hparse, hround, hdig⟩ := h
    obtain ⟨hu, hhead, hne⟩ := unsignedPart_of_parse hparse
    have hs : validatorString rt (.num (.fin x))
        = String.mk (if x < 0 then '-' :: cs else cs) := hstr
    unfold PlainNumeral
    rw [hs]
    by_cases hx : x < 0
    · have hxa : |x| ≠ 0 := abs_ne_zero.2 (ne_of_lt hx)
      have hr0 : roundToDouble v ≠ .fin 0 := by
        rw [hround]; intro e; exact hxa (JSNum.fin.inj e)
      have hz : cs.all (fun c => decide (c = '0')) = false := by
        cases hb : cs.all (fun c => decide (c = '0')) with
        | false => rfl
        | true =>
          have := parseUnsigned_zeros cs hne hb
          rw [hparse] at this
          have hv : v = 0 := JSNum.fin.inj (Option.some.inj this)
          rw [hv] at hr0
          exact absurd (by decide) hr0
      have hl : (String.mk ('-' :: cs)).toList = '-' :: cs := rfl
      have hup : unsignedPart ('-' :: cs) = cs := rfl
      rw [if_pos hx]
      constructor
      · simp only [isFloatMin0, hl, hup, hparse]
        simp [priceRule, hr0, not_le.2 hx]
      · simp only [isIntMin0, hl, hup]
        simp [quantityRule, hz, not_le.2 hx]
    · have hx0 : 0 ≤ x := not_lt.1 hx
      have hl : (String.mk cs).toList = cs := rfl
      rw [if_neg hx]
      constructor
      · simp only [isFloatMin0, hl, hu, hparse]
        simp [priceRule, hhead, hx0]
      · simp only [isIntMin0, hl, hu]
        rw [abs_of_nonneg hx0] at hdig
        cases hd : cs.all Char.isDigit with
        | true =>
          have := hdig.1 hd
          simp [quantityRule, hne, hhead, this.1, this.2, hx0]
        | false =>
          have hq : ¬ (x.den = 1 ∧ x < 10 ^ 21) := fun hq => by
            rw [hdig.2 hq] at hd; cases hd
          have : quantityRule (some (.fin x)) = false := by
            simp only [quantityRule, hx0, decide_True, Bool.and_true]
            by_cases h1 : x.den = 1
            · have : ¬ x < 10 ^ 21 := fun h2 => hq ⟨h1, h2⟩
              simp [this]
            · simp [h1]
          rw [this]
          simp

/-- The numeral of 5 in the concrete runtime. -/
theorem numeralLaws_std_5 : NumeralLaws stdRuntime (.fin 5) :=
  ⟨['5'], 5, by decide!, by decide!, by decide!, by decide!⟩

/-- The numeral of 3 in the concrete runtime. -/
theorem numeralLaws_std_3 : NumeralLaws stdRuntime (.fin 3) :=
  ⟨['3'], 3, by decide!, by decide!, by decide!, by decide!⟩

/-- The numeral of 7 in the concrete runtime. -/
theorem numeralLaws_std_7 : NumeralLaws stdRuntime (.fin 7) :=
  ⟨['7'], 7, by decide!, by decide!, by decide!, by decide!⟩

/-- The numeral of 2.5 in the concrete runtime. -/
theorem numeralLaws_std_5_2 : NumeralLaws stdRuntime (.fin (5 / 2)) :=
  ⟨['2', '.', '5'], 5 / 2, by decide!, by decide!, by decide!, by decide!⟩

/-- The numeral of `1e21` in the concrete runtime is in exponent notation. -/
theorem numeralLaws_std_1e21 : NumeralLaws stdRuntime (.fin (10 ^ 21)) :=
  ⟨['1', 'e', '+', '2', '1'], 10 ^ 21, by decide!, by decide!, by decide!, by decide!⟩

/-! ### The validators and the conversions at particular values -/

/-- A numeral that underflows to zero passes `isFloat({ min: 0 })` under a minus sign. -/
theorem isFloatMin0_negative_underflow : isFloatMin0 "-1e-400" = true := by decide!

/-- A negative numeral fails `isFloat({ min: 0 })`. -/
theorem isFloatMin0_negative : isFloatMin0 "-5" = false := by decide!

/-- Leading zeroes pass `isInt({ min: 0 })`. -/
theorem isIntMin0_leading_zeroes : isIntMin0 "007" = true := by decide

/-- A numeral in exponent notation fails `isInt({ min: 0 })`. -/
theorem isIntMin0_exponent : isIntMin0 "1e+21" = false := by decide

/-- The numeral of `1e21` is in exponent notation. -/
theorem stdNumberToString_1e21 : stdNumberToString (.fin (10 ^ 21)) = "1e+21" := by decide!

/-- The numeral of the double nearest to 0.1. -/
theorem stdNumberToString_tenth :
    stdNumberToString (stdStringToNumber "0.1") = "0.1" := by decide!

/-- The validator `isLength` leaves a variation selector out of its count. -/
theorem validatorLength_variation_selector : validatorLength "ab\uFE0F" = 2 := by decide

/-- The sum of `2 ^ 53` and 1 rounds back to `2 ^ 53`. -/
theorem add_rounds_at_two_pow_53 : (JSNum.fin (2 ^ 53)).add (.fin 1) = .fin (2 ^ 53) := by
  decide!

/-- A literal beyond the largest double converts to `Infinity`. -/
theorem stdStringToNumber_overflow : stdStringToNumber "1e400" = .posInf := by decide!

/-- The handler on a validated typed input that meets the rules and carries an `imageUrl`
that is an array or an object without an `_id`. -/
theorem createSweet_imageUrl_obj (rt : Runtime) (newId : ObjectId) (db : Db) (req : Request)
    (i : CreateInput)
    (hbody : req.body = i.toBody) (hfresh : req.validationErrors = [])
    (hprice : ∀ n, i.price = some n → PlainNumeral rt n)
    (hquantity : ∀ n, i.quantity = some n → PlainNumeral rt n)
    (hrules : meetsCreateRules i = true)
    (himage : ∃ p, i.imageUrl = .obj p ∧ p.documentId = none) :
    createSweet rt newId db (sweetValidation rt req) = (.nextError .validationError, db) := by
  obtain ⟨p, hp, hid⟩ := himage
  have herr := (sweetValidation_errors rt req i hbody hfresh hprice hquantity).2 hrules
  have hb := sweetValidation_body rt req i hbody
  have ho : jsOr (.obj p) (.str "") = .obj p := rfl
  simp only [createSweet, herr, hb, hp, ho, newSweet_imageUrl_obj _ _ _ _ _ _ _ _ hid, saveNew]
  simp

/-- A list of characters without the separator is one piece. -/
theorem splitChars_no_sep (sep : Char) (cs : List Char) (h : sep ∉ cs) :
    splitChars sep cs = [cs] := by
  induction cs with
  | nil => rfl
  | cons c rest ih =>
    have hc : c ≠ sep := fun e => h (by simp [e])
    have hr : sep ∉ rest := fun e => h (by simp [e])
    simp [splitChars, hc, ih hr]

/-- The token of a header made of `Bearer `, and a token without a space, is that token. -/
theorem bearerToken_append (token : String) (h : ' ' ∉ token.toList) :
    bearerToken ("Bearer " ++ token) = token := by
  have e : ("Bearer " ++ token).toList
      = 'B' :: 'e' :: 'a' :: 'r' :: 'e' :: 'r' :: ' ' :: token.toList := by
    show ("Bearer " ++ token).data = _
    rw [String.data_append]; rfl
  have hs : splitChars ' ' token.data = [token.data] := splitChars_no_sep ' ' _ h
  simp [bearerToken, jsSplit, e, splitChars, hs]

/-- A header made of `Bearer ` and a token starts with `Bearer `. -/
theorem jsStartsWith_bearer (token : String) :
    jsStartsWith ("Bearer " ++ token) "Bearer " = true := by
  have e : ("Bearer " ++ token).toList = "Bearer ".toList ++ token.toList := by
    show ("Bearer " ++ token).data = _
    rw [String.data_append]; rfl
  simp only [jsStartsWith, e, List.isPrefixOf_iff_prefix]
  exact List.prefix_append _ _

/-- An account attached by `authenticate` is one that the account collection returned for
the `userId` of the verified payload. -/
theorem authenticate_next (jwt : Jwt) (users : UserModel) (env : ProcessEnv)
    (req req' : Request) (h : authenticate jwt users env req = (.next, req')) :
    ∃ header decoded user, req.authorization = some header
      ∧ jwt.verify (bearerToken header) (jwtSecret env) = .ok decoded
      ∧ users.findById (getProp decoded "userId") = .ok (some user)
      ∧ req' = { req with user := some user } := by
  unfold authenticate at h
  cases ha : req.authorization with
  | none => simp [ha] at h
  | some header =>
    simp only [ha] at h
    split at h
    · simp at h
    · cases hv : jwt.verify (bearerToken header) (jwtSecret env) with
      | error e =>
        simp only [hv] at h
        unfold authCatch at h
        split at h
        · simp at h
        · split at h <;> simp at h
      | ok decoded =>
        simp only [hv] at h
        cases hu : users.findById (getProp decoded "userId") with
        | error e =>
          simp only [hu] at h
          unfold authCatch at h
          split at h
          · simp at h
          · split at h <;> simp at h
        | ok found =>
          cases found with
          | none => simp [hu] at h
          | some user =>
            simp only [hu] at h
            refine ⟨header, decoded, user, rfl, hv, hu, ?_⟩
            exact (Prod.mk.inj h).2.symm

/-- The outcome of `authenticate` depends on the verified payload through `userId` only. -/
theorem authenticate_congr (jwt jwt' : Jwt) (users : UserModel) (env : ProcessEnv)
    (req : Request)
    (h : ∀ token secret,
      (jwt.verify token secret).map (fun decoded => getProp decoded "userId")
        = (jwt'.verify token secret).map (fun decoded => getProp decoded "userId")) :
    authenticate jwt users env req = authenticate jwt' users env req := by
  unfold authenticate
  cases req.authorization with
  | none => rfl
  | some header =>
    simp only
    split
    · rfl
    · have := h (bearerToken header) (jwtSecret env)
      cases h1 : jwt.verify (bearerToken header) (jwtSecret env) with
      | error e =>
        cases h2 : jwt'.verify (bearerToken header) (jwtSecret env) with
        | error e' =>
          rw [h1, h2] at this
          simp only [Except.map] at this
          cases this
          rfl
        | ok d' => rw [h1, h2] at this; simp [Except.map] at this
      | ok d =>
        cases h2 : jwt'.verify (bearerToken header) (jwtSecret env) with
        | error e' => rw [h1, h2] at this; simp [Except.map] at this
        | ok d' =>
          rw [h1, h2] at this
          simp only [Except.map] at this
          have hk : getProp d "userId" = getProp d' "userId" := by injection this
          simp only [hk]

/-! ## Lemmas on the store: repeated updates and removal -/

/-- Writing back the quantity that a stored document has leaves the store as it is. -/
theorem updateQuantity_self (db : Db) (oid : ObjectId) (sweet : Sweet)
    (h : db.find? (fun s => s._id == oid) = some sweet) :
    updateQuantity db oid sweet.quantity = db := by
  induction db with
  | nil => simp at h
  | cons a rest ih =>
    cases hb : (a._id == oid) with
    | true =>
      rw [List.find?_cons_of_pos _ (by simpa using hb)] at h
      injection h with h
      subst h
      simp only [updateQuantity, hb, if_true]
    | false =>
      rw [List.find?_cons_of_neg _ (by simp [hb])] at h
      simp only [updateQuantity, hb]
      rw [if_neg (by simp), ih h]

/-- The second of two updates under one id is the one that stays. -/
theorem updateQuantity_twice (db : Db) (oid : ObjectId) (a b : JSNum) :
    updateQuantity (updateQuantity db oid a) oid b = updateQuantity db oid b := by
  induction db with
  | nil => rfl
  | cons x rest ih =>
    cases hb : (x._id == oid) with
    | true => simp [updateQuantity, hb]
    | false => simp [updateQuantity, hb, ih]

/-- A document is the document with its own quantity. -/
theorem sweet_with_quantity {sweet : Sweet} {q : JSNum} (h : sweet.quantity = q) :
    { sweet with quantity := q } = sweet := by
  cases sweet
  simp_all

/-- In a store whose ids are distinct, removing the first document under an id removes every
document under it. -/
theorem eraseP_id_eq_filter (db : Db) (oid : ObjectId) (h : (db.map Sweet._id).Nodup) :
    db.eraseP (fun s => s._id == oid) = db.filter (fun s => s._id != oid) := by
  induction db with
  | nil => rfl
  | cons a rest ih =>
    rw [List.map_cons, List.nodup_cons] at h
    cases hb : (a._id == oid) with
    | true =>
      have ha : a._id = oid := by simpa using hb
      have hrest : rest.filter (fun s => s._id != oid) = rest := by
        rw [List.filter_eq_self]
        intro s hs
        have : s._id ≠ a._id := fun e => h.1 (e ▸ List.mem_map_of_mem Sweet._id hs)
        simpa [ha] using this
      simp [List.eraseP_cons, hb, List.filter_cons, hrest, ha]
    | false =>
      have hne : a._id ≠ oid := by simpa using hb
      simp [List.eraseP_cons, hb, List.filter_cons, ih h.2, hne]

/-- After the removal nothing is found under the id. -/
theorem find_filter_id_ne (db : Db) (oid : ObjectId) :
    (db.filter (fun s => s._id != oid)).find? (fun s => s._id == oid) = none := by
  rw [List.find?_eq_none]
  intro s hs
  have := (List.mem_filter.mp hs).2
  simpa using this

/-- The conversion `Number("10")`. -/
theorem stdStringToNumber_10 : stdStringToNumber "10" = .fin 10 := by
  decide!

/-- The conversion `Number("510")`. -/
theorem stdStringToNumber_510 : stdStringToNumber "510" = .fin 510 := by
  decide!

/-! ## Lemmas on the errors that the validation chains list -/

/-- A validator that one of the strings fails records its error. -/
theorem mem_failures (path msg : String) (ok : String → Bool) (values : List String)
    (h : values.any (fun s => !ok s) = true) :
    (⟨path, msg⟩ : FieldError) ∈ failures path msg ok values := by
  simp only [failures, List.mem_map, List.mem_filter]
  obtain ⟨s, hs, hok⟩ := List.any_eq_true.1 h
  exact ⟨s, ⟨hs, hok⟩, trivial⟩

/-- The errors that `sweetValidation` records, after those that were there. -/
theorem sweetValidation_validationErrors (rt : Runtime) (req : Request) :
    (sweetValidation rt req).validationErrors = req.validationErrors ++
      (failures "name" "Name is required" (fun s => decide (s ≠ ""))
          ((fieldStrings rt req.body.name).map jsTrim)
        ++ failures "name" "Name cannot exceed 100 characters"
            (fun s => decide (validatorLength s ≤ 100))
            ((fieldStrings rt req.body.name).map jsTrim)
        ++ failures "category" "Category is required" (fun s => decide (s ≠ ""))
            ((fieldStrings rt req.body.category).map jsTrim)
        ++ failures "category" "Invalid category" (fun s => decide (s ∈ categories))
            ((fieldStrings rt req.body.category).map jsTrim)
        ++ failures "price" "Price must be a positive number" isFloatMin0
            (fieldStrings rt req.body.price)
        ++ (match optionalField req.body.quantity with
            | none => []
            | some v =>
              failures "quantity" "Quantity must be a non-negative integer" isIntMin0
                (fieldStrings rt v))
        ++ (match (optionalField req.body.description).map
              (fun v => (fieldStrings rt v).map jsTrim) with
            | none => []
            | some d =>
              failures "description" "Description cannot exceed 500 characters"
                (fun s => decide (validatorLength s ≤ 500)) d)) := rfl

/-- There is an error on `name` when the rule on `name` is broken. -/
theorem sweetValidation_lists_name (rt : Runtime) (req : Request)
    (h : nameViolated rt req.body = true) :
    ∃ e ∈ (sweetValidation rt req).validationErrors, e.path = "name" := by
  obtain ⟨s, hs, hv⟩ := List.any_eq_true.1 h
  rw [sweetValidation_validationErrors]
  simp only [Bool.or_eq_true, decide_eq_true_eq] at hv
  by_cases h1 : s = ""
  · refine ⟨⟨"name", "Name is required"⟩, ?_, rfl⟩
    have := mem_failures "name" "Name is required" (fun s => decide (s ≠ ""))
      ((fieldStrings rt req.body.name).map jsTrim)
      (List.any_eq_true.2 ⟨s, hs, by simp [h1]⟩)
    simp only [List.mem_append]
    tauto
  · have h2 : 100 < validatorLength s := hv.resolve_left h1
    refine ⟨⟨"name", "Name cannot exceed 100 characters"⟩, ?_, rfl⟩
    have := mem_failures "name" "Name cannot exceed 100 characters"
      (fun s => decide (validatorLength s ≤ 100))
      ((fieldStrings rt req.body.name).map jsTrim)
      (List.any_eq_true.2 ⟨s, hs, by simp [h2]⟩)
    simp only [List.mem_append]
    tauto

/-- There is an error on `category` when the rule on `category` is broken. -/
theorem sweetValidation_lists_category (rt : Runtime) (req : Request)
    (h : categoryViolated rt req.body = true) :
    ∃ e ∈ (sweetValidation rt req).validationErrors, e.path = "category" := by
  rw [sweetValidation_validationErrors]
  refine ⟨⟨"category", "Invalid category"⟩, ?_, rfl⟩
  have := mem_failures "category" "Invalid category" (fun s => decide (s ∈ categories))
    ((fieldStrings rt req.body.category).map jsTrim)
    (by simpa [categoryViolated] using h)
  simp only [List.mem_append]
  tauto

/-- There is an error on `price` when the rule on `price` is broken. -/
theorem sweetValidation_lists_price (rt : Runtime) (req : Request)
    (h : priceViolated rt req.body = true) :
    ∃ e ∈ (sweetValidation rt req).validationErrors, e.path = "price" := by
  rw [sweetValidation_validationErrors]
  refine ⟨⟨"price", "Price must be a positive number"⟩, ?_, rfl⟩
  have := mem_failures "price" "Price must be a positive number" isFloatMin0
    (fieldStrings rt req.body.price) h
  simp only [List.mem_append]
  tauto

/-- There is an error on `quantity` when the rule on `quantity` is broken. -/
theorem sweetValidation_lists_quantity (rt : Runtime) (req : Request)
    (h : quantityViolated rt req.body = true) :
    ∃ e ∈ (sweetValidation rt req).validationErrors, e.path = "quantity" := by
  rw [sweetValidation_validationErrors]
  refine ⟨⟨"quantity", "Quantity must be a non-negative integer"⟩, ?_, rfl⟩
  unfold quantityViolated at h
  cases hq : optionalField req.body.quantity with
  | none => rw [hq] at h; cases h
  | some v =>
    rw [hq] at h
    have := mem_failures "quantity" "Quantity must be a non-negative integer" isIntMin0
      (fieldStrings rt v) h
    simp only [List.mem_append]
    tauto

/-- There is an error on `description` when the rule on `description` is broken. -/
theorem sweetValidation_lists_description (rt : Runtime) (req : Request)
    (h : descriptionViolated rt req.body = true) :
    ∃ e ∈ (sweetValidation rt req).validationErrors, e.path = "description" := by
  rw [sweetValidation_validationErrors]
  refine ⟨⟨"description", "Description cannot exceed 500 characters"⟩, ?_, rfl⟩
  unfold descriptionViolated at h
  cases hd : optionalField req.body.description with
  | none => rw [hd] at h; cases h
  | some v =>
    rw [hd] at h
    have := mem_failures "description" "Description cannot exceed 500 characters"
      (fun s => decide (validatorLength s ≤ 500)) ((fieldStrings rt v).map jsTrim)
      (by simpa using h)
    simp only [List.mem_append, Option.map_some']
    tauto

/-- The handler answers 400 with the whole list of the errors recorded. -/
theorem createSweet_errors (rt : Runtime) (newId : ObjectId) (db : Db) (req : Request)
    (h : req.validationErrors ≠ []) :
    createSweet rt newId db req =
      (.respond { status := 400, errors := some req.validationErrors }, db) := by
  simp [createSweet, h]

/-- On a typed body the rule on `name` is broken exactly when the rule as the specification
words it is. -/
theorem nameViolated_typed (rt : Runtime) (i : CreateInput) :
    nameViolated rt i.toBody = !nameRule i.name := by
  have h0 : jsTrim "" = "" := by decide
  cases hn : i.name with
  | none => simp [nameViolated, CreateInput.toBody, hn, fieldStrings_optionalStr, nameRule, h0]
  | some n =>
    by_cases h1 : jsTrim n = "" <;> by_cases h2 : validatorLength (jsTrim n) ≤ 100 <;>
      simp [nameViolated, CreateInput.toBody, hn, fieldStrings_optionalStr, nameRule, h1, h2,
        not_le.1, not_lt.2]

/-- On a typed body the rule on `category` is broken exactly when the rule as the
specification words it is. -/
theorem categoryViolated_typed (rt : Runtime) (i : CreateInput) :
    categoryViolated rt i.toBody = !categoryRule i.category := by
  have h0 : jsTrim "" = "" := by decide
  have hne : "" ∉ categories := by decide
  cases hc : i.category with
  | none =>
    simp [categoryViolated, CreateInput.toBody, hc, fieldStrings_optionalStr, categoryRule, h0,
      hne]
  | some c =>
    by_cases h1 : jsTrim c ∈ categories <;>
      simp [categoryViolated, CreateInput.toBody, hc, fieldStrings_optionalStr, categoryRule, h1]

/-- On a typed body the rule on `price` is broken exactly when the rule as the specification
words it is. -/
theorem priceViolated_typed (rt : Runtime) (i : CreateInput)
    (hprice : ∀ n, i.price = some n → PlainNumeral rt n) :
    priceViolated rt i.toBody = !priceRule i.price := by
  cases hp : i.price with
  | none =>
    have : isFloatMin0 "" = false := by decide
    have hf : fieldStrings rt .undefined = [""] := rfl
    simp [priceViolated, CreateInput.toBody, hp, optionalNum, hf, priceRule, this]
  | some n =>
    have := (hprice n hp).1
    have hf : fieldStrings rt (.num n) = [validatorString rt (.num n)] := rfl
    simp [priceViolated, CreateInput.toBody, hp, optionalNum, hf, this]

/-- On a typed body the rule on `quantity` is broken exactly when the rule as the
specification words it is. -/
theorem quantityViolated_typed (rt : Runtime) (i : CreateInput)
    (hquantity : ∀ n, i.quantity = some n → PlainNumeral rt n) :
    quantityViolated rt i.toBody = !quantityRule i.quantity := by
  cases hq : i.quantity with
  | none => simp [quantityViolated, CreateInput.toBody, hq, optionalNum, optionalField,
      quantityRule]
  | some n =>
    have := (hquantity n hq).2
    have hf : fieldStrings rt (.num n) = [validatorString rt (.num n)] := rfl
    simp [quantityViolated, CreateInput.toBody, hq, optionalNum, optionalField, hf, this]

/-- On a typed body the rule on `description` is broken exactly when the rule as the
specification words it is. -/
theorem descriptionViolated_typed (rt : Runtime) (i : CreateInput) :
    descriptionViolated rt i.toBody = !descriptionRule i.description := by
  cases hd : i.description with
  | none => simp [descriptionViolated, CreateInput.toBody, hd, optionalStr, optionalField,
      descriptionRule]
  | some d =>
    have hf : fieldStrings rt (.str d) = [d] := rfl
    by_cases h : validatorLength (jsTrim d) ≤ 500 <;>
      simp [descriptionViolated, CreateInput.toBody, hd, optionalStr, optionalField, hf,
        descriptionRule, h, not_le.1]

/-! ## Lemmas on `updateSweet` -/

/-- After the write the document under the id is the one that was saved. -/
theorem find_replaceDoc (db : Db) (oid : ObjectId) (sweet doc : Sweet)
    (h : db.find? (fun s => s._id == oid) = some sweet) (hid : doc._id = oid) :
    (replaceDoc db doc).find? (fun s => s._id == oid) = some doc := by
  induction db with
  | nil => simp at h
  | cons a rest ih =>
    cases hb : (a._id == oid) with
    | true =>
      have hb' : (a._id == doc._id) = true := by rw [hid]; exact hb
      simp only [replaceDoc, hb', if_true]
      rw [List.find?_cons_of_pos _ (by simp [hid])]
    | false =>
      have hb' : (a._id == doc._id) = false := by rw [hid]; exact hb
      rw [List.find?_cons_of_neg _ (by simp [hb])] at h
      simp only [replaceDoc, hb']
      rw [if_neg (by simp), List.find?_cons_of_neg _ (by simp [hb])]
      exact ih h

/-- Reading back a document after it was saved. -/
theorem findById_replaceDoc {rt : Runtime} {db : Db} {id : String} {sweet : Sweet}
    (h : findById rt db id = .ok (some sweet)) (doc : Sweet) (hid : doc._id = sweet._id) :
    findById rt (replaceDoc db doc) id = .ok (some doc) := by
  obtain ⟨oid, hc, hf⟩ := findById_ok h
  have hoid := find_id_eq hf
  simp only [findById, hc]
  rw [find_replaceDoc db oid sweet doc hf (hid.trans hoid)]

/-- The validation of a typed Update input that meets the rules records no error. -/
theorem updateSweetValidation_errors (rt : Runtime) (req : Request) (i : CreateInput)
    (hbody : req.body = i.toBody) (hfresh : req.validationErrors = [])
    (hprice : ∀ n, i.price = some n → PlainNumeral rt n)
    (hquantity : ∀ n, i.quantity = some n → PlainNumeral rt n)
    (hrules : meetsUpdateRules i = true) :
    (updateSweetValidation rt req).validationErrors = [] := by
  have hn : req.body.name = optionalStr i.name := by rw [hbody]; rfl
  have hc : req.body.category = optionalStr i.category := by rw [hbody]; rfl
  have hp : req.body.price = optionalNum i.price := by rw [hbody]; rfl
  have hq : req.body.quantity = optionalNum i.quantity := by rw [hbody]; rfl
  have hd : req.body.description = optionalStr i.description := by rw [hbody]; rfl
  simp only [meetsUpdateRules, Bool.and_eq_true, Bool.or_eq_true] at hrules
  obtain ⟨⟨⟨⟨r1, r2⟩, r3⟩, r4⟩, r5⟩ := hrules
  have e1 : (match (optionalField (optionalStr i.name)).map
        (fun v => (fieldStrings rt v).map jsTrim) with
      | none => []
      | some n =>
        failures "name" "Name cannot exceed 100 characters"
          (fun s => decide (validatorLength s ≤ 100)) n) = [] := by
    cases hnm : i.name with
    | none => rfl
    | some n =>
      rw [hnm] at r1
      have : jsTrim n ≠ "" ∧ validatorLength (jsTrim n) ≤ 100 := by simpa [nameRule] using r1
      have hf : fieldStrings rt (.str n) = [n] := rfl
      simp [optionalStr, optionalField, hf, failures_singleton, this.2]
  have e2 : (match (optionalField (optionalStr i.category)).map
        (fun v => (fieldStrings rt v).map jsTrim) with
      | none => []
      | some c =>
        failures "category" "Invalid category" (fun s => decide (s ∈ categories)) c)
      = [] := by
    cases hcat : i.category with
    | none => rfl
    | some c =>
      rw [hcat] at r2
      have : jsTrim c ∈ categories := by simpa [categoryRule] using r2
      have hf : fieldStrings rt (.str c) = [c] := rfl
      simp [optionalStr, optionalField, hf, failures_singleton, this]
  have e3 : (match optionalField (optionalNum i.price) with
      | none => []
      | some v =>
        failures "price" "Price must be a positive number" isFloatMin0 (fieldStrings rt v))
      = [] := by
    cases hpr : i.price with
    | none => rfl
    | some n =>
      rw [hpr] at r3
      have h1 := (hprice n hpr).1
      have h2 : priceRule (some n) = true := by simpa using r3
      have hf : fieldStrings rt (.num n) = [validatorString rt (.num n)] := rfl
      simp [optionalNum, optionalField, hf, failures_singleton, h1, h2]
  have e4 := (quantityErrors_nil rt i.quantity hquantity).2 r4
  have e5 := (descriptionErrors_nil rt i.description).2 r5
  unfold updateSweetValidation
  simp only [hn, hc, hp, hq, hd, hfresh, List.nil_append, List.append_eq_nil]
  exact ⟨⟨⟨⟨e1, e2⟩, e3⟩, e4⟩, e5⟩

/-- The body that `updateSweetValidation` leaves for a typed input. -/
theorem updateSweetValidation_body (rt : Runtime) (req : Request) (i : CreateInput)
    (hbody : req.body = i.toBody) :
    (updateSweetValidation rt req).body =
      { name := optionalStr (i.name.map jsTrim)
        category := optionalStr (i.category.map jsTrim)
        price := optionalNum i.price
        quantity := optionalNum i.quantity
        description := optionalStr (i.description.map jsTrim)
        imageUrl := i.imageUrl } := by
  have hn : req.body.name = optionalStr i.name := by rw [hbody]; rfl
  have hc : req.body.category = optionalStr i.category := by rw [hbody]; rfl
  have hp : req.body.price = optionalNum i.price := by rw [hbody]; rfl
  have hq : req.body.quantity = optionalNum i.quantity := by rw [hbody]; rfl
  have hd : req.body.description = optionalStr i.description := by rw [hbody]; rfl
  have hi : req.body.imageUrl = i.imageUrl := by rw [hbody]; rfl
  unfold updateSweetValidation
  simp only [hn, hc, hp, hq, hd, hi]
  cases i.name <;> cases i.category <;> cases i.description <;> rfl

/-- The assignment of a trimmed name, or of none. -/
theorem assignField_name (rt : Runtime) (o : Option String) (s : Sweet) :
    assignField (optionalStr (o.map jsTrim)) (fun s =>
        (requiredString (castString rt (optionalStr (o.map jsTrim)))).map
          (fun x => { s with name := x })) (some s)
      = some { s with name := match o with
                | none => s.name
                | some n => jsTrim n } := by
  cases o with
  | none => rfl
  | some n => simp [optionalStr, assignField, castString, requiredString, jsTrim_idem]

/-- The assignment of a trimmed category, or of none. -/
theorem assignField_category (rt : Runtime) (o : Option String) (s : Sweet) :
    assignField (optionalStr (o.map jsTrim)) (fun s =>
        (requiredString (castString rt (optionalStr (o.map jsTrim)))).map
          (fun x => { s with category := x })) (some s)
      = some { s with category := match o with
                | none => s.category
                | some c => jsTrim c } := by
  cases o with
  | none => rfl
  | some c => simp [optionalStr, assignField, castString, requiredString, jsTrim_idem]

/-- The assignment of a trimmed description, or of none. -/
theorem assignField_description (rt : Runtime) (o : Option String) (s : Sweet) :
    assignField (optionalStr (o.map jsTrim)) (fun s =>
        (optionalString (castString rt (optionalStr (o.map jsTrim)))).map
          (fun x => { s with description := x })) (some s)
      = some { s with description := match o with
                | none => s.description
                | some d => some (jsTrim d) } := by
  cases o with
  | none => rfl
  | some d => simp [optionalStr, assignField, castString, optionalString, jsTrim_idem]

/-- The assignment of a price that meets the rule, or of none. -/
theorem assignField_price (rt : Runtime) (o : Option JSNum) (s : Sweet)
    (h : (o.isNone || priceRule o) = true) :
    assignField (optionalNum o) (fun s =>
        (requiredNumber (castNumber rt (optionalNum o))).map
          (fun x => { s with price := x })) (some s)
      = some { s with price := o.getD s.price } := by
  cases o with
  | none => rfl
  | some n =>
    cases n <;> simp_all [priceRule, optionalNum, assignField, castNumber, requiredNumber]

/-- The assignment of a quantity that meets the rule, or of none. -/
theorem assignField_quantity (rt : Runtime) (o : Option JSNum) (s : Sweet)
    (h : quantityRule o = true) :
    assignField (optionalNum o) (fun s =>
        (requiredNumber (castNumber rt (optionalNum o))).map
          (fun x => { s with quantity := x })) (some s)
      = some { s with quantity := o.getD s.quantity } := by
  cases o with
  | none => rfl
  | some n =>
    cases n <;> simp_all [quantityRule, optionalNum, assignField, castNumber, requiredNumber]

/-- The assignment of an `imageUrl` that is not an array or object. -/
theorem assignField_imageUrl (rt : Runtime) (v : JSVal) (s : Sweet)
    (h : ∀ p, v ≠ .obj p) :
    assignField v (fun s =>
        (optionalString (castString rt v)).map (fun x => { s with imageUrl := x })) (some s)
      = some { s with imageUrl := updatedImageUrl rt v s.imageUrl } := by
  cases v with
  | obj p => exact absurd rfl (h p)
  | undefined => rfl
  | null => rfl
  | str x => rfl
  | num n => rfl
  | bool b => cases b <;> rfl

/-- The assignments of `updateSweet` on the sanitized body of a typed input that meets the
rules. -/
theorem updateFields_updatedDoc (rt : Runtime) (i : CreateInput) (sweet : Sweet)
    (hrules : meetsUpdateRules i = true) (himage : ∀ p, i.imageUrl ≠ .obj p) :
    updateFields rt
        { name := optionalStr (i.name.map jsTrim)
          category := optionalStr (i.category.map jsTrim)
          price := optionalNum i.price
          quantity := optionalNum i.quantity
          description := optionalStr (i.description.map jsTrim)
          imageUrl := i.imageUrl } sweet
      = some (updatedDoc rt i sweet) := by
  simp only [meetsUpdateRules, Bool.and_eq_true] at hrules
  obtain ⟨⟨⟨⟨_, _⟩, r3⟩, r4⟩, _⟩ := hrules
  simp only [updateFields, assignField_name, assignField_category,
    assignField_price rt i.price _ r3, assignField_quantity rt i.quantity _ r4,
    assignField_description, assignField_imageUrl rt i.imageUrl _ himage]
  rfl

/-- The product after an Update that meets the rules passes the schema, when the stored one
did and the new name and description fit their limits in UTF-16 code units as well. -/
theorem schemaValid_updatedDoc (rt : Runtime) (i : CreateInput) (sweet : Sweet)
    (hv : schemaValid sweet = true) (hrules : meetsUpdateRules i = true)
    (hname16 : ∀ n, i.name = some n →
      validatorLength (jsTrim n) ≤ 100 → jsLength (jsTrim n) ≤ 100)
    (hdesc16 : ∀ d, i.description = some d →
      validatorLength (jsTrim d) ≤ 500 → jsLength (jsTrim d) ≤ 500) :
    schemaValid (updatedDoc rt i sweet) = true := by
  simp only [meetsUpdateRules, Bool.and_eq_true, Bool.or_eq_true] at hrules
  obtain ⟨⟨⟨⟨r1, r2⟩, r3⟩, r4⟩, r5⟩ := hrules
  simp only [schemaValid, Bool.and_eq_true, decide_eq_true_eq] at hv
  obtain ⟨⟨⟨⟨⟨⟨v1, v2⟩, v3⟩, v4⟩, v5⟩, v6⟩, v7⟩ := hv
  have hne : "" ∉ categories := by decide
  have c1 : (match i.name with
      | none => sweet.name
      | some n => jsTrim n) ≠ ""
      ∧ jsLength (match i.name with
        | none => sweet.name
        | some n => jsTrim n) ≤ 100 := by
    cases hnm : i.name with
    | none => exact ⟨v1, v2⟩
    | some n =>
      rw [hnm] at r1
      have : jsTrim n ≠ "" ∧ validatorLength (jsTrim n) ≤ 100 := by
        simpa [nameRule] using r1
      exact ⟨this.1, hname16 n hnm this.2⟩
  have c2 : (match i.category with
      | none => sweet.category
      | some c => jsTrim c) ∈ categories := by
    cases hcat : i.category with
    | none => exact v4
    | some c =>
      rw [hcat] at r2
      simpa [categoryRule] using r2
  have c3 : (i.price.getD sweet.price).ge (.fin 0) = true := by
    cases hpr : i.price with
    | none => exact v5
    | some n => rw [hpr] at r3; cases n <;> simp_all [priceRule, JSNum.ge]
  have c4 : (i.quantity.getD sweet.quantity).ge (.fin 0) = true := by
    cases hqu : i.quantity with
    | none => exact v6
    | some n => rw [hqu] at r4; cases n <;> simp_all [quantityRule, JSNum.ge]
  have c5 : (match (match i.description with
      | none => sweet.description
      | some d => some (jsTrim d)) with
      | none => true
      | some d => decide (jsLength d ≤ 500)) = true := by
    cases hde : i.description with
    | none => exact v7
    | some d =>
      rw [hde] at r5
      have : validatorLength (jsTrim d) ≤ 500 := by simpa [descriptionRule] using r5
      simpa using hdesc16 d hde this
  simp only [schemaValid, updatedDoc, Bool.and_eq_true, decide_eq_true_eq]
  exact ⟨⟨⟨⟨⟨⟨c1.1, c1.2⟩, fun h => hne (h ▸ c2)⟩, c2⟩, c3⟩, c4⟩, c5⟩

/-- The handler on a validated typed Update input that meets the rules. -/
theorem updateSweet_accepts (rt : Runtime) (db : Db) (req : Request) (i : CreateInput)
    (sweet : Sweet)
    (hbody : req.body = i.toBody) (hfresh : req.validationErrors = [])
    (hprice : ∀ n, i.price = some n → PlainNumeral rt n)
    (hquantity : ∀ n, i.quantity = some n → PlainNumeral rt n)
    (hfound : findById rt db req.params.id = .ok (some sweet))
    (hv : schemaValid sweet = true) (hrules : meetsUpdateRules i = true)
    (himage : ∀ p, i.imageUrl ≠ .obj p)
    (hname16 : ∀ n, i.name = some n →
      validatorLength (jsTrim n) ≤ 100 → jsLength (jsTrim n) ≤ 100)
    (hdesc16 : ∀ d, i.description = some d →
      validatorLength (jsTrim d) ≤ 500 → jsLength (jsTrim d) ≤ 500) :
    updateSweet rt db (updateSweetValidation rt req) =
      (.respond { status := 200, message := some "Sweet updated successfully",
                  sweet := some (updatedDoc rt i sweet) },
       replaceDoc db (updatedDoc rt i sweet)) := by
  have herr := updateSweetValidation_errors rt req i hbody hfresh hprice hquantity hrules
  have hb := updateSweetValidation_body rt req i hbody
  have hpar : (updateSweetValidation rt req).params = req.params := rfl
  have hdoc := updateFields_updatedDoc rt i sweet hrules himage
  have hval := schemaValid_updatedDoc rt i sweet hv hrules hname16 hdesc16
  simp only [updateSweet, herr, hb, hpar, hfound, hdoc, saveDoc, hval, if_true]
  simp

/-- A value whose sanitized form is a string is not an array: its chain works on the one
string of the value, and the sanitized form is the first of the sanitized strings. -/
theorem fieldStrings_of_sanitized_str (rt : Runtime) {v : JSVal} {values : List String}
    {u : String} (h : sanitizedValue v values = .str u) :
    fieldStrings rt v = [validatorString rt v] ∧ values.headD "" = u := by
  cases v with
  | obj p =>
    cases hp : p.elements with
    | none =>
      simp only [sanitizedValue, hp, JSVal.str.injEq] at h
      exact ⟨by simp [fieldStrings, hp], h⟩
    | some items => simp [sanitizedValue, hp] at h
  | undefined => exact ⟨rfl, JSVal.str.inj h⟩
  | null => exact ⟨rfl, JSVal.str.inj h⟩
  | str x => exact ⟨rfl, JSVal.str.inj h⟩
  | num n => exact ⟨rfl, JSVal.str.inj h⟩
  | bool b => exact ⟨rfl, JSVal.str.inj h⟩

/-! ## The stock invariant -/

/-- Claim C1: for every product whose stored quantity is a non-negative integer `s` and every
finite sequence of Purchase and Restock requests handled one after another, whatever the ids
and `quantity` fields of the requests, after each request of the sequence (after the first `k`
requests, for every `k`) the product is still stored and its quantity is `>= 0`. -/
theorem quantity_never_negative (rt : Runtime) (db : Db) (oid : ObjectId) (s : ℕ)
    (h : storedQuantity db oid = some (.fin s)) (reqs : List StockRequest) (k : ℕ) :
    ∃ q, storedQuantity (applyRequests rt db (reqs.take k)) oid = some q
      ∧ q.ge (.fin 0) = true :=
  stockNonneg_applyRequests rt oid (reqs.take k) db ⟨_, h, by simp [JSNum.ge]⟩

/-- The invariant of C1 on a stock of 10 after a purchase of 6, a purchase of 6, a restock with
a string and a restock of -3. -/
theorem quantity_never_negative_witness :
    ∃ q, storedQuantity
          (applyRequests stdRuntime [gummyBears 10]
            ([StockRequest.purchase (stockRequest (.num (.fin 6))),
              StockRequest.purchase (stockRequest (.num (.fin 6))),
              StockRequest.restock (stockRequest (.str "abc")),
              StockRequest.restock (stockRequest (.num (.fin (-3))))].take 3)) 1 = some q
      ∧ q.ge (.fin 0) = true :=
  quantity_never_negative stdRuntime [gummyBears 10] 1 10
    (by simp [storedQuantity, gummyBears]) _ 3

/-! ## Purchase -/

/-- Claim C2: for every existing product and every requested quantity `n >= 1` that exceeds
the stock, `purchaseSweet` responds with status 400, error `Insufficient stock` and
`available` equal to the stock, and leaves the store as it was, so that the product read back
is the product as stored before. -/
theorem purchase_insufficient_stock (rt : Runtime) (db : Db) (req : Request) (sweet : Sweet)
    (n : JSNum)
    (hq : req.body.quantity = .num n)
    (hn : n.ge (.fin 1) = true)
    (hfound : findById rt db req.params.id = .ok (some sweet))
    (hs : sweet.quantity.lt n = true) :
    purchaseSweet rt db req =
      (.respond { status := 400, error := some "Insufficient stock",
                  available := some sweet.quantity }, db)
    ∧ findById rt (purchaseSweet rt db req).2 req.params.id = .ok (some sweet) := by
  have e : purchaseSweet rt db req =
      (.respond { status := 400, error := some "Insufficient stock",
                  available := some sweet.quantity }, db) := by
    simp only [purchaseSweet, purchaseRead_short rt db req sweet n hq hn hfound hs]
  exact ⟨e, by rw [e]; exact hfound⟩

/-- The test `should return 400 for insufficient stock`: 100 requested of a stock of 10. -/
theorem purchase_insufficient_stock_witness :
    purchaseSweet stdRuntime [gummyBears 10] (stockRequest (.num (.fin 100))) =
      (.respond { status := 400, error := some "Insufficient stock",
                  available := some (.fin 10) }, [gummyBears 10])
    ∧ findById stdRuntime
        (purchaseSweet stdRuntime [gummyBears 10] (stockRequest (.num (.fin 100)))).2
        (stockRequest (.num (.fin 100))).params.id = .ok (some (gummyBears 10)) :=
  purchase_insufficient_stock stdRuntime [gummyBears 10] (stockRequest (.num (.fin 100)))
    (gummyBears 10) (.fin 100) rfl (by decide) rfl (by decide)

/-- Claim C3, as the code behaves: for every existing product with stock `s` of at most
`2 ^ 53` and every integer `n` with `1 <= n <= s` (including `n = s`), `purchaseSweet`
responds with status 200 and `purchased` equal to `n`, and the product read back afterwards
is the product as stored before with its quantity replaced by `s - n`: name, category, price,
description and imageUrl are unchanged. -/
theorem purchase_success (rt : Runtime) (db : Db) (req : Request) (sweet : Sweet) (s n : ℤ)
    (hq : req.body.quantity = .num (.fin n))
    (hn : 1 ≤ n) (hns : n ≤ s) (hsafe : s ≤ 2 ^ 53)
    (hfound : findById rt db req.params.id = .ok (some sweet))
    (hs : sweet.quantity = .fin s)
    (hv : schemaValid sweet = true) :
    (purchaseSweet rt db req).1 =
      .respond { status := 200, message := some "Purchase successful",
                 sweet := some { sweet with quantity := .fin ((s - n : ℤ) : ℚ) },
                 purchased := some (.num (.fin n)) }
    ∧ findById rt (purchaseSweet rt db req).2 req.params.id
        = .ok (some { sweet with quantity := .fin ((s - n : ℤ) : ℚ) }) := by
  have e := purchase_accepts rt db req sweet s n hq (by exact_mod_cast hn)
    (by exact_mod_cast hns) hfound hs hv
  have hd : |s - n| ≤ 2 ^ 53 := by
    rw [abs_of_nonneg (by omega)]
    omega
  rw [e, sub_intCast s n hd]
  exact ⟨rfl, findById_updateQuantity hfound _⟩

/-- The test `should allow authenticated user to purchase`: 2 bought of a stock of 10. -/
theorem purchase_success_witness :
    (purchaseSweet stdRuntime [gummyBears 10] (stockRequest (.num (.fin 2)))).1 =
      .respond { status := 200, message := some "Purchase successful",
                 sweet := some (gummyBears 8), purchased := some (.num (.fin 2)) }
    ∧ findById stdRuntime
        (purchaseSweet stdRuntime [gummyBears 10] (stockRequest (.num (.fin 2)))).2
        (stockRequest (.num (.fin 2))).params.id = .ok (some (gummyBears 8)) := by
  have h := purchase_success stdRuntime [gummyBears 10] (stockRequest (.num (.fin 2)))
    (gummyBears 10) 10 2 (by simp [stockRequest]) (by decide) (by decide) (by decide) rfl
    (by simp [gummyBears]) (by decide)
  have e : ({ gummyBears 10 with quantity := .fin ((10 - 2 : ℤ) : ℚ) } : Sweet)
      = gummyBears 8 := by
    simp only [gummyBears]; norm_num
  rw [e] at h
  simpa using h

/-- Claim C3 fails as stated: against a product with the stock 9007199254740994, which is
above `2 ^ 53`, a purchase of 1 is answered 200 and the stored quantity becomes
9007199254740992, the double that the difference rounds to, and not
`s - n` = 9007199254740993. -/
theorem purchase_large_stock_rounds :
    (purchaseSweet stdRuntime [gummyBears 9007199254740994]
        (stockRequest (.num (.fin 1)))).1 =
      .respond { status := 200, message := some "Purchase successful",
                 sweet := some (gummyBears 9007199254740992),
                 purchased := some (.num (.fin 1)) }
    ∧ storedQuantity
        (purchaseSweet stdRuntime [gummyBears 9007199254740994]
          (stockRequest (.num (.fin 1)))).2 1
      = some (.fin 9007199254740992)
    ∧ (9007199254740994 : ℚ) - 1 ≠ 9007199254740992 := by
  have h := purchase_accepts stdRuntime [gummyBears 9007199254740994]
    (stockRequest (.num (.fin 1))) (gummyBears 9007199254740994) 9007199254740994 1 rfl
    (by norm_num) (by norm_num) rfl rfl (by decide)
  have e : (JSNum.fin 9007199254740994).sub (.fin 1) = .fin 9007199254740992 := by decide!
  rw [e] at h
  rw [h]
  refine ⟨rfl, ?_, by norm_num⟩
  simp [storedQuantity, updateQuantity, gummyBears]

/-- Claim C4: for every Purchase request whose quantity is a number less than 1 (0 or
negative), `purchaseSweet` responds with status 400 and error `Quantity must be at least 1`
and the store is unchanged, for every store and every id, resolving or not. -/
theorem purchase_quantity_below_one (rt : Runtime) (db : Db) (req : Request) (n : JSNum)
    (hq : req.body.quantity = .num n)
    (hn : n.lt (.fin 1) = true) :
    purchaseSweet rt db req =
      (.respond { status := 400, error := some "Quantity must be at least 1" }, db) := by
  simp [purchaseSweet, purchaseRead, hq, valLtNum, toNumber, hn]

/-- A purchase of 0 of an existing product and a purchase of -2 under a malformed id. -/
theorem purchase_quantity_below_one_witness :
    purchaseSweet stdRuntime [gummyBears 10] (stockRequest (.num (.fin 0))) =
      (.respond { status := 400, error := some "Quantity must be at least 1" },
        [gummyBears 10])
    ∧ purchaseSweet stdRuntime [gummyBears 10]
        { params := { id := "no-such-id" }, body := { quantity := .num (.fin (-2)) } } =
      (.respond { status := 400, error := some "Quantity must be at least 1" },
        [gummyBears 10]) :=
  ⟨purchase_quantity_below_one stdRuntime [gummyBears 10] (stockRequest (.num (.fin 0)))
      (.fin 0) rfl (by decide),
   purchase_quantity_below_one stdRuntime [gummyBears 10]
      { params := { id := "no-such-id" }, body := { quantity := .num (.fin (-2)) } }
      (.fin (-2)) rfl (by decide)⟩

/-- Claim C5, as the code behaves: for every existing product with stock `s >= 1`, a Purchase
request whose body has no `quantity` field has the same response and leaves the same store as
the request with `quantity` 1; when `s` is at most `2 ^ 53` it responds 200 with `purchased`
1, and the product read back has quantity `s - 1`. -/
theorem purchase_default_quantity (rt : Runtime) (db : Db) (req : Request) (sweet : Sweet)
    (s : ℤ)
    (hq : req.body.quantity = .undefined)
    (hfound : findById rt db req.params.id = .ok (some sweet))
    (hs : sweet.quantity = .fin s) (hs1 : 1 ≤ s)
    (hv : schemaValid sweet = true) :
    purchaseSweet rt db req
        = purchaseSweet rt db { req with body := { req.body with quantity := .num (.fin 1) } }
    ∧ (s ≤ 2 ^ 53 →
      (purchaseSweet rt db req).1 =
        .respond { status := 200, message := some "Purchase successful",
                   sweet := some { sweet with quantity := .fin ((s - 1 : ℤ) : ℚ) },
                   purchased := some (.num (.fin 1)) }
      ∧ findById rt (purchaseSweet rt db req).2 req.params.id
          = .ok (some { sweet with quantity := .fin ((s - 1 : ℤ) : ℚ) })) := by
  have e : purchaseSweet rt db req
      = purchaseSweet rt db { req with body := { req.body with quantity := .num (.fin 1) } } := by
    simp [purchaseSweet, purchaseRead, hq]
  refine ⟨e, fun hsafe => ?_⟩
  have hd : |s - 1| ≤ 2 ^ 53 := by
    rw [abs_of_nonneg (by omega)]
    omega
  have h1 := sub_intCast s 1 hd
  rw [Int.cast_one] at h1
  rw [e, purchase_accepts rt db { req with body := { req.body with quantity := .num (.fin 1) } }
    sweet s 1 rfl (le_refl 1) (by exact_mod_cast hs1) hfound hs hv, h1]
  exact ⟨rfl, findById_updateQuantity hfound _⟩

/-- The test `should default to quantity of 1`: an empty body against a stock of 10. -/
theorem purchase_default_quantity_witness :
    (purchaseSweet stdRuntime [gummyBears 10] (stockRequest .undefined)).1 =
      .respond { status := 200, message := some "Purchase successful",
                 sweet := some (gummyBears 9), purchased := some (.num (.fin 1)) } := by
  have h := ((purchase_default_quantity stdRuntime [gummyBears 10] (stockRequest .undefined)
    (gummyBears 10) 10 rfl rfl (by simp [gummyBears]) (by decide) (by decide)).2
    (by decide)).1
  have e : ({ gummyBears 10 with quantity := .fin ((10 - 1 : ℤ) : ℚ) } : Sweet)
      = gummyBears 9 := by
    simp only [gummyBears]; norm_num
  rw [e] at h
  exact h

/-- Claim C5 fails as stated: against a product with the stock 9007199254740994, a purchase
without a `quantity` field is answered 200 with `purchased` 1 and the stored quantity
becomes 9007199254740992, not `s - 1` = 9007199254740993. -/
theorem purchase_default_large_stock_rounds :
    (purchaseSweet stdRuntime [gummyBears 9007199254740994] (stockRequest .undefined)).1 =
      .respond { status := 200, message := some "Purchase successful",
                 sweet := some (gummyBears 9007199254740992),
                 purchased := some (.num (.fin 1)) }
    ∧ storedQuantity
        (purchaseSweet stdRuntime [gummyBears 9007199254740994] (stockRequest .undefined)).2 1
      = some (.fin 9007199254740992)
    ∧ (9007199254740994 : ℚ) - 1 ≠ 9007199254740992 := by
  have e0 : purchaseSweet stdRuntime [gummyBears 9007199254740994] (stockRequest .undefined)
      = purchaseSweet stdRuntime [gummyBears 9007199254740994]
          (stockRequest (.num (.fin 1))) := by
    simp [purchaseSweet, purchaseRead, stockRequest]
  have h := purchase_accepts stdRuntime [gummyBears 9007199254740994]
    (stockRequest (.num (.fin 1))) (gummyBears 9007199254740994) 9007199254740994 1 rfl
    (by norm_num) (by norm_num) rfl rfl (by decide)
  have e : (JSNum.fin 9007199254740994).sub (.fin 1) = .fin 9007199254740992 := by decide!
  rw [e] at h
  rw [e0, h]
  refine ⟨rfl, ?_, by norm_num⟩
  simp [storedQuantity, updateQuantity, gummyBears]

/-! ## Two purchases in flight -/

/-- Claim C6, as the code behaves: two purchases of 6 each are in flight against one product
with stock 10 and valid fields.  Under every interleaving of their read and write steps the
product read back at the end has quantity 4 and its other fields unchanged.  When the first
request reads and saves before the second reads, the first responds 200 and the second
responds 400 `Insufficient stock` with `available` 4, and symmetrically when the second goes
first.  In the four other interleavings, where both reads come before both saves, both
requests respond 200. -/
theorem concurrent_purchases_outcomes (rt : Runtime) (db : Db) (reqA reqB : Request)
    (sweet : Sweet)
    (hA : reqA.body.quantity = .num (.fin 6)) (hB : reqB.body.quantity = .num (.fin 6))
    (hfA : findById rt db reqA.params.id = .ok (some sweet))
    (hfB : findById rt db reqB.params.id = .ok (some sweet))
    (hs : sweet.quantity = .fin 10) (hv : schemaValid sweet = true)
    (schedule : List Bool) (hmem : schedule ∈ interleavings) :
    findById rt (Race.run rt ⟨db, .waiting reqA, .waiting reqB⟩ schedule).db reqA.params.id
        = .ok (some { sweet with quantity := .fin 4 })
    ∧ (schedule = [true, true, false, false] →
        (Race.run rt ⟨db, .waiting reqA, .waiting reqB⟩ schedule).first.status = some 200
        ∧ (Race.run rt ⟨db, .waiting reqA, .waiting reqB⟩ schedule).second.response
          = some { status := 400, error := some "Insufficient stock",
                   available := some (.fin 4) })
    ∧ (schedule = [false, false, true, true] →
        (Race.run rt ⟨db, .waiting reqA, .waiting reqB⟩ schedule).second.status = some 200
        ∧ (Race.run rt ⟨db, .waiting reqA, .waiting reqB⟩ schedule).first.response
          = some { status := 400, error := some "Insufficient stock",
                   available := some (.fin 4) })
    ∧ (schedule ≠ [true, true, false, false] → schedule ≠ [false, false, true, true] →
        (Race.run rt ⟨db, .waiting reqA, .waiting reqB⟩ schedule).first.status = some 200
        ∧ (Race.run rt ⟨db, .waiting reqA, .waiting reqB⟩ schedule).second.status = some 200) :=
  race_outcomes rt db reqA reqB sweet hA hB hfA hfB hs hv schedule hmem

/-- The serial interleaving in which the first request finishes before the second starts:
the first responds 200, the second 400 with `available` 4, and 4 is stored. -/
theorem concurrent_purchases_outcomes_witness :
    findById stdRuntime
        (Race.run stdRuntime
          ⟨[gummyBears 10], .waiting (stockRequest (.num (.fin 6))),
            .waiting (stockRequest (.num (.fin 6)))⟩ [true, true, false, false]).db
        sampleId = .ok (some (gummyBears 4))
    ∧ (Race.run stdRuntime
          ⟨[gummyBears 10], .waiting (stockRequest (.num (.fin 6))),
            .waiting (stockRequest (.num (.fin 6)))⟩ [true, true, false, false]).first.status
        = some 200
    ∧ (Race.run stdRuntime
          ⟨[gummyBears 10], .waiting (stockRequest (.num (.fin 6))),
            .waiting (stockRequest (.num (.fin 6)))⟩ [true, true, false, false]).second.response
        = some { status := 400, error := some "Insufficient stock",
                 available := some (.fin 4) } :=
  have h := concurrent_purchases_outcomes stdRuntime [gummyBears 10]
    (stockRequest (.num (.fin 6))) (stockRequest (.num (.fin 6))) (gummyBears 10)
    rfl rfl rfl rfl rfl (by decide) [true, true, false, false] (by decide)
  ⟨h.1, h.2.1 rfl⟩

/-- Claim C6 fails as stated: when the two requests of 6 against a stock of 10 are
interleaved read, read, save, save, both read a stock of 10, both pass the stock check and
both respond 200; neither fails with `Insufficient stock`, and 4 is stored. -/
theorem concurrent_purchases_both_succeed :
    interleavings.contains [true, false, true, false] = true
    ∧ (Race.run stdRuntime
          ⟨[gummyBears 10], .waiting (stockRequest (.num (.fin 6))),
            .waiting (stockRequest (.num (.fin 6)))⟩ [true, false, true, false]).first.status
        = some 200
    ∧ (Race.run stdRuntime
          ⟨[gummyBears 10], .waiting (stockRequest (.num (.fin 6))),
            .waiting (stockRequest (.num (.fin 6)))⟩ [true, false, true, false]).second.status
        = some 200
    ∧ storedQuantity (Race.run stdRuntime
          ⟨[gummyBears 10], .waiting (stockRequest (.num (.fin 6))),
            .waiting (stockRequest (.num (.fin 6)))⟩ [true, false, true, false]).db 1
        = some (.fin 4) := by
  have h := race_outcomes stdRuntime [gummyBears 10]
    (stockRequest (.num (.fin 6))) (stockRequest (.num (.fin 6))) (gummyBears 10)
    rfl rfl rfl rfl rfl (by decide) [true, false, true, false] (by decide)
  have hf := h.1
  have hb := h.2.2.2 (by decide) (by decide)
  refine ⟨by decide, hb.1, hb.2, ?_⟩
  obtain ⟨oid, hc, hfind⟩ := findById_ok hf
  have ho : oid = 1 := by
    have : stdRuntime.castObjectId sampleId = some 1 := by decide
    have hc' : stdRuntime.castObjectId sampleId = some oid := hc
    rw [this] at hc'
    exact (Option.some.inj hc').symm
  subst ho
  simp only [storedQuantity, hfind]
  rfl

/-! ## Restock -/

/-- Claim C7, as the code behaves: for every existing product with valid fields and stock `s`,
and every Restock request whose quantity is a number `n` that passes the guard of the handler
(`!n` is false and `n < 1` is false), `restockSweet` responds with status 200 and `added`
equal to `n`, and the product read back afterwards is the product as stored before with the
quantity `s + n` as the runtime computes it: the double nearest to the sum, which is exactly
`s + n` when `s` and `n` are integers with `s + n` at most `2 ^ 53`.  No upper bound is
checked. -/
theorem restock_success (rt : Runtime) (db : Db) (req : Request) (sweet : Sweet) (n : JSNum)
    (hq : req.body.quantity = .num n)
    (hpresent : n.isFalsy = false) (hguard : n.lt (.fin 1) = false)
    (hfound : findById rt db req.params.id = .ok (some sweet))
    (hv : schemaValid sweet = true) :
    (restockSweet rt db req).1 =
      .respond { status := 200, message := some "Restock successful",
                 sweet := some { sweet with quantity := sweet.quantity.add n },
                 added := some (.num n) }
    ∧ findById rt (restockSweet rt db req).2 req.params.id
        = .ok (some { sweet with quantity := sweet.quantity.add n })
    ∧ ∀ s m : ℤ, sweet.quantity = .fin s → n = .fin m → s + m ≤ 2 ^ 53 →
        sweet.quantity.add n = .fin ((s + m : ℤ) : ℚ) := by
  rw [restock_accepts rt db req sweet n hq hpresent hguard hfound hv]
  refine ⟨rfl, findById_updateQuantity hfound _, ?_⟩
  intro s m hs hm hsafe
  have hs0 : (0 : ℚ) ≤ s := by
    have := schemaValid_quantity hv
    rw [hs] at this
    simpa [JSNum.ge] using this
  have hm1 : (1 : ℚ) ≤ m := by
    rw [hm] at hguard
    simpa [JSNum.lt] using hguard
  have hs0' : 0 ≤ s := by exact_mod_cast hs0
  have hm1' : 1 ≤ m := by exact_mod_cast hm1
  rw [hs, hm]
  apply add_intCast
  rw [abs_of_nonneg (by omega)]
  exact hsafe

/-- The test `should allow admin to restock`: a restock of 10 on a product at quantity 5 yields
quantity 15 and `added` 10. -/
theorem restock_success_witness :
    (restockSweet stdRuntime [gummyBears 5] (stockRequest (.num (.fin 10)))).1 =
      .respond { status := 200, message := some "Restock successful",
                 sweet := some (gummyBears 15), added := some (.num (.fin 10)) }
    ∧ findById stdRuntime
        (restockSweet stdRuntime [gummyBears 5] (stockRequest (.num (.fin 10)))).2
        sampleId = .ok (some (gummyBears 15)) := by
  have h := restock_success stdRuntime [gummyBears 5] (stockRequest (.num (.fin 10)))
    (gummyBears 5) (.fin 10) rfl (by decide) (by decide) rfl (by decide)
  have e : ({ gummyBears 5 with quantity := (gummyBears 5).quantity.add (.fin 10) } : Sweet)
      = gummyBears 15 := by
    decide!
  rw [e] at h
  exact ⟨h.1, h.2.1⟩

/-- Claim C7 fails as stated: a restock of 1 on a product with the stock `2 ^ 53` =
9007199254740992 is answered 200 with `added` 1 and the stored quantity stays
9007199254740992, the double that the sum rounds to, and not `s + n` = 9007199254740993. -/
theorem restock_large_stock_rounds :
    (restockSweet stdRuntime [gummyBears 9007199254740992] (stockRequest (.num (.fin 1)))).1 =
      .respond { status := 200, message := some "Restock successful",
                 sweet := some (gummyBears 9007199254740992), added := some (.num (.fin 1)) }
    ∧ storedQuantity
        (restockSweet stdRuntime [gummyBears 9007199254740992]
          (stockRequest (.num (.fin 1)))).2 1
      = some (.fin 9007199254740992)
    ∧ (9007199254740992 : ℚ) + 1 ≠ 9007199254740992 := by
  have h := restock_accepts stdRuntime [gummyBears 9007199254740992]
    (stockRequest (.num (.fin 1))) (gummyBears 9007199254740992) (.fin 1) rfl (by decide)
    (by decide) rfl (by decide)
  have e : (gummyBears 9007199254740992).quantity.add (.fin 1) = .fin 9007199254740992 := by
    decide!
  rw [e] at h
  rw [h]
  refine ⟨rfl, ?_, by norm_num⟩
  simp [storedQuantity, updateQuantity, gummyBears]

/-- Claim C8: for every Restock request whose quantity is absent, 0 or a negative number,
`restockSweet` responds with status 400 and error `Quantity must be at least 1` and the store
is unchanged. -/
theorem restock_invalid_quantity (rt : Runtime) (db : Db) (req : Request)
    (hq : req.body.quantity = .undefined
      ∨ ∃ n : JSNum, req.body.quantity = .num n ∧ (n = .fin 0 ∨ n.lt (.fin 0) = true)) :
    restockSweet rt db req =
      (.respond { status := 400, error := some "Quantity must be at least 1" }, db) := by
  rcases hq with hq | ⟨n, hq, h0 | hneg⟩
  · simp [restockSweet, hq, isFalsy]
  · simp [restockSweet, hq, isFalsy, h0, JSNum.isFalsy]
  · have h1 : n.lt (.fin 1) = true := by
      cases n <;> simp_all [JSNum.lt]
      linarith
    cases hf : isFalsy (.num n) <;> simp [restockSweet, hq, hf, valLtNum, toNumber, h1]

/-- The test `should return 400 for invalid quantity` (quantity 0), with an absent and a
negative quantity beside it. -/
theorem restock_invalid_quantity_witness :
    restockSweet stdRuntime [gummyBears 5] (stockRequest (.num (.fin 0))) =
      (.respond { status := 400, error := some "Quantity must be at least 1" },
        [gummyBears 5])
    ∧ restockSweet stdRuntime [gummyBears 5] (stockRequest .undefined) =
      (.respond { status := 400, error := some "Quantity must be at least 1" },
        [gummyBears 5])
    ∧ restockSweet stdRuntime [gummyBears 5] (stockRequest (.num (.fin (-4)))) =
      (.respond { status := 400, error := some "Quantity must be at least 1" },
        [gummyBears 5]) :=
  ⟨restock_invalid_quantity stdRuntime [gummyBears 5] (stockRequest (.num (.fin 0)))
      (Or.inr ⟨.fin 0, rfl, Or.inl rfl⟩),
   restock_invalid_quantity stdRuntime [gummyBears 5] (stockRequest .undefined) (Or.inl rfl),
   restock_invalid_quantity stdRuntime [gummyBears 5] (stockRequest (.num (.fin (-4))))
      (Or.inr ⟨.fin (-4), rfl, Or.inr (by decide)⟩)⟩

/-! ## Integrality of the stock -/

/-- Claim C9 fails on the code: a purchase of 1.5 against a product with the integer stock 5 is
accepted with status 200 and the quantity stored afterwards is 3.5, which is not an
integer. -/
theorem purchase_fractional_quantity_stored :
    (purchaseSweet stdRuntime [gummyBears 5] (stockRequest (.num (.fin (3 / 2))))).1 =
      .respond { status := 200, message := some "Purchase successful",
                 sweet := some (gummyBears (7 / 2)),
                 purchased := some (.num (.fin (3 / 2))) }
    ∧ storedQuantity
        (purchaseSweet stdRuntime [gummyBears 5] (stockRequest (.num (.fin (3 / 2))))).2 1
        = some (.fin (7 / 2))
    ∧ JSNum.isInteger (.fin 5) = true
    ∧ JSNum.isInteger (.fin (7 / 2)) = false := by
  have h := purchase_accepts stdRuntime [gummyBears 5] (stockRequest (.num (.fin (3 / 2))))
    (gummyBears 5) 5 (3 / 2) rfl (by norm_num) (by norm_num) rfl rfl (by decide)
  have e2 : (JSNum.fin 5).sub (.fin (3 / 2)) = .fin (7 / 2) := by decide!
  have e : ({ gummyBears 5 with quantity := .fin (7 / 2) } : Sweet) = gummyBears (7 / 2) := rfl
  rw [e2, e] at h
  rw [h]
  refine ⟨rfl, ?_, by norm_num [JSNum.isInteger], by norm_num [JSNum.isInteger]⟩
  simp [storedQuantity, updateQuantity, gummyBears]

/-! ## Authorization -/

/-- Claim C10: for every request context, `isAdmin` responds 401 `Authentication required.`
when no account is attached, responds 403 `Access denied. Admin privileges required.` when an
account is attached whose role is not `admin`, and calls the next handler if and only if an
account with role `admin` is attached. -/
theorem isAdmin_outcomes (req : Request) :
    (req.user = none →
      isAdmin req = .respond { status := 401, error := some "Authentication required." })
    ∧ (∀ user, req.user = some user → user.role ≠ "admin" →
      isAdmin req =
        .respond { status := 403, error := some "Access denied. Admin privileges required." })
    ∧ (isAdmin req = .next ↔ ∃ user, req.user = some user ∧ user.role = "admin") := by
  refine ⟨fun h => by simp [isAdmin, h], fun user h hr => by simp [isAdmin, h, hr], ?_⟩
  cases hu : req.user with
  | none => simp [isAdmin, hu]
  | some user =>
    by_cases hr : user.role = "admin" <;> simp [isAdmin, hu, hr]

/-- The three branches of `isAdmin`: no account, a `user` account, an `admin` account. -/
theorem isAdmin_outcomes_witness :
    isAdmin {} = .respond { status := 401, error := some "Authentication required." }
    ∧ isAdmin { user := some (sampleUser "user") } =
        .respond { status := 403, error := some "Access denied. Admin privileges required." }
    ∧ isAdmin { user := some (sampleUser "admin") } = .next :=
  ⟨(isAdmin_outcomes {}).1 rfl,
   (isAdmin_outcomes { user := some (sampleUser "user") }).2.1 (sampleUser "user") rfl
      (by decide),
   (isAdmin_outcomes { user := some (sampleUser "admin") }).2.2.mpr
      ⟨sampleUser "admin", rfl, rfl⟩⟩

/-! ## Authentication -/

/-- Claim C11: for every request whose Authorization header is absent or does not start with
`Bearer `, `authenticate` responds with status 401 and error
`Access denied. No token provided.`, leaves the request as it was (no account attached) and
does not call the next handler; the outcome is the same for every token collaborator, account
collection and environment, which are not consulted. -/
theorem authenticate_no_token (jwt : Jwt) (users : UserModel) (env : ProcessEnv)
    (req : Request)
    (h : req.authorization = none
      ∨ ∃ header, req.authorization = some header ∧ jsStartsWith header "Bearer " = false) :
    authenticate jwt users env req =
      (.respond { status := 401, error := some "Access denied. No token provided." }, req)
    ∧ ∀ (jwt' : Jwt) (users' : UserModel) (env' : ProcessEnv),
        authenticate jwt' users' env' req = authenticate jwt users env req := by
  refine ⟨authenticate_unauthorized jwt users env req h, fun jwt' users' env' => ?_⟩
  rw [authenticate_unauthorized jwt users env req h,
    authenticate_unauthorized jwt' users' env' req h]

/-- The test `should return 401 without token`, and a header of another scheme. -/
theorem authenticate_no_token_witness :
    authenticate sampleJwt (sampleUsers [sampleUser "admin"]) {} {} =
      (.respond { status := 401, error := some "Access denied. No token provided." }, {})
    ∧ authenticate sampleJwt (sampleUsers [sampleUser "admin"]) {}
        { authorization := some "Basic good-token" } =
      (.respond { status := 401, error := some "Access denied. No token provided." },
        { authorization := some "Basic good-token" }) :=
  ⟨(authenticate_no_token sampleJwt (sampleUsers [sampleUser "admin"]) {} {} (Or.inl rfl)).1,
   (authenticate_no_token sampleJwt (sampleUsers [sampleUser "admin"]) {}
      { authorization := some "Basic good-token" }
      (Or.inr ⟨"Basic good-token", rfl, by decide⟩)).1⟩

/-- Claim C12: for every request whose header starts with `Bearer `: when verification of the
token throws a `JsonWebTokenError` the response is 401 `Invalid token.`, when it throws a
`TokenExpiredError` the response is 401 `Token expired.`, and when it succeeds but the
account id of the payload resolves to no stored account the response is 401
`Invalid token. User not found.`.  In the three cases the request is left as it was (no
account attached) and the next handler is not called, and each of the three responses differs
from the response to a request without a token. -/
theorem authenticate_rejections (jwt : Jwt) (users : UserModel) (env : ProcessEnv)
    (req : Request) (header : String)
    (hh : req.authorization = some header) (hb : jsStartsWith header "Bearer " = true) :
    (jwt.verify (bearerToken header) (jwtSecret env) = .error .jsonWebTokenError →
      authenticate jwt users env req =
        (.respond { status := 401, error := some "Invalid token." }, req))
    ∧ (jwt.verify (bearerToken header) (jwtSecret env) = .error .tokenExpiredError →
      authenticate jwt users env req =
        (.respond { status := 401, error := some "Token expired." }, req))
    ∧ (∀ decoded, jwt.verify (bearerToken header) (jwtSecret env) = .ok decoded →
        users.findById (getProp decoded "userId") = .ok none →
      authenticate jwt users env req =
        (.respond { status := 401, error := some "Invalid token. User not found." }, req))
    ∧ (∀ reason ∈ ["Invalid token.", "Token expired.", "Invalid token. User not found."],
        (.respond { status := 401, error := some reason } : Outcome)
          ≠ (authenticate jwt users env { req with authorization := none }).1) := by
  refine ⟨fun hv => ?_, fun hv => ?_, fun decoded hv hu => ?_, ?_⟩
  · rw [authenticate_verify_error jwt users env req header _ hh hb hv]; rfl
  · rw [authenticate_verify_error jwt users env req header _ hh hb hv]; rfl
  · exact authenticate_user_missing jwt users env req header decoded hh hb hv hu
  · intro reason hr
    rw [authenticate_unauthorized jwt users env _ (Or.inl rfl)]
    simp only [List.mem_cons, List.mem_singleton, List.not_mem_nil, or_false] at hr
    rcases hr with rfl | rfl | rfl <;> simp

/-- The test `should return 401 with invalid token`, an expired token, and the token of an
account that is no longer stored. -/
theorem authenticate_rejections_witness :
    authenticate sampleJwt (sampleUsers [sampleUser "user"]) {}
        { authorization := some "Bearer invalid-token" } =
      (.respond { status := 401, error := some "Invalid token." },
        { authorization := some "Bearer invalid-token" })
    ∧ authenticate sampleJwt (sampleUsers [sampleUser "user"]) {}
        { authorization := some "Bearer expired-token" } =
      (.respond { status := 401, error := some "Token expired." },
        { authorization := some "Bearer expired-token" })
    ∧ authenticate sampleJwt (sampleUsers []) {}
        { authorization := some "Bearer good-token" } =
      (.respond { status := 401, error := some "Invalid token. User not found." },
        { authorization := some "Bearer good-token" }) :=
  ⟨(authenticate_rejections sampleJwt (sampleUsers [sampleUser "user"]) {}
      { authorization := some "Bearer invalid-token" } "Bearer invalid-token" rfl
      (by decide)).1 rfl,
   (authenticate_rejections sampleJwt (sampleUsers [sampleUser "user"]) {}
      { authorization := some "Bearer expired-token" } "Bearer expired-token" rfl
      (by decide)).2.1 rfl,
   (authenticate_rejections sampleJwt (sampleUsers []) {}
      { authorization := some "Bearer good-token" } "Bearer good-token" rfl
      (by decide)).2.2.1 [("userId", .str "000000000000000000000007")] rfl rfl⟩

/-- Claim C13: for a token collaborator whose `verify` returns the payload that
`generateToken` signed for the account id `u` (the token not having expired) and whose tokens
hold no space, and for every account that the account collection holds under `u`,
`authenticate` applied to a request with the header `Bearer ` followed by `generateToken(u)`
attaches exactly that account, with its stored role, to the request and calls the next
handler. -/
theorem authenticate_generated_token (jwt : Jwt) (users : UserModel) (env : ProcessEnv)
    (req : Request) (u : JSVal) (user : User)
    (hverify : jwt.verify (generateToken jwt env u) (jwtSecret env) = .ok [("userId", u)])
    (hspace : ' ' ∉ (generateToken jwt env u).toList)
    (hstored : users.findById u = .ok (some user))
    (hheader : req.authorization = some ("Bearer " ++ generateToken jwt env u)) :
    authenticate jwt users env req = (.next, { req with user := some user }) := by
  apply authenticate_ok jwt users env req _ [("userId", u)] user hheader
    (jsStartsWith_bearer _)
  · rw [bearerToken_append _ hspace]; exact hverify
  · exact hstored

/-- The test `should return user profile with valid token`: the token generated for the
stored account resolves to it. -/
theorem authenticate_generated_token_witness :
    authenticate sampleJwt (sampleUsers [sampleUser "user"]) {}
        { authorization := some ("Bearer " ++ generateToken sampleJwt {}
            (.str "000000000000000000000007")) }
      = (.next,
         { authorization := some ("Bearer " ++ generateToken sampleJwt {}
            (.str "000000000000000000000007")),
           user := some (sampleUser "user") }) :=
  authenticate_generated_token sampleJwt (sampleUsers [sampleUser "user"]) {}
    { authorization := some ("Bearer " ++ generateToken sampleJwt {}
        (.str "000000000000000000000007")) }
    (.str "000000000000000000000007") (sampleUser "user") rfl (by decide) rfl rfl

/-- Claim C14: for every account id `u`, `generateToken(u)` hands the signing collaborator the
payload with the single field `userId = u` and the option `expiresIn` of `7d`.  The account
that `authenticate` attaches is the one the account collection returned for the `userId` of
the verified payload, so `isAdmin` lets the request through exactly when the stored role is
`admin`; and two token collaborators whose payloads agree on `userId`, whatever else the
payloads hold, give the same outcome of `authenticate` on every request. -/
theorem token_payload_only_userId (jwt jwt' : Jwt) (users : UserModel) (env : ProcessEnv)
    (u : JSVal) :
    generateToken jwt env u
        = jwt.sign [("userId", u)] (jwtSecret env) [("expiresIn", .str "7d")]
    ∧ (∀ req req', authenticate jwt users env req = (.next, req') →
        ∃ decoded user, users.findById (getProp decoded "userId") = .ok (some user)
          ∧ req'.user = some user
          ∧ (isAdmin req' = .next ↔ user.role = "admin"))
    ∧ ((∀ token secret,
          (jwt.verify token secret).map (fun decoded => getProp decoded "userId")
            = (jwt'.verify token secret).map (fun decoded => getProp decoded "userId")) →
        ∀ req, authenticate jwt users env req = authenticate jwt' users env req) := by
  refine ⟨rfl, fun req req' h => ?_, fun h req => authenticate_congr jwt jwt' users env req h⟩
  obtain ⟨header, decoded, user, _, _, hu, hreq⟩ := authenticate_next jwt users env req req' h
  refine ⟨decoded, user, hu, by rw [hreq], ?_⟩
  rw [hreq]
  by_cases hr : user.role = "admin" <;> simp [isAdmin, hr]

/-- A payload that carries the role `admin` beside the id of a stored `user` account: the
stored account is attached and `isAdmin` answers 403. -/
theorem token_payload_only_userId_witness :
    authenticate roleClaimJwt (sampleUsers [sampleUser "user"]) {}
        { authorization := some "Bearer good-token" }
      = (.next, { authorization := some "Bearer good-token", user := some (sampleUser "user") })
    ∧ isAdmin { authorization := some "Bearer good-token", user := some (sampleUser "user") }
      = .respond { status := 403, error := some "Access denied. Admin privileges required." } := by
  have h := (token_payload_only_userId roleClaimJwt sampleJwt (sampleUsers [sampleUser "user"])
    {} .null).2.2
    (fun token secret => by
      by_cases h1 : token = "good-token"
      · simp [roleClaimJwt, sampleJwt, h1, Except.map, getProp]
      · by_cases h2 : token = "expired-token" <;>
          simp [roleClaimJwt, sampleJwt, h1, h2, Except.map])
    { authorization := some "Bearer good-token" }
  refine ⟨?_, rfl⟩
  rw [h]
  rfl

/-! ## Route guards -/

/-- Claim C15: on each admin-only route (create, update, delete, restock), whatever the body
of the request, a request without a bearer token is answered 401 and a request with a valid
token of a stored account whose role is not `admin` is answered 403; on the purchase route a
request without a bearer token is answered 401.  In each case the store is returned
unchanged: the validation and the handler do not run. -/
theorem guarded_routes_reject (sv : Services) (db : Db) (req : Request) (body : Body) :
    (∀ route ∈ [SweetRoute.create, SweetRoute.update, SweetRoute.delete, SweetRoute.restock],
      ((req.authorization = none
          ∨ ∃ header, req.authorization = some header
              ∧ jsStartsWith header "Bearer " = false) →
        sweetRouter sv route db { req with body := body } =
          (.respond { status := 401, error := some "Access denied. No token provided." }, db))
      ∧ (∀ header decoded user, req.authorization = some header →
          jsStartsWith header "Bearer " = true →
          sv.jwt.verify (bearerToken header) (jwtSecret sv.env) = .ok decoded →
          sv.users.findById (getProp decoded "userId") = .ok (some user) →
          user.role ≠ "admin" →
        sweetRouter sv route db { req with body := body } =
          (.respond { status := 403,
                      error := some "Access denied. Admin privileges required." }, db)))
    ∧ ((req.authorization = none
          ∨ ∃ header, req.authorization = some header
              ∧ jsStartsWith header "Bearer " = false) →
        sweetRouter sv SweetRoute.purchase db { req with body := body } =
          (.respond { status := 401, error := some "Access denied. No token provided." },
            db)) := by
  refine ⟨fun route hroute => ⟨fun h => ?_, fun header decoded user hh hb hv hu hr => ?_⟩,
    fun h => ?_⟩
  · have ha := authenticate_unauthorized sv.jwt sv.users sv.env { req with body := body } h
    simp only [List.mem_cons, List.mem_singleton, List.not_mem_nil, or_false] at hroute
    rcases hroute with rfl | rfl | rfl | rfl <;> simp [sweetRouter, andThen, ha]
  · have ha := authenticate_ok sv.jwt sv.users sv.env { req with body := body } header decoded
      user hh hb hv hu
    simp only [List.mem_cons, List.mem_singleton, List.not_mem_nil, or_false] at hroute
    rcases hroute with rfl | rfl | rfl | rfl <;> simp [sweetRouter, andThen, ha, isAdmin, hr]
  · have ha := authenticate_unauthorized sv.jwt sv.users sv.env { req with body := body } h
    simp [sweetRouter, andThen, ha]

/-- The tests `should return 403 for non-admin user` and `should return 401 without token`
on the create route, and `should return 401 without authentication` on the purchase route. -/
theorem guarded_routes_reject_witness :
    sweetRouter (sampleServices [sampleUser "user"]) SweetRoute.create [gummyBears 10]
        { authorization := some "Bearer good-token",
          body := { name := .str "Fudge", category := .str "candy", price := .num (.fin 5) } } =
      (.respond { status := 403, error := some "Access denied. Admin privileges required." },
        [gummyBears 10])
    ∧ sweetRouter (sampleServices [sampleUser "user"]) SweetRoute.create [gummyBears 10]
        { body := { name := .str "Fudge", category := .str "candy", price := .num (.fin 5) } } =
      (.respond { status := 401, error := some "Access denied. No token provided." },
        [gummyBears 10])
    ∧ sweetRouter (sampleServices [sampleUser "user"]) SweetRoute.purchase [gummyBears 10]
        { params := { id := sampleId }, body := { quantity := .num (.fin 1) } } =
      (.respond { status := 401, error := some "Access denied. No token provided." },
        [gummyBears 10]) :=
  ⟨((guarded_routes_reject (sampleServices [sampleUser "user"]) [gummyBears 10]
        { authorization := some "Bearer good-token" }
        { name := .str "Fudge", category := .str "candy", price := .num (.fin 5) }).1
      SweetRoute.create (by decide)).2 "Bearer good-token"
        [("userId", .str "000000000000000000000007")] (sampleUser "user") rfl (by decide) rfl
        rfl (by decide),
   ((guarded_routes_reject (sampleServices [sampleUser "user"]) [gummyBears 10] {}
        { name := .str "Fudge", category := .str "candy", price := .num (.fin 5) }).1
      SweetRoute.create (by decide)).1 (Or.inl rfl),
   (guarded_routes_reject (sampleServices [sampleUser "user"]) [gummyBears 10]
        { params := { id := sampleId } } { quantity := .num (.fin 1) }).2 (Or.inl rfl)⟩

/-! ## Listing -/

/-- Claim C16: for every store and every query without a search term, `getAllSweets` responds
with the products that satisfy all the supplied filters together, in the order of the sort:
the category equal to the given one when a category is given (an empty `category` parameter
counts as not given), quantity `> 0` when `inStock` is `true`, quantity `= 0` when `inStock`
is `false`, and no stock condition otherwise.  The `count` of the response is the number of
returned products, and with neither filter every product is returned. -/
theorem getAllSweets_filters (st : Storage) (db : Db) (req : Request)
    (hs : req.query.search = none ∨ req.query.search = some "") :
    ∃ sweets, getAllSweets st db req =
        .respond { status := 200, count := some sweets.length, sweets := some sweets }
      ∧ sweets.Perm (db.filter (listedBySpec req.query))
      ∧ (req.query.category = none → req.query.inStock = none → sweets.Perm db) := by
  have hsearch : (buildFilter req.query).orRegex = none := by
    rcases hs with hs | hs <;> simp [buildFilter, truthy, hs]
  have hf : find st db (buildFilter req.query)
      = .ok (db.filter (listedBySpec req.query)) := by
    simp only [find, hsearch]
    congr 1
    exact List.filter_congr (fun s _ => matchesFields_buildFilter req.query s)
  refine ⟨st.sort (sortOptions req.query) (db.filter (listedBySpec req.query)), ?_, ?_, ?_⟩
  · simp [getAllSweets, hf]
  · exact st.sort_perm _ _
  · intro hc hi
    have hall : db.filter (listedBySpec req.query) = db := by
      apply List.filter_eq_self.2
      intro s _
      simp [listedBySpec, hc, hi]
    have := st.sort_perm (sortOptions req.query) (db.filter (listedBySpec req.query))
    rw [hall] at this ⊢
    exact this

/-- The test `should filter by stock`: of a product in stock and one out of stock, `inStock`
`true` lists the first. -/
theorem getAllSweets_filters_witness :
    getAllSweets stdStorage [chocolateBar, gummyBears 10] { query := { inStock := some "true" } }
      = .respond { status := 200, count := some 1, sweets := some [gummyBears 10] } := by
  obtain ⟨sweets, h1, h2, _⟩ := getAllSweets_filters stdStorage
    [chocolateBar, gummyBears 10] { query := { inStock := some "true" } } (Or.inl rfl)
  have hf : [chocolateBar, gummyBears 10].filter
      (listedBySpec ({ query := { inStock := some "true" } } : Request).query)
        = [gummyBears 10] := by
    decide
  rw [hf, List.perm_singleton] at h2
  rw [h1, h2]
  rfl

/-- Claim C17, as the code behaves: for every store and every non-empty search string without
regular-expression metacharacters, over a storage whose regular expressions on such strings
are the literal substring test with letter case ignored, `getAllSweets` responds with the
products, among those that pass the other filters, whose name or description contains the
string as a literal substring, letter case ignored. -/
theorem getAllSweets_search_literal (st : Storage) (hst : LiteralSearch st) (db : Db)
    (req : Request) (s : String)
    (hs : req.query.search = some s) (hne : s ≠ "") (hm : hasMetachar s = false) :
    ∃ sweets, getAllSweets st db req =
        .respond { status := 200, count := some sweets.length, sweets := some sweets }
      ∧ sweets.Perm (db.filter (fun p =>
          listedBySpec req.query p
            && (decide (containsIgnoreCase s p.name)
                || containsIgnoreCasePath s p.description))) := by
  obtain ⟨test, ht, hspec⟩ := hst s hm
  obtain ⟨sweets, h1, h2⟩ := getAllSweets_search st db req s test hs hne ht
  refine ⟨sweets, h1, ?_⟩
  have hfun : (fun p : Sweet =>
        listedBySpec req.query p && (test p.name || testPath test p.description))
      = (fun p : Sweet => listedBySpec req.query p
            && (decide (containsIgnoreCase s p.name)
                || containsIgnoreCasePath s p.description)) := by
    funext p
    rw [hspec p.name]
    cases hd : p.description with
    | none => simp [testPath, containsIgnoreCasePath]
    | some d => simp [testPath, containsIgnoreCasePath, hspec d]
  rw [hfun] at h2
  exact h2

/-- The search for `Gummy` on the products `Chocolate Bar` and `Gummy Bears` returns the
second. -/
theorem getAllSweets_search_literal_witness :
    getAllSweets stdStorage [chocolateBar, gummyBears 10] { query := { search := some "Gummy" } }
      = .respond { status := 200, count := some 1, sweets := some [gummyBears 10] } := by
  obtain ⟨sweets, h1, h2⟩ := getAllSweets_search_literal stdStorage stdStorage_literalSearch
    [chocolateBar, gummyBears 10] { query := { search := some "Gummy" } } "Gummy" rfl
    (by decide) (by decide)
  have hf : [chocolateBar, gummyBears 10].filter (fun p =>
      listedBySpec ({ query := { search := some "Gummy" } } : Request).query p
        && (decide (containsIgnoreCase "Gummy" p.name)
            || containsIgnoreCasePath "Gummy" p.description)) = [gummyBears 10] := by
    decide
  rw [hf, List.perm_singleton] at h2
  rw [h1, h2]
  rfl

/-- Claim C17 fails as stated: the search string `.` is passed on as a regular expression,
so both `Chocolate Bar` and `Gummy Bears` are returned although neither holds a `.` in its
name or description; and the search string `(`, which is not a regular expression, makes the
query fail, and the handler passes the error on. -/
theorem search_metacharacters_not_literal :
    getAllSweets stdStorage [chocolateBar, gummyBears 10] { query := { search := some "." } }
      = .respond { status := 200, count := some 2,
                   sweets := some [chocolateBar, gummyBears 10] }
    ∧ [chocolateBar, gummyBears 10].filter (fun p =>
        decide (containsIgnoreCase "." p.name) || containsIgnoreCasePath "." p.description)
      = []
    ∧ getAllSweets stdStorage [chocolateBar, gummyBears 10] { query := { search := some "(" } }
      = .nextError .mongoServerError := by
  refine ⟨by decide, by decide, by decide⟩

/-- Claim C18: the sort specification that `getAllSweets` builds is, when `sortBy` is given
(and not empty), the single key `sortBy` with direction descending when `order` is exactly
`desc` and ascending for every other or absent `order`; when `sortBy` is absent (or empty) it
is the single key `createdAt` descending.  This specification is what the handler sorts the
found products by. -/
theorem sortOptions_built (q : Query) :
    (∀ sortBy, q.sortBy = some sortBy → sortBy ≠ "" →
      (q.order = some "desc" → sortOptions q = [(sortBy, -1)])
      ∧ (q.order ≠ some "desc" → sortOptions q = [(sortBy, 1)]))
    ∧ (q.sortBy = none ∨ q.sortBy = some "" → sortOptions q = [("createdAt", -1)])
    ∧ ∀ (st : Storage) (db : Db) (req : Request) (found : List Sweet),
        req.query = q → find st db (buildFilter q) = .ok found →
        getAllSweets st db req =
          .respond { count := some (st.sort (sortOptions q) found).length,
                     sweets := some (st.sort (sortOptions q) found) } := by
  refine ⟨fun sortBy h hne => ⟨fun ho => ?_, fun ho => ?_⟩, fun h => ?_, ?_⟩
  · simp [sortOptions, truthy, h, hne, ho]
  · simp [sortOptions, truthy, h, hne, ho]
  · rcases h with h | h <;> simp [sortOptions, truthy, h]
  · intro st db req found hq hf
    subst hq
    simp [getAllSweets, hf]

/-- The sort by `price` under `order` `desc` and `DESC`, and the default sort. -/
theorem sortOptions_built_witness :
    sortOptions { sortBy := some "price", order := some "desc" } = [("price", -1)]
    ∧ sortOptions { sortBy := some "price", order := some "DESC" } = [("price", 1)]
    ∧ sortOptions { order := some "desc" } = [("createdAt", -1)] :=
  ⟨((sortOptions_built { sortBy := some "price", order := some "desc" }).1 "price" rfl
      (by decide)).1 rfl,
   ((sortOptions_built { sortBy := some "price", order := some "DESC" }).1 "price" rfl
      (by decide)).2 (by decide),
   (sortOptions_built { order := some "desc" }).2.1 (Or.inl rfl)⟩

/-! ## Unresolved ids -/

/-- Claim C19: for every id that is malformed (the cast throws a `CastError`) or that resolves
to no stored product, each of `getSweetById`, `updateSweet` after a validation without
errors, `deleteSweet`, and `purchaseSweet` and `restockSweet` with a quantity `>= 1` responds
with status 404 and error `Sweet not found`, not through the error handler, and returns the
store unchanged. -/
theorem unresolved_id_not_found (rt : Runtime) (db : Db) (req : Request)
    (hid : findById rt db req.params.id = .error .castError
      ∨ findById rt db req.params.id = .ok none) :
    getSweetById rt db req = .respond { status := 404, error := some "Sweet not found" }
    ∧ ((updateSweetValidation rt req).validationErrors = [] →
        updateSweet rt db (updateSweetValidation rt req) =
          (.respond { status := 404, error := some "Sweet not found" }, db))
    ∧ deleteSweet rt db req = (.respond { status := 404, error := some "Sweet not found" }, db)
    ∧ (∀ n : JSNum, req.body.quantity = .num n → n.ge (.fin 1) = true →
        purchaseSweet rt db req =
          (.respond { status := 404, error := some "Sweet not found" }, db)
        ∧ restockSweet rt db req =
          (.respond { status := 404, error := some "Sweet not found" }, db)) := by
  refine ⟨?_, fun hv => ?_, ?_, fun n hq hn => ⟨?_, ?_⟩⟩
  · rcases hid with h | h <;> simp [getSweetById, h, catchBlock, JSError.name]
  · have hp : (updateSweetValidation rt req).params = req.params := rfl
    rcases hid with h | h <;> simp [updateSweet, hv, hp, h, catchBlock, JSError.name]
  · rcases findById_unresolved hid with h | ⟨oid, h, hf⟩
    · simp [deleteSweet, findByIdAndDelete, h, catchBlock, JSError.name]
    · simp [deleteSweet, findByIdAndDelete, h, hf]
  · have h1 := JSNum.lt_eq_false_of_ge hn
    rcases hid with h | h <;>
      simp [purchaseSweet, purchaseRead, hq, valLtNum, toNumber, h1, h, catchBlock,
        JSError.name]
  · have h1 := JSNum.lt_eq_false_of_ge hn
    have h2 := JSNum.isFalsy_eq_false_of_ge hn
    rcases hid with h | h <;>
      simp [restockSweet, hq, isFalsy, h2, valLtNum, toNumber, h1, h, catchBlock, JSError.name]

/-- A read under a malformed id, and the test `should return 404 for non-existent sweet` on
delete. -/
theorem unresolved_id_not_found_witness :
    getSweetById stdRuntime [gummyBears 10] { params := { id := "not-an-id" } }
        = .respond { status := 404, error := some "Sweet not found" }
    ∧ deleteSweet stdRuntime [gummyBears 10] { params := { id := "0000000000000000000000ff" } }
        = (.respond { status := 404, error := some "Sweet not found" }, [gummyBears 10]) :=
  ⟨(unresolved_id_not_found stdRuntime [gummyBears 10] { params := { id := "not-an-id" } }
      (Or.inl rfl)).1,
   (unresolved_id_not_found stdRuntime [gummyBears 10]
      { params := { id := "0000000000000000000000ff" } } (Or.inr rfl)).2.2.1⟩

/-! ## Create -/

/-- Claim C20, as the code behaves: for every Create request that reaches the handler with a
body of typed fields (name, category and description strings, price and quantity numbers,
each possibly absent), in a runtime that prints these numbers as the language lays down.
When the trimmed name is non-empty and at most 100 characters, the trimmed category is one of
the enumerated values, the price is a finite number `>= 0`, the quantity if given is an
integer `>= 0` and below `10 ^ 21`, and the description if given is at most 500 characters
after trimming, characters being counted as `isLength` counts them (code points other than
the variation selectors), the request is accepted with status 201 and one product is appended
to the store, provided that `imageUrl` is not an array or object and that the trimmed name and
description fit their limits counted in UTF-16 code units too.  When one of these rules is
broken the response is status 400 with a non-empty list of errors and the store is unchanged.
When the rules are met and `imageUrl` is an array or an object without an `_id`, which the
schema cannot cast to a string, `save()` rejects, the error is passed to the error handler and
the store is unchanged. -/
theorem create_accepted_iff_rules (rt : Runtime) (newId : ObjectId) (db : Db) (req : Request)
    (i : CreateInput)
    (hbody : req.body = i.toBody) (hfresh : req.validationErrors = [])
    (hprice : ∀ n, i.price = some n → NumeralLaws rt n)
    (hquantity : ∀ n, i.quantity = some n → NumeralLaws rt n) :
    (meetsCreateRules i = true → (∀ p, i.imageUrl ≠ .obj p) →
      (validatorLength (jsTrim (i.name.getD "")) ≤ 100 →
        jsLength (jsTrim (i.name.getD "")) ≤ 100) →
      (validatorLength (jsTrim (i.description.getD "")) ≤ 500 →
        jsLength (jsTrim (i.description.getD "")) ≤ 500) →
      createSweet rt newId db (sweetValidation rt req) =
        (.respond { status := 201, message := some "Sweet created successfully",
                    sweet := some (createdDoc rt newId i) },
         db ++ [createdDoc rt newId i]))
    ∧ (meetsCreateRules i = false →
      ∃ errors, errors ≠ [] ∧ createSweet rt newId db (sweetValidation rt req) =
        (.respond { status := 400, errors := some errors }, db))
    ∧ (meetsCreateRules i = true → (∃ p, i.imageUrl = .obj p ∧ p.documentId = none) →
      createSweet rt newId db (sweetValidation rt req) = (.nextError .validationError, db)) :=
  have hp : ∀ n, i.price = some n → PlainNumeral rt n :=
    fun n h => plainNumeral_of_laws rt n (hprice n h)
  have hq : ∀ n, i.quantity = some n → PlainNumeral rt n :=
    fun n h => plainNumeral_of_laws rt n (hquantity n h)
  ⟨fun hrules himage hname16 hdesc16 =>
      createSweet_accepts rt newId db req i hbody hfresh hp hq himage hname16 hdesc16 hrules,
   createSweet_rejects rt newId db req i hbody hfresh hp hq,
   createSweet_imageUrl_obj rt newId db req i hbody hfresh hp hq⟩

/-- A product with a padded name and the price 2.5 is created with the name trimmed; the
category `invalid-category` of the test suite is answered 400, and so is the quantity
`1e21`, whose numeral `1e+21` is not one of digits. -/
theorem create_accepted_iff_rules_witness :
    createSweet stdRuntime 2 [gummyBears 10]
        (sweetValidation stdRuntime
          { body := { name := .str "  Fudge ", category := .str "candy",
                      price := .num (.fin (5 / 2)), quantity := .num (.fin 3) } }) =
      (.respond { status := 201, message := some "Sweet created successfully",
                  sweet := some { _id := 2, name := "Fudge", category := "candy",
                                  price := .fin (5 / 2), quantity := .fin 3,
                                  description := some "", imageUrl := some "" } },
       [gummyBears 10,
        { _id := 2, name := "Fudge", category := "candy", price := .fin (5 / 2),
          quantity := .fin 3, description := some "", imageUrl := some "" }])
    ∧ (∃ errors, errors ≠ [] ∧
      createSweet stdRuntime 2 [gummyBears 10]
        (sweetValidation stdRuntime
          { body := { name := .str "Fudge", category := .str "invalid-category",
                      price := .num (.fin 5) } }) =
      (.respond { status := 400, errors := some errors }, [gummyBears 10]))
    ∧ ∃ errors, errors ≠ [] ∧
      createSweet stdRuntime 2 [gummyBears 10]
        (sweetValidation stdRuntime
          { body := { name := .str "Fudge", category := .str "candy",
                      price := .num (.fin 5), quantity := .num (.fin (10 ^ 21)) } }) =
      (.respond { status := 400, errors := some errors }, [gummyBears 10]) := by
  have h := (create_accepted_iff_rules stdRuntime 2 [gummyBears 10]
    { body := { name := .str "  Fudge ", category := .str "candy",
                price := .num (.fin (5 / 2)), quantity := .num (.fin 3) } }
    { name := some "  Fudge ", category := some "candy", price := some (.fin (5 / 2)),
      quantity := some (.fin 3) }
    rfl rfl
    (fun n hn => by
      obtain rfl : JSNum.fin (5 / 2) = n := Option.some.inj hn
      exact numeralLaws_std_5_2)
    (fun n hn => by
      obtain rfl : JSNum.fin 3 = n := Option.some.inj hn
      exact numeralLaws_std_3)).1
    (by decide!) (fun p hp => by cases hp) (fun _ => by decide) (fun _ => by decide)
  have e : createdDoc stdRuntime 2
      { name := some "  Fudge ", category := some "candy", price := some (.fin (5 / 2)),
        quantity := some (.fin 3) }
      = { _id := 2, name := "Fudge", category := "candy", price := .fin (5 / 2),
          quantity := .fin 3, description := some "", imageUrl := some "" } := by
    decide!
  rw [e] at h
  refine ⟨h, ?_, ?_⟩
  · exact (create_accepted_iff_rules stdRuntime 2 [gummyBears 10]
      { body := { name := .str "Fudge", category := .str "invalid-category",
                  price := .num (.fin 5) } }
      { name := some "Fudge", category := some "invalid-category", price := some (.fin 5) }
      rfl rfl
      (fun n hn => by
        obtain rfl : JSNum.fin 5 = n := Option.some.inj hn
        exact numeralLaws_std_5)
      (fun n hn => by cases hn)).2.1 (by decide)
  · exact (create_accepted_iff_rules stdRuntime 2 [gummyBears 10]
      { body := { name := .str "Fudge", category := .str "candy",
                  price := .num (.fin 5), quantity := .num (.fin (10 ^ 21)) } }
      { name := some "Fudge", category := some "candy", price := some (.fin 5),
        quantity := some (.fin (10 ^ 21)) }
      rfl rfl
      (fun n hn => by
        obtain rfl : JSNum.fin 5 = n := Option.some.inj hn
        exact numeralLaws_std_5)
      (fun n hn => by
        obtain rfl : JSNum.fin (10 ^ 21) = n := Option.some.inj hn
        exact numeralLaws_std_1e21)).2.1 (by decide!)

/-- Claim C20 fails as stated: a Create request with name `Fudge`, category `candy`, price 5
and an `imageUrl` that is an object meets every rule of the claim, yet it is not accepted:
no rule validates `imageUrl`, the schema cannot cast the object to a string, `save()` rejects,
and the handler passes the error to the error handler instead of answering 201 or 400.
Nothing is persisted. -/
theorem create_object_imageUrl_not_accepted :
    meetsCreateRules
        { name := some "Fudge", category := some "candy", price := some (.fin 5) } = true
    ∧ createSweet stdRuntime 2 [gummyBears 10]
        (sweetValidation stdRuntime
          { body := { name := .str "Fudge", category := .str "candy", price := .num (.fin 5),
                      imageUrl := .obj { primitive := some "[object Object]" } } }) =
      (.nextError .validationError, [gummyBears 10]) := by
  refine ⟨by decide, ?_⟩
  decide!

/-! ## The errors that Create lists -/

/-- Claim C21: for every Create request, whatever the values of its fields.  A field breaks
its rule when one of the strings that its chain validates, the string of the value or those
of the elements of an array, fails a validator of the chain.  When a field breaks its rule
the response is status 400 with the whole list of the errors that the validation recorded,
and that list has an entry for each field that breaks its rule, whichever other fields do so
too: one on `name`, one on `category`, one on `price`, one on `quantity` and one on
`description`.  On a body of typed fields, in a runtime that prints numbers as the language
lays down, a field breaks its rule exactly when it breaks the rule as the specification words
it. -/
theorem create_lists_every_violated_field (rt : Runtime) (newId : ObjectId) (db : Db)
    (req : Request) :
    ((nameViolated rt req.body || categoryViolated rt req.body || priceViolated rt req.body
        || quantityViolated rt req.body || descriptionViolated rt req.body) = true →
      createSweet rt newId db (sweetValidation rt req) =
        (.respond { status := 400, errors := some (sweetValidation rt req).validationErrors },
          db))
    ∧ (nameViolated rt req.body = true →
        ∃ e ∈ (sweetValidation rt req).validationErrors, e.path = "name")
    ∧ (categoryViolated rt req.body = true →
        ∃ e ∈ (sweetValidation rt req).validationErrors, e.path = "category")
    ∧ (priceViolated rt req.body = true →
        ∃ e ∈ (sweetValidation rt req).validationErrors, e.path = "price")
    ∧ (quantityViolated rt req.body = true →
        ∃ e ∈ (sweetValidation rt req).validationErrors, e.path = "quantity")
    ∧ (descriptionViolated rt req.body = true →
        ∃ e ∈ (sweetValidation rt req).validationErrors, e.path = "description")
    ∧ (∀ i : CreateInput, req.body = i.toBody →
        (∀ n, i.price = some n → NumeralLaws rt n) →
        (∀ n, i.quantity = some n → NumeralLaws rt n) →
        nameViolated rt req.body = !nameRule i.name
        ∧ categoryViolated rt req.body = !categoryRule i.category
        ∧ priceViolated rt req.body = !priceRule i.price
        ∧ quantityViolated rt req.body = !quantityRule i.quantity
        ∧ descriptionViolated rt req.body = !descriptionRule i.description) := by
  refine ⟨?_, sweetValidation_lists_name rt req, sweetValidation_lists_category rt req,
    sweetValidation_lists_price rt req, sweetValidation_lists_quantity rt req,
    sweetValidation_lists_description rt req, ?_⟩
  · intro h
    apply createSweet_errors
    simp only [Bool.or_eq_true] at h
    have hmem : ∃ e, e ∈ (sweetValidation rt req).validationErrors := by
      rcases h with (((h | h) | h) | h) | h
      · obtain ⟨e, he, _⟩ := sweetValidation_lists_name rt req h; exact ⟨e, he⟩
      · obtain ⟨e, he, _⟩ := sweetValidation_lists_category rt req h; exact ⟨e, he⟩
      · obtain ⟨e, he, _⟩ := sweetValidation_lists_price rt req h; exact ⟨e, he⟩
      · obtain ⟨e, he, _⟩ := sweetValidation_lists_quantity rt req h; exact ⟨e, he⟩
      · obtain ⟨e, he, _⟩ := sweetValidation_lists_description rt req h; exact ⟨e, he⟩
    obtain ⟨e, he⟩ := hmem
    exact List.ne_nil_of_mem he
  · intro i hbody hprice hquantity
    rw [hbody]
    exact ⟨nameViolated_typed rt i, categoryViolated_typed rt i,
      priceViolated_typed rt i (fun n h => plainNumeral_of_laws rt n (hprice n h)),
      quantityViolated_typed rt i (fun n h => plainNumeral_of_laws rt n (hquantity n h)),
      descriptionViolated_typed rt i⟩

/-- A Create request without name and price and with the category `unknown` is answered 400
with an error on each of the three fields; and a request whose name is an array with an empty
element has an error on `name`. -/
theorem create_lists_every_violated_field_witness :
    createSweet stdRuntime 2 [gummyBears 10]
        (sweetValidation stdRuntime { body := { category := .str "unknown" } }) =
      (.respond { status := 400,
                  errors := some [⟨"name", "Name is required"⟩,
                    ⟨"category", "Invalid category"⟩,
                    ⟨"price", "Price must be a positive number"⟩] }, [gummyBears 10])
    ∧ (∃ e ∈ (sweetValidation stdRuntime
          { body := { category := .str "unknown" } }).validationErrors, e.path = "name")
    ∧ (∃ e ∈ (sweetValidation stdRuntime
          { body := { category := .str "unknown" } }).validationErrors,
        e.path = "category")
    ∧ (∃ e ∈ (sweetValidation stdRuntime
          { body := { category := .str "unknown" } }).validationErrors,
        e.path = "price")
    ∧ (∃ e ∈ (sweetValidation stdRuntime
          { body := { name := .obj { primitive := some "Fudge,",
                                     elements := some ["Fudge", ""] },
                      category := .str "candy",
                      price := .num (.fin 5) } }).validationErrors,
        e.path = "name") := by
  have h := create_lists_every_violated_field stdRuntime 2 [gummyBears 10]
    { body := { category := .str "unknown" } }
  have h2 := create_lists_every_violated_field stdRuntime 2 [gummyBears 10]
    { body := { name := .obj { primitive := some "Fudge,", elements := some ["Fudge", ""] },
                category := .str "candy", price := .num (.fin 5) } }
  exact ⟨h.1 (by decide), h.2.1 (by decide), h.2.2.1 (by decide), h.2.2.2.1 (by decide),
    h2.2.1 (by decide)⟩

/-! ## Update -/

/-- Claim C22, as the code behaves: for every existing product with valid fields and every
Update request with a body of typed fields that meets the rules (a name, when present,
non-empty and at most 100 characters after trimming, a category among the enumerated values,
a price that is a finite number `>= 0`, a quantity that is an integer `>= 0` below `10 ^ 21`,
a description of at most 500 characters after trimming, characters being counted as
`isLength` counts them) and whose `imageUrl` is not an array or object, `updateSweet`
responds 200 and the product read back afterwards has, for each field present in the body,
the supplied value with surrounding white space removed when it is a string, and for each
field absent from the body the value stored before.  The numbers of the body are read by the
validators as what they denote, as they are on every runtime that prints numbers as the
language lays down, and the trimmed name and description fit their limits counted in UTF-16
code units too. -/
theorem update_overwrites_supplied_fields (rt : Runtime) (db : Db) (req : Request)
    (i : CreateInput) (sweet : Sweet)
    (hbody : req.body = i.toBody) (hfresh : req.validationErrors = [])
    (hprice : ∀ n, i.price = some n → PlainNumeral rt n)
    (hquantity : ∀ n, i.quantity = some n → PlainNumeral rt n)
    (hfound : findById rt db req.params.id = .ok (some sweet))
    (hv : schemaValid sweet = true) (hrules : meetsUpdateRules i = true)
    (himage : ∀ p, i.imageUrl ≠ .obj p)
    (hname16 : ∀ n, i.name = some n →
      validatorLength (jsTrim n) ≤ 100 → jsLength (jsTrim n) ≤ 100)
    (hdesc16 : ∀ d, i.description = some d →
      validatorLength (jsTrim d) ≤ 500 → jsLength (jsTrim d) ≤ 500) :
    (updateSweet rt db (updateSweetValidation rt req)).1 =
      .respond { status := 200, message := some "Sweet updated successfully",
                 sweet := some (updatedDoc rt i sweet) }
    ∧ findById rt (updateSweet rt db (updateSweetValidation rt req)).2 req.params.id
      = .ok (some (updatedDoc rt i sweet))
    ∧ (∀ n, i.name = some n → (updatedDoc rt i sweet).name = jsTrim n)
    ∧ (i.name = none → (updatedDoc rt i sweet).name = sweet.name)
    ∧ (∀ c, i.category = some c → (updatedDoc rt i sweet).category = jsTrim c)
    ∧ (i.category = none → (updatedDoc rt i sweet).category = sweet.category)
    ∧ (∀ p, i.price = some p → (updatedDoc rt i sweet).price = p)
    ∧ (i.price = none → (updatedDoc rt i sweet).price = sweet.price)
    ∧ (∀ q, i.quantity = some q → (updatedDoc rt i sweet).quantity = q)
    ∧ (i.quantity = none → (updatedDoc rt i sweet).quantity = sweet.quantity)
    ∧ (∀ d, i.description = some d → (updatedDoc rt i sweet).description = some (jsTrim d))
    ∧ (i.description = none → (updatedDoc rt i sweet).description = sweet.description)
    ∧ (∀ u, i.imageUrl = .str u → (updatedDoc rt i sweet).imageUrl = some (jsTrim u))
    ∧ (i.imageUrl = .undefined → (updatedDoc rt i sweet).imageUrl = sweet.imageUrl) := by
  rw [updateSweet_accepts rt db req i sweet hbody hfresh hprice hquantity hfound hv hrules
    himage hname16 hdesc16]
  refine ⟨rfl, findById_replaceDoc hfound _ rfl, ?_, ?_, ?_, ?_, ?_, ?_, ?_, ?_, ?_, ?_, ?_, ?_⟩
  · intro n h; simp [updatedDoc, h]
  · intro h; simp [updatedDoc, h]
  · intro c h; simp [updatedDoc, h]
  · intro h; simp [updatedDoc, h]
  · intro p h; simp [updatedDoc, h]
  · intro h; simp [updatedDoc, h]
  · intro q h; simp [updatedDoc, h]
  · intro h; simp [updatedDoc, h]
  · intro d h; simp [updatedDoc, h]
  · intro h; simp [updatedDoc, h]
  · intro u h; simp [updatedDoc, h, updatedImageUrl, storedString, castString]
  · intro h; simp [updatedDoc, h, updatedImageUrl]

/-- An Update of the name and the quantity of `gummyBears`: the two fields are replaced, the
name trimmed, and category, price, description and imageUrl stay. -/
theorem update_overwrites_supplied_fields_witness :
    (updateSweet stdRuntime [gummyBears 10, chocolateBar]
        (updateSweetValidation stdRuntime
          { params := { id := sampleId },
            body := { name := .str "  Fudge ", quantity := .num (.fin 7) } })).1 =
      .respond { status := 200, message := some "Sweet updated successfully",
                 sweet := some { _id := 1, name := "Fudge", category := "candy",
                                 price := .fin 5, quantity := .fin 7,
                                 description := some "", imageUrl := some "" } }
    ∧ findById stdRuntime
        (updateSweet stdRuntime [gummyBears 10, chocolateBar]
          (updateSweetValidation stdRuntime
            { params := { id := sampleId },
              body := { name := .str "  Fudge ", quantity := .num (.fin 7) } })).2
        sampleId =
      .ok (some { _id := 1, name := "Fudge", category := "candy", price := .fin 5,
                  quantity := .fin 7, description := some "", imageUrl := some "" }) := by
  have h := update_overwrites_supplied_fields stdRuntime [gummyBears 10, chocolateBar]
    { params := { id := sampleId },
      body := { name := .str "  Fudge ", quantity := .num (.fin 7) } }
    { name := some "  Fudge ", quantity := some (.fin 7) } (gummyBears 10)
    rfl rfl (fun n hn => by cases hn)
    (fun n hn => by
      obtain rfl : JSNum.fin 7 = n := Option.some.inj hn
      exact plainNumeral_of_laws stdRuntime (.fin 7) numeralLaws_std_7)
    rfl (by decide) (by decide) (fun p hp => by cases hp)
    (fun n hn _ => by
      obtain rfl : "  Fudge " = n := Option.some.inj hn
      decide)
    (fun d hd => by cases hd)
  have e : updatedDoc stdRuntime { name := some "  Fudge ", quantity := some (.fin 7) }
      (gummyBears 10)
      = { _id := 1, name := "Fudge", category := "candy", price := .fin 5, quantity := .fin 7,
          description := some "", imageUrl := some "" } := by
    decide
  rw [e] at h
  exact ⟨h.1, h.2.1⟩

/-- Claim C22 fails as stated: an Update of `gummyBears` with the name `  Fudge `, which
passes the validation, is answered 200, and the name read back afterwards is `Fudge`: the
supplied value without its surrounding white space, not the supplied value. -/
theorem update_stores_trimmed_name :
    (updateSweetValidation stdRuntime
        { params := { id := sampleId }, body := { name := .str "  Fudge " } }).validationErrors
      = []
    ∧ (updateSweet stdRuntime [gummyBears 10]
        (updateSweetValidation stdRuntime
          { params := { id := sampleId }, body := { name := .str "  Fudge " } })).1
      = .respond { status := 200, message := some "Sweet updated successfully",
                   sweet := some { gummyBears 10 with name := "Fudge" } }
    ∧ findById stdRuntime
        (updateSweet stdRuntime [gummyBears 10]
          (updateSweetValidation stdRuntime
            { params := { id := sampleId }, body := { name := .str "  Fudge " } })).2
        sampleId
      = .ok (some { gummyBears 10 with name := "Fudge" })
    ∧ ({ gummyBears 10 with name := "Fudge" } : Sweet).name ≠ "  Fudge " := by
  refine ⟨by decide, by decide, rfl, by decide⟩

/-! ## The rules of Update and of Create -/

/-- Claim C23 fails on the code: an Update request whose `name` is only white space passes
`updateSweetValidation`, where `sweetValidation` records `Name is required` for the same
name; the handler then assigns the empty name, `save()` rejects it under the `required` of
the schema, and the error goes to the error handler instead of a 400 with a list of errors.
Nothing is written. -/
theorem update_validation_accepts_empty_name :
    (updateSweetValidation stdRuntime
        { params := { id := sampleId }, body := { name := .str "   " } }).validationErrors = []
    ∧ (⟨"name", "Name is required"⟩ : FieldError) ∈
        (sweetValidation stdRuntime
          { params := { id := sampleId }, body := { name := .str "   " } }).validationErrors
    ∧ updateSweet stdRuntime [gummyBears 10]
        (updateSweetValidation stdRuntime
          { params := { id := sampleId }, body := { name := .str "   " } })
      = (.nextError .validationError, [gummyBears 10]) := by
  refine ⟨by decide, by decide, ?_⟩
  decide

/-! ## Delete -/

/-- Claim C24: for every product `p` found under the id of the request, in a store whose ids
are distinct, `deleteSweet` responds 200 with the snapshot `p`, the product as stored before
the call; `p` is no longer in the store, a following `getSweetById` on the same id responds
404 `Sweet not found`, and the store afterwards is the store before without `p`: every
other product is there, unchanged and in the same order. -/
theorem delete_removes_product (rt : Runtime) (db : Db) (req : Request) (p : Sweet)
    (hfound : findById rt db req.params.id = .ok (some p))
    (hunique : (db.map Sweet._id).Nodup) :
    (deleteSweet rt db req).1 =
      .respond { status := 200, message := some "Sweet deleted successfully", sweet := some p }
    ∧ p ∉ (deleteSweet rt db req).2
    ∧ getSweetById rt (deleteSweet rt db req).2 req =
      .respond { status := 404, error := some "Sweet not found" }
    ∧ (deleteSweet rt db req).2 = db.filter (fun s => s._id != p._id) := by
  obtain ⟨oid, hc, hf⟩ := findById_ok hfound
  have hoid : p._id = oid := find_id_eq hf
  have e : deleteSweet rt db req =
      (.respond { status := 200, message := some "Sweet deleted successfully",
                  sweet := some p }, db.filter (fun s => s._id != oid)) := by
    simp only [deleteSweet, findByIdAndDelete, hc, hf, eraseP_id_eq_filter db oid hunique]
  rw [e, hoid]
  refine ⟨rfl, ?_, ?_, rfl⟩
  · intro hmem
    have := (List.mem_filter.mp hmem).2
    simp [hoid] at this
  · simp only [getSweetById, findById, hc, find_filter_id_ne]

/-- The test `should delete a sweet as admin`: the product is returned and a following read
answers 404, while the other product stays. -/
theorem delete_removes_product_witness :
    (deleteSweet stdRuntime [gummyBears 10, chocolateBar] (stockRequest .undefined)).1 =
      .respond { status := 200, message := some "Sweet deleted successfully",
                 sweet := some (gummyBears 10) }
    ∧ getSweetById stdRuntime
        (deleteSweet stdRuntime [gummyBears 10, chocolateBar] (stockRequest .undefined)).2
        (stockRequest .undefined) =
      .respond { status := 404, error := some "Sweet not found" }
    ∧ (deleteSweet stdRuntime [gummyBears 10, chocolateBar] (stockRequest .undefined)).2
      = [chocolateBar] := by
  have h := delete_removes_product stdRuntime [gummyBears 10, chocolateBar]
    (stockRequest .undefined) (gummyBears 10) rfl (by decide)
  refine ⟨h.1, h.2.2.1, ?_⟩
  rw [h.2.2.2]
  decide

/-! ## The global error handler -/

/-- Claim C25, as the code behaves: for every error that reaches the global error handler,
the status of the response is the `status` of the error when the error has a truthy one and
500 otherwise, and the `error` of the body is the `message` of the error when it has a
non-empty one and `Internal Server Error` otherwise.  Nothing else of the error enters: two
errors with the same `status` and `message` get the same response whatever their `name` and
`stack`, and the response is the generic 500 when the error has neither. -/
theorem errorHandler_reply (err : ErrorObject) :
    (isFalsy err.status = true → (errorHandler err).status = .num (.fin 500))
    ∧ (isFalsy err.status = false → (errorHandler err).status = err.status)
    ∧ (isFalsy err.message = true → (errorHandler err).error = .str "Internal Server Error")
    ∧ (isFalsy err.message = false → (errorHandler err).error = err.message)
    ∧ (∀ err' : ErrorObject, err'.status = err.status → err'.message = err.message →
        errorHandler err' = errorHandler err) := by
  refine ⟨?_, ?_, ?_, ?_, ?_⟩
  · intro h
    simp [errorHandler, jsOr, h]
  · intro h
    simp [errorHandler, jsOr, h]
  · intro h
    simp [errorHandler, jsOr, h]
  · intro h
    simp [errorHandler, jsOr, h]
  · intro err' h1 h2
    simp [errorHandler, h1, h2]

/-- An error without message and status is answered with the generic 500, and a validation
error of the storage driver, which has a message and no status, is answered 500 with its
message. -/
theorem errorHandler_reply_witness :
    (errorHandler {}).status = .num (.fin 500)
    ∧ (errorHandler {}).error = .str "Internal Server Error"
    ∧ (errorHandler { message := .str "Sweet validation failed" }).status = .num (.fin 500)
    ∧ (errorHandler { message := .str "Sweet validation failed" }).error
      = .str "Sweet validation failed" :=
  ⟨(errorHandler_reply {}).1 rfl, (errorHandler_reply {}).2.2.1 rfl,
   (errorHandler_reply { message := .str "Sweet validation failed" }).1 rfl,
   (errorHandler_reply { message := .str "Sweet validation failed" }).2.2.2.1 (by decide)⟩

/-- Claim C25 fails as stated: two errors that differ only in their message get different
responses, each carrying the message of its error, and the error that the body parser raises
for malformed JSON, which has the status 400, is answered 400 and not 500. -/
theorem errorHandler_depends_on_error :
    errorHandler { message := .str "connect ECONNREFUSED 127.0.0.1:27017" }
      ≠ errorHandler { message := .str "Sweet validation failed: name: Sweet name is required" }
    ∧ (errorHandler { message := .str "connect ECONNREFUSED 127.0.0.1:27017" }).error
      = .str "connect ECONNREFUSED 127.0.0.1:27017"
    ∧ (errorHandler { name := "SyntaxError", message := .str "Unexpected end of JSON input",
                      status := .num (.fin 400) }).status = .num (.fin 400) := by
  refine ⟨by decide, by decide, by decide⟩

/-! ## Register and Login -/

/-- Claim C26, as the code behaves: for every Register request that enters the validation
chain, the chain records an error if and only if one of the strings that it reads for the
username (the string of the value, or those of the elements of an array) has, after trimming
surrounding white space, fewer than 3 or more than 30 characters, or one of the strings that
it reads for the password has fewer than 6 characters, characters being counted as `isLength`
counts them: code points other than the variation selectors U+FE0E and U+FE0F.  For a
username and a password that are strings these are the strings themselves.  When an error is
recorded, Register answers 400 with the list of errors and leaves the accounts as they are. -/
theorem register_validation_errors (rt : Runtime) (req : AuthRequest)
    (hfresh : req.validationErrors = []) :
    ((registerValidation rt req).validationErrors ≠ [] ↔
      (∃ s ∈ fieldStrings rt req.body.username,
          validatorLength (jsTrim s) < 3 ∨ 30 < validatorLength (jsTrim s))
      ∨ ∃ s ∈ fieldStrings rt req.body.password, validatorLength s < 6)
    ∧ (∀ username password : String,
        req.body.username = .str username → req.body.password = .str password →
        ((registerValidation rt req).validationErrors ≠ [] ↔
          validatorLength (jsTrim username) < 3 ∨ 30 < validatorLength (jsTrim username)
          ∨ validatorLength password < 6))
    ∧ ((registerValidation rt req).validationErrors ≠ [] →
        ∀ (ids : Identity) (newId : ObjectId) (accounts : List Account)
          (username password : String) (role : Option String),
          register ids newId accounts (registerValidation rt req).validationErrors
              username password role
            = ({ status := 400, errors := some (registerValidation rt req).validationErrors },
               accounts)) := by
  have main : ((registerValidation rt req).validationErrors ≠ [] ↔
      (∃ s ∈ fieldStrings rt req.body.username,
          validatorLength (jsTrim s) < 3 ∨ 30 < validatorLength (jsTrim s))
      ∨ ∃ s ∈ fieldStrings rt req.body.password, validatorLength s < 6) := by
    unfold registerValidation
    simp only [hfresh, List.nil_append, ne_eq, List.append_eq_nil, failures_eq_nil,
      not_and_or, not_forall, List.mem_map, decide_eq_true_eq]
    constructor
    · rintro (⟨s, ⟨t, ht, rfl⟩, hs⟩ | ⟨s, hs, hv⟩)
      · exact Or.inl ⟨t, ht, hs.imp not_le.1 not_le.1⟩
      · exact Or.inr ⟨s, hs, not_le.1 hv⟩
    · rintro (⟨t, ht, hv⟩ | ⟨s, hs, hv⟩)
      · exact Or.inl ⟨jsTrim t, ⟨t, ht, rfl⟩, hv.imp not_le.2 not_le.2⟩
      · exact Or.inr ⟨s, hs, not_le.2 hv⟩
  refine ⟨main, ?_, ?_⟩
  · intro username password hu hp
    rw [main, hu, hp]
    have h1 : fieldStrings rt (.str username) = [username] := rfl
    have h2 : fieldStrings rt (.str password) = [password] := rfl
    simp only [h1, h2, List.mem_singleton, exists_eq_left, or_assoc]
  · intro herr ids newId accounts username password role
    simp [register, herr]

/-- The tests `should return 400 for short username` and `should return 400 for short
password`, and the registration that the suite expects to pass. -/
theorem register_validation_errors_witness :
    (registerValidation stdRuntime
        { body := { username := .str "ab", password := .str "password123" } }).validationErrors
      ≠ []
    ∧ (registerValidation stdRuntime
        { body := { username := .str "testuser", password := .str "12345" } }).validationErrors
      ≠ []
    ∧ ¬ ((registerValidation stdRuntime
        { body := { username := .str "testuser",
                    password := .str "password123" } }).validationErrors ≠ []) := by
  refine ⟨?_, ?_, ?_⟩
  · exact ((register_validation_errors stdRuntime
      { body := { username := .str "ab", password := .str "password123" } } rfl).2.1
      "ab" "password123" rfl rfl).mpr (Or.inl (by decide))
  · exact ((register_validation_errors stdRuntime
      { body := { username := .str "testuser", password := .str "12345" } } rfl).2.1
      "testuser" "12345" rfl rfl).mpr (Or.inr (Or.inr (by decide)))
  · intro h
    have := ((register_validation_errors stdRuntime
      { body := { username := .str "testuser", password := .str "password123" } } rfl).2.1
      "testuser" "password123" rfl rfl).mp h
    revert this
    decide

/-- Claim C26 fails as stated: the username `ab` followed by the variation selector U+FE0F
has three characters, also after trimming and also in UTF-16 code units, and the password
`password123` has eleven, so that neither has too few or too many; yet the chain records
`Username must be 3-30 characters`, because `isLength` leaves the variation selectors out of
its count, and Register answers 400. -/
theorem register_variation_selector_username_rejected :
    (jsTrim "ab\uFE0F").length = 3
    ∧ jsLength (jsTrim "ab\uFE0F") = 3
    ∧ "password123".length = 11
    ∧ (registerValidation stdRuntime
        { body := { username := .str "ab\uFE0F",
                    password := .str "password123" } }).validationErrors
      = [⟨"username", "Username must be 3-30 characters"⟩]
    ∧ register sampleIdentity 1 []
        (registerValidation stdRuntime
          { body := { username := .str "ab\uFE0F",
                      password := .str "password123" } }).validationErrors
        "ab\uFE0F" "password123" none
      = ({ status := 400,
           errors := some [⟨"username", "Username must be 3-30 characters"⟩] }, []) := by
  refine ⟨by decide, by decide, by decide, by decide, by decide⟩

/-- Claim C27: for every Login request that passes the validation chain, the username and
the password that reach Login are not empty, and the response against accounts among which
the username does not exist and the response against accounts among which it exists with a
password that does not compare to the stored digest are identical: status 401 with error
`Invalid credentials`. -/
theorem login_failures_identical (rt : Runtime) (ids : Identity) (req : AuthRequest)
    (username password : String)
    (hvalid : (loginValidation rt req).validationErrors = [])
    (hu : (loginValidation rt req).body.username = .str username)
    (hp : (loginValidation rt req).body.password = .str password) :
    username ≠ "" ∧ password ≠ ""
    ∧ ∀ (accounts accounts' : List Account) (account : Account),
      (∀ a ∈ accounts, a.user.username ≠ username) →
      accounts'.find? (fun a => a.user.username == username) = some account →
      ids.compare password account.digest = false →
      login ids accounts username password = login ids accounts' username password
      ∧ login ids accounts username password
        = { status := 401, error := some "Invalid credentials" } := by
  have hu0 : sanitizedValue req.body.username
      ((fieldStrings rt req.body.username).map jsTrim) = .str username := hu
  obtain ⟨hf, hhead⟩ := fieldStrings_of_sanitized_str rt hu0
  have hu' : jsTrim (validatorString rt req.body.username) = username := by
    rw [hf] at hhead
    exact hhead
  have hp' : req.body.password = .str password := hp
  have herr : failures "username" "Username is required" (fun s => decide (s ≠ ""))
        ((fieldStrings rt req.body.username).map jsTrim)
      ++ failures "password" "Password is required" (fun s => decide (s ≠ ""))
          (fieldStrings rt req.body.password) = [] :=
    (List.append_eq_nil.mp hvalid).2
  have hpw : fieldStrings rt (.str password) = [password] := rfl
  rw [hf, hp', hpw] at herr
  simp only [List.map_cons, List.map_nil, failures_singleton, hu'] at herr
  refine ⟨?_, ?_, ?_⟩
  · intro h
    simp [h] at herr
  · intro h
    simp [h] at herr
  · intro accounts accounts' account hunknown hknown hwrong
    have hnone : accounts.find? (fun a => a.user.username == username) = none := by
      rw [List.find?_eq_none]
      intro a ha
      simpa using hunknown a ha
    have e1 : login ids accounts username password
        = { status := 401, error := some "Invalid credentials" } := by
      simp only [login, hnone]
    have e2 : login ids accounts' username password
        = { status := 401, error := some "Invalid credentials" } := by
      simp only [login, hknown, hwrong]
      rfl
    exact ⟨e1.trans e2.symm, e1⟩

/-- The tests `should return 401 for wrong password` and `should return 401 for non-existent
user`: the same answer for `logintest` with a wrong password and without the account. -/
theorem login_failures_identical_witness :
    login sampleIdentity [] "logintest" "wrongpassword"
      = login sampleIdentity [loginTestAccount] "logintest" "wrongpassword"
    ∧ login sampleIdentity [] "logintest" "wrongpassword"
      = { status := 401, error := some "Invalid credentials" } :=
  (login_failures_identical stdRuntime sampleIdentity
    { body := { username := .str " logintest", password := .str "wrongpassword" } }
    "logintest" "wrongpassword" (by decide) (by decide) rfl).2.2
    [] [loginTestAccount] loginTestAccount (fun a ha => by cases ha) (by decide) (by decide)

/-! ## String quantities -/

/-- Claim C28 fails on the code: a Restock request whose `quantity` is the string `10`,
against a product with stock 5, is answered 200 and leaves the stored quantity 510, the
number that the concatenation `5 + "10"` casts to, where the request with the number 10
leaves 15. -/
theorem restock_string_quantity_concatenates :
    restockSweet stdRuntime [gummyBears 5] (stockRequest (.str "10")) =
      (.respond { status := 200, message := some "Restock successful",
                  sweet := some (gummyBears 510), added := some (.str "10") },
       [gummyBears 510])
    ∧ (restockSweet stdRuntime [gummyBears 5] (stockRequest (.num (.fin 10)))).2
      = [gummyBears 15] := by
  constructor
  · have hlt : valLtNum stdRuntime (.str "10") (.fin 1) = some false := by
      simp only [valLtNum, toNumber, stdRuntime, stdStringToNumber_10, Option.map_some',
        JSNum.lt]
      norm_num
    have hfound : findById stdRuntime [gummyBears 5] sampleId = .ok (some (gummyBears 5)) := rfl
    have h5 : stdNumberToString (.fin 5) = "5" := by decide!
    have hadd : numAddVal stdRuntime (gummyBears 5).quantity (.str "10") = some (.str "510") := by
      simp only [numAddVal, toPrimitive, stdRuntime, gummyBears, h5]
      rfl
    have hset : setQuantity stdRuntime (gummyBears 5) (.str "510") = some (gummyBears 510) := by
      simp only [setQuantity, castNumber, stdRuntime, stdStringToNumber_510]
      rfl
    have hv : schemaValid (gummyBears 510) = true := by decide
    have hq : (stockRequest (.str "10")).body.quantity = .str "10" := rfl
    have hp : (stockRequest (.str "10")).params.id = sampleId := rfl
    simp only [restockSweet, hq, hp, isFalsy, hlt, hfound, hadd, hset, save, hv]
    simp [updateQuantity, gummyBears]
  · rw [restock_accepts stdRuntime [gummyBears 5] (stockRequest (.num (.fin 10)))
      (gummyBears 5) (.fin 10) rfl (by decide) (by decide) rfl (by decide)]
    decide!

/-! ## Purchase and Restock undo each other -/

/-- Claim C29, as the code behaves: for every existing product with valid fields and stock
`s`, and every integer `n >= 1`.  When `n <= s` and `s` is at most `2 ^ 53`, a Purchase of
`n` succeeds and a following Restock of `n` succeeds and restores the stored quantity to
`s`: the product read back is the product as stored before, and so is the whole store.  In
the other order, when `s + n` is at most `2 ^ 53`, a Restock of `n` succeeds and a following
Purchase of `n` succeeds and restores the stored quantity to `s` in the same way. -/
theorem purchase_restock_round_trip (rt : Runtime) (db : Db) (reqP reqR : Request)
    (sweet : Sweet) (s n : ℤ)
    (hP : reqP.body.quantity = .num (.fin n)) (hR : reqR.body.quantity = .num (.fin n))
    (hid : reqR.params.id = reqP.params.id)
    (hfound : findById rt db reqP.params.id = .ok (some sweet))
    (hs : sweet.quantity = .fin s) (hv : schemaValid sweet = true) (hn : 1 ≤ n) :
    (n ≤ s → s ≤ 2 ^ 53 →
      (purchaseSweet rt db reqP).1 =
        .respond { status := 200, message := some "Purchase successful",
                   sweet := some { sweet with quantity := .fin ((s - n : ℤ) : ℚ) },
                   purchased := some (.num (.fin n)) }
      ∧ (restockSweet rt (purchaseSweet rt db reqP).2 reqR).1 =
        .respond { status := 200, message := some "Restock successful", sweet := some sweet,
                   added := some (.num (.fin n)) }
      ∧ findById rt (restockSweet rt (purchaseSweet rt db reqP).2 reqR).2 reqP.params.id
        = .ok (some sweet)
      ∧ (restockSweet rt (purchaseSweet rt db reqP).2 reqR).2 = db)
    ∧ (s + n ≤ 2 ^ 53 →
      (restockSweet rt db reqR).1 =
        .respond { status := 200, message := some "Restock successful",
                   sweet := some { sweet with quantity := .fin ((s + n : ℤ) : ℚ) },
                   added := some (.num (.fin n)) }
      ∧ (purchaseSweet rt (restockSweet rt db reqR).2 reqP).1 =
        .respond { status := 200, message := some "Purchase successful", sweet := some sweet,
                   purchased := some (.num (.fin n)) }
      ∧ findById rt (purchaseSweet rt (restockSweet rt db reqR).2 reqP).2 reqP.params.id
        = .ok (some sweet)
      ∧ (purchaseSweet rt (restockSweet rt db reqR).2 reqP).2 = db) := by
  obtain ⟨oid, hc, hf⟩ := findById_ok hfound
  have hoid : sweet._id = oid := find_id_eq hf
  have hn1 : (1 : ℚ) ≤ n := by exact_mod_cast hn
  have hpresent : (JSNum.fin (n : ℚ)).isFalsy = false := by
    simp only [JSNum.isFalsy, decide_eq_false_iff_not]
    intro h0
    rw [h0] at hn1
    norm_num at hn1
  have hguard : (JSNum.fin (n : ℚ)).lt (.fin 1) = false := by
    simpa [JSNum.lt] using hn1
  have hs0 : (0 : ℚ) ≤ s := by
    have := schemaValid_quantity hv
    rw [hs] at this
    simpa [JSNum.ge] using this
  have hs0' : 0 ≤ s := by exact_mod_cast hs0
  have hback : db = updateQuantity db sweet._id (.fin s) := by
    rw [hoid, ← hs, updateQuantity_self db oid sweet hf]
  constructor
  · intro hns hsafe
    have hns' : (n : ℚ) ≤ s := by exact_mod_cast hns
    have e1 := purchase_accepts rt db reqP sweet s n hP hn1 hns' hfound hs hv
    have hd : (JSNum.fin s).sub (.fin n) = .fin ((s - n : ℤ) : ℚ) :=
      sub_intCast s n (by rw [abs_of_nonneg (by omega)]; omega)
    rw [hd] at e1
    have hf1 : findById rt (updateQuantity db sweet._id (.fin ((s - n : ℤ) : ℚ)))
        reqR.params.id = .ok (some { sweet with quantity := .fin ((s - n : ℤ) : ℚ) }) := by
      rw [hid]
      exact findById_updateQuantity hfound _
    have hv1 : schemaValid { sweet with quantity := .fin ((s - n : ℤ) : ℚ) } = true :=
      schemaValid_with_quantity hv (by
        simp only [JSNum.ge, decide_eq_true_eq]
        have : (0 : ℤ) ≤ s - n := by omega
        exact_mod_cast this)
    have e2 := restock_accepts rt _ reqR _ (.fin n) hR hpresent hguard hf1 hv1
    have hsum : JSNum.add (.fin ((s - n : ℤ) : ℚ)) (.fin n) = .fin s := by
      have := add_intCast (s - n) n (by rw [abs_of_nonneg (by omega)]; omega)
      rw [this]
      congr 1
      push_cast
      ring
    simp only [hsum, updateQuantity_twice] at e2
    rw [sweet_with_quantity hs, ← hback] at e2
    rw [e1, e2]
    exact ⟨rfl, rfl, hfound, rfl⟩
  · intro hsafe
    have hfR : findById rt db reqR.params.id = .ok (some sweet) := by rw [hid]; exact hfound
    have e1 := restock_accepts rt db reqR sweet (.fin n) hR hpresent hguard hfR hv
    have hsum : sweet.quantity.add (.fin n) = .fin ((s + n : ℤ) : ℚ) := by
      rw [hs]
      exact add_intCast s n (by rw [abs_of_nonneg (by omega)]; omega)
    rw [hsum] at e1
    have hf1 : findById rt (updateQuantity db sweet._id (.fin ((s + n : ℤ) : ℚ)))
        reqP.params.id = .ok (some { sweet with quantity := .fin ((s + n : ℤ) : ℚ) }) :=
      findById_updateQuantity hfound _
    have hv1 : schemaValid { sweet with quantity := .fin ((s + n : ℤ) : ℚ) } = true :=
      schemaValid_with_quantity hv (by
        simp only [JSNum.ge, decide_eq_true_eq]
        have : (0 : ℤ) ≤ s + n := by omega
        exact_mod_cast this)
    have e2 := purchase_accepts rt _ reqP _ ((s + n : ℤ) : ℚ) n hP hn1
      (by
        have : n ≤ s + n := by omega
        exact_mod_cast this) hf1 rfl hv1
    have hdiff : (JSNum.fin ((s + n : ℤ) : ℚ)).sub (.fin n) = .fin s := by
      have := sub_intCast (s + n) n (by rw [abs_of_nonneg (by omega)]; omega)
      rw [this]
      congr 1
      push_cast
      ring
    simp only [hdiff, updateQuantity_twice] at e2
    rw [sweet_with_quantity hs, ← hback] at e2
    rw [e1, e2]
    exact ⟨rfl, rfl, hfound, rfl⟩

/-- Three bought of a stock of 10 and three restocked, and the other way round: the store is
as before. -/
theorem purchase_restock_round_trip_witness :
    (restockSweet stdRuntime
        (purchaseSweet stdRuntime [gummyBears 10] (stockRequest (.num (.fin 3)))).2
        (stockRequest (.num (.fin 3)))).2 = [gummyBears 10]
    ∧ (purchaseSweet stdRuntime
        (restockSweet stdRuntime [gummyBears 10] (stockRequest (.num (.fin 3)))).2
        (stockRequest (.num (.fin 3)))).2 = [gummyBears 10] := by
  have h := purchase_restock_round_trip stdRuntime [gummyBears 10]
    (stockRequest (.num (.fin 3))) (stockRequest (.num (.fin 3))) (gummyBears 10) 10 3
    (by simp [stockRequest]) (by simp [stockRequest]) rfl rfl (by simp [gummyBears])
    (by decide) (by decide)
  exact ⟨(h.1 (by decide) (by decide)).2.2.2, (h.2 (by decide)).2.2.2⟩

/-- Claim C29 fails as stated: against a product with the stock `2 ^ 53` = 9007199254740992,
a Restock of 1 succeeds and leaves 9007199254740992, the double that the sum rounds to, and
the following Purchase of 1 succeeds and leaves 9007199254740991: the stored quantity is not
restored to `s`. -/
theorem restock_purchase_large_stock_not_restored :
    (restockSweet stdRuntime [gummyBears 9007199254740992]
        (stockRequest (.num (.fin 1)))).2 = [gummyBears 9007199254740992]
    ∧ (purchaseSweet stdRuntime
        (restockSweet stdRuntime [gummyBears 9007199254740992]
          (stockRequest (.num (.fin 1)))).2
        (stockRequest (.num (.fin 1)))).1 =
      .respond { status := 200, message := some "Purchase successful",
                 sweet := some (gummyBears 9007199254740991),
                 purchased := some (.num (.fin 1)) }
    ∧ storedQuantity
        (purchaseSweet stdRuntime
          (restockSweet stdRuntime [gummyBears 9007199254740992]
            (stockRequest (.num (.fin 1)))).2
          (stockRequest (.num (.fin 1)))).2 1
      = some (.fin 9007199254740991)
    ∧ (9007199254740991 : ℚ) ≠ 9007199254740992 := by
  refine ⟨by decide!, by decide!, by decide!, by norm_num⟩

/-! ## The client's route guard -/

/-- Claim C30: for every client auth state, the admin-only `ProtectedRoute` renders its
children if and only if `loading` is false, a user is present and the user's role is
`admin`; it renders the loading view while `loading` is true, redirects to `/login` when
loading is over and no user is present, and redirects to `/` when a user is present whose
role is not `admin`.  In `AuthProvider`, `isAdmin` implies `isAuthenticated`. -/
theorem protectedRoute_adminOnly (auth : AuthState) :
    (ProtectedRoute true auth = .children ↔
      auth.loading = false ∧ ∃ user, auth.user = some user ∧ user.role = .str "admin")
    ∧ (auth.loading = true → ProtectedRoute true auth = .loading)
    ∧ (auth.loading = false → auth.user = none → ProtectedRoute true auth = .navigate "/login")
    ∧ (auth.loading = false → ∀ user, auth.user = some user → user.role ≠ .str "admin" →
        ProtectedRoute true auth = .navigate "/")
    ∧ (auth.isAdmin = true → auth.isAuthenticated = true) := by
  obtain ⟨user, loading⟩ := auth
  cases loading <;> cases user with
  | none => simp [ProtectedRoute, AuthState.isAdmin, AuthState.isAuthenticated]
  | some u =>
    by_cases hr : u.role = .str "admin" <;>
      simp [ProtectedRoute, AuthState.isAdmin, AuthState.isAuthenticated, hr]

/-- An administrator sees the page, a regular user is sent to `/`, a visitor to `/login`, and
the loading view shows while the session is checked. -/
theorem protectedRoute_adminOnly_witness :
    ProtectedRoute true { user := some { role := .str "admin" }, loading := false } = .children
    ∧ ProtectedRoute true { user := some { role := .str "user" }, loading := false }
      = .navigate "/"
    ∧ ProtectedRoute true { user := none, loading := false } = .navigate "/login"
    ∧ ProtectedRoute true { user := some { role := .str "admin" }, loading := true }
      = .loading := by
  refine ⟨?_, ?_, ?_, ?_⟩
  · exact (protectedRoute_adminOnly
      { user := some { role := .str "admin" }, loading := false }).1.mpr
      ⟨rfl, { role := .str "admin" }, rfl, rfl⟩
  · exact (protectedRoute_adminOnly
      { user := some { role := .str "user" }, loading := false }).2.2.2.1 rfl
      { role := .str "user" } rfl (by decide)
  · exact (protectedRoute_adminOnly { user := none, loading := false }).2.2.1 rfl rfl
  · exact (protectedRoute_adminOnly
      { user := some { role := .str "admin" }, loading := true }).2.1 rfl

end SweetShop
